import Mathlib

/-!
# The receptor signalling substrate of ceptr (`src/src/receptor.c`)

A shallow embedding of the semantic trees, of the end-condition evaluator, of the
expectation engine, of the pending-response table and of the delivery dispatcher, followed
by the properties proved about them.

Conventions of the embedding:

* a tree node `T` carries its symbol, its surface and the list of its children; child
  indices are 1-based as in the C code (`_t_child`);
* in-place mutation is rendered by returning the updated value; `_t_clone` and `_t_rclone`
  are the identity on values, and `_t_free` has no counterpart;
* `raise_error` and the dereference of a NULL pointer end the call with an `Err`;
* the external collaborators (clock, pattern matcher, process engine) are the fields of `Env`;
  calls into the process queue are recorded, in order, in the list `Receptor.q`.
-/

set_option autoImplicit false

namespace Ceptr

/-! ## Semantic identifiers, surfaces and trees -/

/-- Modelled from the spec: the system symbols that `receptor.c` names (they are declared in
`sys_defs.h`, which is not among the sources at hand) as pairwise distinct identifiers, and
`user id` for every other symbol, aspect or process. `semeq` is equality of these. -/
inductive SemanticID where
  | NULL_SYMBOL | RECEPTOR_INSTANCE | INSTANCE_OF | CONTEXT_NUM | PARENT_CONTEXT_NUM
  | RECEPTOR_STATE | FLUX | DEFAULT_ASPECT | EXPECTATIONS | SIGNALS | PENDING_SIGNALS
  | PENDING_RESPONSES | PENDING_RESPONSE | CONVERSATIONS | CONVERSATION | CONVERSATION_IDENT
  | CONVERSATION_UUID | RECEPTOR_ELAPSED_TIME | EXPECTATION | CARRIER | PATTERN | ACTION
  | PARAMS | END_CONDITIONS | UNLIMITED | COUNT | TIMEOUT_AT | TODAY | NOW | YEAR | MONTH
  | DAY | HOUR | MINUTE | SECOND | SEMANTIC_MAP | SIGNAL | ENVELOPE | MESSAGE | HEAD | BODY
  | FROM_ADDRESS | TO_ADDRESS | RECEPTOR_ADDR | ASPECT_IDENT | SIGNAL_UUID
  | IN_RESPONSE_TO_UUID | WAKEUP_REFERENCE | SEMTREX_GROUP | SYS_RECEPTOR
  | user (id : Nat)

/-- A number for each identifier, different for different identifiers. -/
def SemanticID.code : SemanticID → Nat
  | .NULL_SYMBOL => 0
  | .RECEPTOR_INSTANCE => 1
  | .INSTANCE_OF => 2
  | .CONTEXT_NUM => 3
  | .PARENT_CONTEXT_NUM => 4
  | .RECEPTOR_STATE => 5
  | .FLUX => 6
  | .DEFAULT_ASPECT => 7
  | .EXPECTATIONS => 8
  | .SIGNALS => 9
  | .PENDING_SIGNALS => 10
  | .PENDING_RESPONSES => 11
  | .PENDING_RESPONSE => 12
  | .CONVERSATIONS => 13
  | .CONVERSATION => 14
  | .CONVERSATION_IDENT => 15
  | .CONVERSATION_UUID => 16
  | .RECEPTOR_ELAPSED_TIME => 17
  | .EXPECTATION => 18
  | .CARRIER => 19
  | .PATTERN => 20
  | .ACTION => 21
  | .PARAMS => 22
  | .END_CONDITIONS => 23
  | .UNLIMITED => 24
  | .COUNT => 25
  | .TIMEOUT_AT => 26
  | .TODAY => 27
  | .NOW => 28
  | .YEAR => 29
  | .MONTH => 30
  | .DAY => 31
  | .HOUR => 32
  | .MINUTE => 33
  | .SECOND => 34
  | .SEMANTIC_MAP => 35
  | .SIGNAL => 36
  | .ENVELOPE => 37
  | .MESSAGE => 38
  | .HEAD => 39
  | .BODY => 40
  | .FROM_ADDRESS => 41
  | .TO_ADDRESS => 42
  | .RECEPTOR_ADDR => 43
  | .ASPECT_IDENT => 44
  | .SIGNAL_UUID => 45
  | .IN_RESPONSE_TO_UUID => 46
  | .WAKEUP_REFERENCE => 47
  | .SEMTREX_GROUP => 48
  | .SYS_RECEPTOR => 49
  | .user id => id + 50

/-- The identifier that has a given number. -/
def SemanticID.ofCode : Nat → SemanticID
  | 0 => .NULL_SYMBOL
  | 1 => .RECEPTOR_INSTANCE
  | 2 => .INSTANCE_OF
  | 3 => .CONTEXT_NUM
  | 4 => .PARENT_CONTEXT_NUM
  | 5 => .RECEPTOR_STATE
  | 6 => .FLUX
  | 7 => .DEFAULT_ASPECT
  | 8 => .EXPECTATIONS
  | 9 => .SIGNALS
  | 10 => .PENDING_SIGNALS
  | 11 => .PENDING_RESPONSES
  | 12 => .PENDING_RESPONSE
  | 13 => .CONVERSATIONS
  | 14 => .CONVERSATION
  | 15 => .CONVERSATION_IDENT
  | 16 => .CONVERSATION_UUID
  | 17 => .RECEPTOR_ELAPSED_TIME
  | 18 => .EXPECTATION
  | 19 => .CARRIER
  | 20 => .PATTERN
  | 21 => .ACTION
  | 22 => .PARAMS
  | 23 => .END_CONDITIONS
  | 24 => .UNLIMITED
  | 25 => .COUNT
  | 26 => .TIMEOUT_AT
  | 27 => .TODAY
  | 28 => .NOW
  | 29 => .YEAR
  | 30 => .MONTH
  | 31 => .DAY
  | 32 => .HOUR
  | 33 => .MINUTE
  | 34 => .SECOND
  | 35 => .SEMANTIC_MAP
  | 36 => .SIGNAL
  | 37 => .ENVELOPE
  | 38 => .MESSAGE
  | 39 => .HEAD
  | 40 => .BODY
  | 41 => .FROM_ADDRESS
  | 42 => .TO_ADDRESS
  | 43 => .RECEPTOR_ADDR
  | 44 => .ASPECT_IDENT
  | 45 => .SIGNAL_UUID
  | 46 => .IN_RESPONSE_TO_UUID
  | 47 => .WAKEUP_REFERENCE
  | 48 => .SEMTREX_GROUP
  | 49 => .SYS_RECEPTOR
  | id + 50 => .user id

/-- Equality of semantic identifiers is decidable: `semeq`. -/
instance : DecidableEq SemanticID := fun a b =>
  have h1 : ∀ x : SemanticID, SemanticID.ofCode x.code = x := fun x => by cases x <;> rfl
  decidable_of_iff (a.code = b.code)
    ⟨fun h => by rw [← h1 a, ← h1 b, h], fun h => by rw [h]⟩

open SemanticID

abbrev Symbol := SemanticID
abbrev Aspect := SemanticID
abbrev Process := SemanticID

/-- The 128-bit identifier `UUIDt`; `__uuid_equal` is equality of both halves. -/
structure UUIDt where
  time : Nat
  data : Nat
  deriving DecidableEq

/-- The surface of a node whose surface is not itself a tree: nothing (`_t_newr`), a C `int`
(`_t_newi`), a semantic identifier (`_t_news`, `_t_newp`) or a uuid. -/
inductive Surface where
  | none
  | int (i : Int)
  | sem (s : SemanticID)
  | uuid (u : UUIDt)
  deriving DecidableEq

/-- A semantic tree `T`. `tnode` is a node made by `_t_newt`, whose surface is a tree
(the BODY of a signal). -/
inductive T where
  | node (symbol : SemanticID) (surface : Surface) (children : List T)
  | tnode (symbol : SemanticID) (tree : T) (children : List T)

mutual
/-- Equality of trees is decidable. -/
def T.decEq : (a b : T) → Decidable (a = b)
  | .node s x cs, .node s' x' cs' =>
    if h1 : s = s' then
      if h2 : x = x' then
        match T.decEqList cs cs' with
        | isTrue h3 => isTrue (by subst h1 h2 h3; rfl)
        | isFalse h3 => isFalse (by intro h; cases h; exact h3 rfl)
      else isFalse (by intro h; cases h; exact h2 rfl)
    else isFalse (by intro h; cases h; exact h1 rfl)
  | .tnode s t cs, .tnode s' t' cs' =>
    if h1 : s = s' then
      match T.decEq t t' with
      | isTrue h2 =>
        match T.decEqList cs cs' with
        | isTrue h3 => isTrue (by subst h1 h2 h3; rfl)
        | isFalse h3 => isFalse (by intro h; cases h; exact h3 rfl)
      | isFalse h2 => isFalse (by intro h; cases h; exact h2 rfl)
    else isFalse (by intro h; cases h; exact h1 rfl)
  | .node _ _ _, .tnode _ _ _ => isFalse (by intro h; cases h)
  | .tnode _ _ _, .node _ _ _ => isFalse (by intro h; cases h)
/-- Equality of lists of trees is decidable. -/
def T.decEqList : (as bs : List T) → Decidable (as = bs)
  | [], [] => isTrue rfl
  | [], _ :: _ => isFalse (by intro h; cases h)
  | _ :: _, [] => isFalse (by intro h; cases h)
  | a :: as, b :: bs =>
    match T.decEq a b with
    | isTrue h1 =>
      match T.decEqList as bs with
      | isTrue h2 => isTrue (by subst h1 h2; rfl)
      | isFalse h2 => isFalse (by intro h; cases h; exact h2 rfl)
    | isFalse h1 => isFalse (by intro h; cases h; exact h1 rfl)
end

instance : DecidableEq T := T.decEq

/-- The symbol of a node: `_t_symbol`. -/
def T.symbol : T → SemanticID
  | .node s _ _ => s
  | .tnode s _ _ => s

/-- The children of a node, first child first. -/
def T.kids : T → List T
  | .node _ _ cs => cs
  | .tnode _ _ cs => cs

/-- The node with its children replaced, symbol and surface kept. -/
def T.setKids : T → List T → T
  | .node s x _, cs => .node s x cs
  | .tnode s t _, cs => .tnode s t cs

/-- The number of children: `_t_children`. -/
def _t_children (t : T) : Nat := t.kids.length

/-- The `i`-th child, counted from 1, or NULL when there is none: `_t_child`. A NULL parent
gives NULL here; the error is raised where the source reads through the pointer. -/
def _t_child (t : Option T) (i : Nat) : Option T :=
  match t with
  | none => none
  | some t => if i = 0 then none else t.kids[i - 1]?

/-- Appending `c` as the last child of `t`: `_t_add`. -/
def _t_add (t c : T) : T := t.setKids (t.kids ++ [c])

/-- A childless node without surface: `_t_newr`, `_t_new_root`. -/
def _t_newr (sym : Symbol) : T := .node sym .none []

/-- A childless node holding a C `int`: `_t_newi`. -/
def _t_newi (sym : Symbol) (i : Int) : T := .node sym (.int i) []

/-- A childless node holding a semantic identifier: `_t_news`, `_t_newp`. -/
def _t_news (sym : Symbol) (s : SemanticID) : T := .node sym (.sem s) []

/-- A childless node whose surface is the tree `t`: `_t_newt`. -/
def _t_newt (sym : Symbol) (t : T) : T := .tnode sym t []

/-- A copy of a tree: `_t_clone` and `_t_rclone` (values are not aliased). -/
def _t_clone (t : T) : T := t

deriving instance DecidableEq for Except

/-- How a call ends when it does not return: the `raise_error` sites of `receptor.c`, the
two ways of reading through a pointer that has nothing of the expected kind behind it, and a
call through a function pointer that points to data. -/
inductive Err where
  | both_response_uuid_and_until
  | request_missing_END_CONDITIONS
  | unknown_end_condition
  | null_action
  | parent_conversation_not_found
  | cant_find_conversation
  | null_deref
  | bad_surface
  | not_a_function
  deriving DecidableEq

/-- Reading `*(int *)_t_surface(t)`. -/
def surface_int : Option T → Except Err Int
  | none => .error .null_deref
  | some (.node _ (.int i) _) => .ok i
  | some _ => .error .bad_surface

/-- Reading `*(Symbol *)_t_surface(t)`. -/
def surface_sem : Option T → Except Err SemanticID
  | none => .error .null_deref
  | some (.node _ (.sem s) _) => .ok s
  | some _ => .error .bad_surface

/-- Reading `(UUIDt *)_t_surface(t)`. -/
def surface_uuid : Option T → Except Err UUIDt
  | none => .error .null_deref
  | some (.node _ (.uuid u) _) => .ok u
  | some _ => .error .bad_surface

/-- Reading `(T *)_t_surface(t)`. -/
def surface_tree : Option T → Except Err T
  | none => .error .null_deref
  | some (.tnode _ t _) => .ok t
  | some _ => .error .bad_surface

/-- The value of a C `int` expression: the result reduced into the 32-bit two's complement
range. -/
def wrap32 (x : Int) : Int := (x + 2147483648) % 4294967296 - 2147483648

/-! ## The end-condition evaluator -/

/-- The broken-down UTC time `struct tm` that `gmtime_r` fills: `tm_year` counts from 1900
and `tm_mon` from 0. -/
structure Tm where
  tm_sec : Int
  tm_min : Int
  tm_hour : Int
  tm_mday : Int
  tm_mon : Int
  tm_year : Int
  deriving DecidableEq

/-- The test of the TIMEOUT_AT branch of `evaluateEndCondition` on the child `c`: the six
fields are read from `(TIMEOUT_AT (TODAY y m d) (NOW h m s))` and the condition of the `if`
is the disjunction of the six comparisons with the current time. -/
def timeout_at_test (now : Tm) (c : T) : Except Err Bool :=
  let td := _t_child (some c) 1
  let nw := _t_child (some c) 2
  match surface_int (_t_child td 1), surface_int (_t_child td 2), surface_int (_t_child td 3),
        surface_int (_t_child nw 1), surface_int (_t_child nw 2), surface_int (_t_child nw 3) with
  | .ok y, .ok m, .ok mday, .ok hour, .ok min, .ok sec =>
    let year := wrap32 (y - 1900)
    let mon := wrap32 (m - 1)
    .ok (decide (year > now.tm_year) || decide (mon > now.tm_mon) ||
         decide (mday > now.tm_mday) || decide (hour > now.tm_hour) ||
         decide (min > now.tm_min) || decide (sec > now.tm_sec))
  | .error e, _, _, _, _, _ => .error e
  | _, .error e, _, _, _, _ => .error e
  | _, _, .error e, _, _, _ => .error e
  | _, _, _, .error e, _, _ => .error e
  | _, _, _, _, .error e, _ => .error e
  | _, _, _, _, _, .error e => .error e

/-- The `while (k)` loop of `evaluateEndCondition`: `k` runs from the number of children
down to 1, `kids` are the children of the END_CONDITIONS node (a COUNT is decremented in
place), and `cleanup`, `allow` are the two out-parameters. -/
def evaluateEndCondition_loop (now : Tm) :
    Nat → List T → Bool → Bool → Except Err (List T × Bool × Bool)
  | 0, kids, cleanup, allow => .ok (kids, cleanup, allow)
  | k + 1, kids, cleanup, allow =>
    match kids[k]? with
    | none => .error .null_deref
    | some c =>
      if c.symbol = COUNT then
        match c with
        | .node s (.int n) cs =>
          .ok (kids.set k (.node s (.int (wrap32 (n - 1))) cs),
               cleanup || decide (n ≤ 1), allow || decide (n ≥ 1))
        | _ => .error .bad_surface
      else if c.symbol = TIMEOUT_AT then
        match timeout_at_test now c with
        | .error e => .error e
        | .ok b => evaluateEndCondition_loop now k kids (!(allow || b)) (allow || b)
      else if c.symbol = UNLIMITED then
        evaluateEndCondition_loop now k kids cleanup true
      else .error .unknown_end_condition

/-- What `evaluateEndCondition` leaves behind: the END_CONDITIONS tree after the call and the
two out-parameters. -/
structure EndCondition where
  ec : T
  cleanup : Bool
  allow : Bool
  deriving DecidableEq

/-- The function `evaluateEndCondition(ec, &cleanup, &allow)` at the current time `now`. -/
def evaluateEndCondition (now : Tm) (ec : Option T) : Except Err EndCondition :=
  match ec with
  | none => .error .null_deref
  | some ec =>
    match evaluateEndCondition_loop now (_t_children ec) ec.kids false false with
    | .error e => .error e
    | .ok (kids, cleanup, allow) => .ok ⟨ec.setKids kids, cleanup, allow⟩

/-! ## External collaborators and the layout of the trees -/

/-- Modelled from the spec: the queue of the process engine (`process.c`, not among the
sources at hand) as the record of the two calls by which `receptor.c` hands work to it,
`_p_wakeup(q, wakeup, value, noReductionErr)` and `__p_addrt2q(q, rt, sm)`. -/
inductive QItem where
  | wakeup (wakeup_reference : T) (value : T)
  | addrt2q (rt : T) (sem_map : Option T)
  deriving DecidableEq

/-- Modelled from the spec: what `receptor.c` takes from outside (section 6 of the spec), not
among the sources at hand. `now` is the wall-clock time read by `time` and `gmtime_r`;
`matchr stx subject` is `_t_matchr`, giving the match results when the subject matches;
`fill_from_match params m contents` is the parameter tree left by `_p_fill_from_match`;
`make_run_tree p params sm` is `_p_make_run_tree`; `build_wakeup_info code_point process_id`
is `__p_build_wakeup_info`. `do_kids_recount` says whether the loop macro `DO_KIDS` of `tree.h`
reads the number of children again before each iteration (`true`) or once before the first
(`false`). -/
structure Env where
  now : Tm
  matchr : T → T → Option T
  fill_from_match : T → T → T → T
  make_run_tree : Process → T → Option T → T
  build_wakeup_info : T → Int → T
  do_kids_recount : Bool

/-- Modelled from the spec: the child indices of `receptor.h` (not among the sources at hand),
as fixed by the order in which `__r_make_signal` adds the parts of a signal. -/
abbrev SignalEnvelopeIdx : Nat := 1
/-- Modelled from the spec: index of the MESSAGE in a SIGNAL (see `SignalEnvelopeIdx`). -/
abbrev SignalMessageIdx : Nat := 2
/-- Modelled from the spec: index of the SIGNAL_UUID in an ENVELOPE. -/
abbrev EnvelopeSignalUUIDIdx : Nat := 1
/-- Modelled from the spec: index of the HEAD in a MESSAGE. -/
abbrev MessageHeadIdx : Nat := 1
/-- Modelled from the spec: index of the BODY in a MESSAGE. -/
abbrev MessageBodyIdx : Nat := 2
/-- Modelled from the spec: index of the FROM_ADDRESS in a HEAD. -/
abbrev HeadFromIdx : Nat := 1
/-- Modelled from the spec: index of the TO_ADDRESS in a HEAD. -/
abbrev HeadToIdx : Nat := 2
/-- Modelled from the spec: index of the ASPECT_IDENT in a HEAD. -/
abbrev HeadAspectIdx : Nat := 3
/-- Modelled from the spec: index of the CARRIER in a HEAD. -/
abbrev HeadCarrierIdx : Nat := 4
/-- Modelled from the spec: index of the first optional item of a HEAD. -/
abbrev HeadOptionalsIdx : Nat := 5

/-- Modelled from the spec: the child indices of an EXPECTATION declared in `receptor.h`, as
fixed by the order in which `__r_build_expectation` adds the children. -/
abbrev ExpectationCarrierIdx : Nat := 1
/-- Modelled from the spec: index of the pattern in an EXPECTATION. -/
abbrev ExpectationPatternIdx : Nat := 2
/-- Modelled from the spec: index of the action in an EXPECTATION. -/
abbrev ExpectationActionIdx : Nat := 3
/-- Modelled from the spec: index of the PARAMS in an EXPECTATION. -/
abbrev ExpectationParamsIdx : Nat := 4
/-- Modelled from the spec: index of the END_CONDITIONS in an EXPECTATION. -/
abbrev ExpectationEndCondsIdx : Nat := 5
/-- Modelled from the spec: index of the first optional item of an EXPECTATION. -/
abbrev ExpectationOptionalsIdx : Nat := 6

/-- Modelled from the spec: the child indices of a PENDING_RESPONSE declared in `receptor.h`,
as fixed by the order in which `_r_request` adds the children. -/
abbrev PendingResponseUUIDIdx : Nat := 1
/-- Modelled from the spec: index of the CARRIER in a PENDING_RESPONSE. -/
abbrev PendingResponseCarrierIdx : Nat := 2
/-- Modelled from the spec: index of the wakeup reference in a PENDING_RESPONSE. -/
abbrev PendingResponseWakeupIdx : Nat := 3
/-- Modelled from the spec: index of the END_CONDITIONS in a PENDING_RESPONSE. -/
abbrev PendingResponseEndCondsIdx : Nat := 4
/-- Modelled from the spec: index of the CONVERSATION_IDENT in a PENDING_RESPONSE. -/
abbrev PendingResponseConversationIdentIdx : Nat := 5

/-- Modelled from the spec: the child indices of a CONVERSATION declared in `receptor.h`, as
fixed by the order in which `_r_add_conversation` adds the children. -/
abbrev ConversationIdentIdx : Nat := 1
/-- Modelled from the spec: index of the END_CONDITIONS in a CONVERSATION. -/
abbrev ConversationUntilIdx : Nat := 2
/-- Modelled from the spec: index of the sub-conversations in a CONVERSATION. -/
abbrev ConversationConversationsIdx : Nat := 3
/-- Modelled from the spec: index of the wakeup reference in a CONVERSATION. -/
abbrev ConversationWakeupIdx : Nat := 4
/-- Modelled from the spec: index of the CONVERSATION_UUID in a CONVERSATION_IDENT, as fixed
by `__cid_new`. -/
abbrev ConversationIdentUUIDIdx : Nat := 1

/-- Modelled from the spec: the child indices of an aspect of the flux declared in
`receptor.h`, as fixed by `__r_add_aspect`. -/
abbrev aspectExpectationsIdx : Nat := 1
/-- Modelled from the spec: index of the SIGNALS in an aspect of the flux. -/
abbrev aspectSignalsIdx : Nat := 2

/-- Following a path of child indices from `t`: `_t_get`, `_t_getv`. -/
def _t_get (t : T) (p : List Nat) : Option T := p.foldl _t_child (some t)

/-- The node with its `i`-th child (counted from 1) replaced by `c`: what a write through the
pointer `_t_child(t,i)` leaves in `t`. -/
def T.setChild (t : T) (i : Nat) (c : T) : T := t.setKids (t.kids.set (i - 1) c)

/-- The first tree of `cs` whose symbol is `sym`. -/
def find_symbol (sym : SemanticID) : List T → Option T
  | [] => none
  | c :: cs => if c.symbol = sym then some c else find_symbol sym cs

/-- Modelled from the spec: `__t_find(t, sym, start_child)` of `tree.c` (not among the sources
at hand; exercised by `testTreeFindBySymbol`): the first child of `t`, from child number
`start_child` on, whose symbol is `sym`, or NULL. -/
def __t_find (t : T) (sym : SemanticID) (start_child : Nat) : Option T :=
  find_symbol sym (t.kids.drop (start_child - 1))

/-- The uuid of a conversation identifier: `__cid_getUUID`. -/
def __cid_getUUID (cid : Option T) : Except Err UUIDt :=
  surface_uuid (_t_child cid ConversationIdentUUIDIdx)

/-- Equality of two conversation identifiers: `__cid_equal`. -/
def __cid_equal (cid1 cid2 : T) : Except Err Bool :=
  match __cid_getUUID (some cid1), __cid_getUUID (some cid2) with
  | .ok u1, .ok u2 => .ok (decide (u1 = u2))
  | .error e, _ => .error e
  | _, .error e => .error e

/-! ## The expectation engine -/

/-- The HEAD of a signal: `_t_getv(signal,SignalMessageIdx,MessageHeadIdx,TREE_PATH_TERMINATOR)`. -/
def signal_head (signal : T) : Option T := _t_get signal [SignalMessageIdx, MessageHeadIdx]

/-- The BODY of a signal: `_t_getv(signal,SignalMessageIdx,MessageBodyIdx,TREE_PATH_TERMINATOR)`. -/
def signal_body (signal : T) : Option T := _t_get signal [SignalMessageIdx, MessageBodyIdx]

/-- The carrier test of `__r_test_expectation` (lines 662-671): `true` when the call goes on,
`false` when it returns because the carriers differ and the expectation's is not
NULL_SYMBOL. -/
def carrier_test (expectation : Option T) (signal : T) : Except Err Bool :=
  match surface_sem (_t_child expectation ExpectationCarrierIdx),
        surface_sem (_t_child (signal_head signal) HeadCarrierIdx) with
  | .ok esym, .ok ssym => .ok (!(!decide (esym = ssym) && !decide (esym = NULL_SYMBOL)))
  | .error e, _ => .error e
  | _, .error e => .error e

/-- The conversation test of `__r_test_expectation` (lines 673-683): `true` when the call goes
on, `false` when it returns. -/
def conversation_test (expectation head : T) : Except Err Bool :=
  let s_cid := __t_find head CONVERSATION_IDENT HeadOptionalsIdx
  let e_cid := __t_find expectation CONVERSATION_IDENT ExpectationOptionalsIdx
  match e_cid, s_cid with
  | some _, none => .ok false
  | some e, some s => __cid_equal s e
  | none, _ => .ok true

/-- What a call of `__r_test_expectation` leaves behind: the expectation (NULL once
`_r_remove_expectation` has detached it from its aspect and freed it), the signal (a run tree
is added to it as a child) and the process queue. -/
structure TestOutcome where
  expectation : Option T
  signal : T
  q : List QItem
  deriving DecidableEq

/-- The function `__r_test_expectation(r, expectation, signal)`; `q` is the queue `r->q`. -/
def __r_test_expectation (env : Env) (q : List QItem) (expectation : Option T) (signal : T) :
    Except Err TestOutcome :=
  match signal_body signal with
  | none => .error .null_deref
  | some body =>
    match expectation, carrier_test expectation signal, signal_head signal with
    | _, .error e, _ => .error e
    | none, _, _ => .error .null_deref
    | _, _, none => .error .null_deref
    | some ex, .ok false, _ => .ok ⟨some ex, signal, q⟩
    | some ex, .ok true, some head =>
      match conversation_test ex head with
      | .error e => .error e
      | .ok false => .ok ⟨some ex, signal, q⟩
      | .ok true =>
        match _t_child (_t_child (some ex) ExpectationPatternIdx) 1, surface_tree (some body) with
        | none, _ => .error .null_deref
        | _, .error e => .error e
        | some pat, .ok signal_contents =>
          let stx := _t_add (_t_news SEMTREX_GROUP NULL_SYMBOL) (_t_clone pat)
          match evaluateEndCondition env.now (_t_child (some ex) ExpectationEndCondsIdx) with
          | .error e => .error e
          | .ok ec =>
            let ex1 := ex.setChild ExpectationEndCondsIdx ec.ec
            match ec.allow, env.matchr stx signal_contents with
            | true, some m =>
              match _t_child (some ex) ExpectationActionIdx,
                    _t_child (some ex) ExpectationParamsIdx with
              | none, _ => .error .null_action
              | _, none => .error .null_deref
              | some action, some with_params =>
                let params := env.fill_from_match (_t_clone with_params) m signal_contents
                if action.symbol = WAKEUP_REFERENCE then
                  .ok ⟨none, signal, q ++ [.wakeup action params]⟩
                else
                  match surface_sem (some action) with
                  | .error e => .error e
                  | .ok p =>
                    let sm := (__t_find ex SEMANTIC_MAP ExpectationOptionalsIdx).map _t_clone
                    let rt := env.make_run_tree p params sm
                    .ok ⟨if ec.cleanup then none else some ex1, _t_add signal rt,
                         q ++ [.addrt2q rt sm]⟩
            | _, _ => .ok ⟨if ec.cleanup then none else some ex1, signal, q⟩

/-! ## The receptor, sending and the pending responses -/

/-- The delivery outcome `Error` returned by `_r_deliver` and `__r_deliver_response`. -/
inductive Error where
  | noDeliveryErr
  deriving DecidableEq

/-- The lifecycle state of a receptor. -/
inductive ReceptorStates where
  | Alive
  | Dead
  deriving DecidableEq

/-- The parts of a `Receptor` that the signalling code works on: the four subtrees of its
RECEPTOR_STATE to which `__r_init` points `r->flux`, `r->pending_signals`,
`r->pending_responses` and `r->conversations`, the process queue `r->q` as the list of the
calls made into it, and `r->state`. -/
structure Receptor where
  flux : T
  pending_signals : T
  pending_responses : T
  conversations : T
  q : List QItem
  state : ReceptorStates
  deriving DecidableEq

/-- The function `__r_send(r, signal)`: the receptor afterwards and the returned copy of the
signal's uuid. -/
def __r_send (r : Receptor) (signal : T) : Except Err (Receptor × T) :=
  match _t_child (_t_child (some signal) SignalEnvelopeIdx) EnvelopeSignalUUIDIdx with
  | none => .error .null_deref
  | some u => .ok ({ r with pending_signals := _t_add r.pending_signals signal }, _t_clone u)

/-- The function `_r_send(r, signal)`. -/
def _r_send (r : Receptor) (signal : T) : Except Err (Receptor × T) := __r_send r signal

/-- The function `_r_request(r, signal, response_carrier, code_point, process_id, cid)`: the
receptor afterwards and the returned copy of the signal's uuid. -/
def _r_request (env : Env) (r : Receptor) (signal : T) (response_carrier : Symbol)
    (code_point : T) (process_id : Int) (cid : Option T) : Except Err (Receptor × T) :=
  match __r_send r signal with
  | .error e => .error e
  | .ok (r1, result) =>
    let pr := _t_add (_t_add (_t_add (_t_newr PENDING_RESPONSE) (_t_clone result))
      (_t_news CARRIER response_carrier)) (env.build_wakeup_info code_point process_id)
    match _t_get signal [SignalMessageIdx, MessageHeadIdx, HeadOptionalsIdx] with
    | none => .error .request_missing_END_CONDITIONS
    | some ec =>
      if ec.symbol = END_CONDITIONS then
        let pr1 := _t_add pr (_t_clone ec)
        let pr2 := match cid with
          | some c => _t_add pr1 (_t_clone c)
          | none => pr1
        .ok ({ r1 with pending_responses := _t_add r1.pending_responses pr2 }, result)
      else .error .request_missing_END_CONDITIONS

/-- The `DO_KIDS` loop of `__r_deliver_response` over the pending responses `l :: rest` that
are still to be visited: the entries and the queue it leaves. The loop is left at the first
entry whose uuid equals `u`, so nothing is detached before an entry is visited. `u` is the
uuid behind `response_to`, `response` the tree behind the BODY; both are read only where the
source reads through the pointer. -/
def __r_deliver_response_loop (env : Env) (u : Except Err UUIDt) (signal_carrier : Symbol)
    (response : Except Err T) (q : List QItem) : List T → Except Err (List T × List QItem)
  | [] => .ok ([], q)
  | l :: rest =>
    match u, surface_uuid (_t_child (some l) PendingResponseUUIDIdx) with
    | .error e, _ => .error e
    | _, .error e => .error e
    | .ok u1, .ok lu =>
      if u1 = lu then
        match evaluateEndCondition env.now (_t_child (some l) PendingResponseEndCondsIdx) with
        | .error e => .error e
        | .ok ec =>
          let l1 := l.setChild PendingResponseEndCondsIdx ec.ec
          if ec.allow then
            match surface_sem (_t_child (some l) PendingResponseCarrierIdx) with
            | .error e => .error e
            | .ok carrier =>
              if carrier = signal_carrier then
                match response, _t_child (some l) PendingResponseWakeupIdx with
                | .error e, _ => .error e
                | _, none => .error .null_deref
                | .ok resp, some wakeup =>
                  .ok (if ec.cleanup then rest else l1 :: rest,
                       q ++ [.wakeup wakeup (_t_clone resp)])
              else .ok (l1 :: rest, q)
          else .ok (if ec.cleanup then rest else l1 :: rest, q)
      else
        match __r_deliver_response_loop env u signal_carrier response q rest with
        | .error e => .error e
        | .ok (rest1, q1) => .ok (l :: rest1, q1)

/-- The function `__r_deliver_response(r, response_to, signal)`. -/
def __r_deliver_response (env : Env) (r : Receptor) (response_to : T) (signal : T) :
    Except Err (Receptor × Error) :=
  match surface_sem (_t_child (signal_head signal) HeadCarrierIdx), signal_body signal with
  | .error e, _ => .error e
  | _, none => .error .null_deref
  | .ok signal_carrier, some body =>
    match __r_deliver_response_loop env (surface_uuid (some response_to)) signal_carrier
        (surface_tree (some body)) r.q r.pending_responses.kids with
    | .error e => .error e
    | .ok (kids, q1) =>
      .ok ({ r with pending_responses := r.pending_responses.setKids kids, q := q1 },
           .noDeliveryErr)

/-! ## The conversation registry -/

/-- The default end-conditions `(END_CONDITIONS (UNLIMITED))`: `__r_build_default_until`. -/
def __r_build_default_until : T := _t_add (_t_newr END_CONDITIONS) (_t_newr UNLIMITED)

/-- A new conversation identifier `(CONVERSATION_IDENT (CONVERSATION_UUID:c))`: `__cid_new`. -/
def __cid_new (c : UUIDt) : T :=
  _t_add (_t_newr CONVERSATION_IDENT) (.node CONVERSATION_UUID (.uuid c) [])

mutual
/-- The `DO_KIDS` loop of `__r_find_conversation` over the sibling conversations `c :: rest`
still to be visited, `c` being child number `i`: the path of child indices that leads from
the CONVERSATIONS node to the conversation found, or NULL. -/
def __r_find_conversation_loop (uuid : UUIDt) : List T → Nat → Except Err (Option (List Nat))
  | [], _ => .ok none
  | c :: rest, i =>
    match __r_find_conversation_step uuid c with
    | .error e => .error e
    | .ok (some p) => .ok (some (i :: p))
    | .ok none => __r_find_conversation_loop uuid rest (i + 1)
/-- One iteration of that loop, on the conversation `c`: the empty path when `c` has the
uuid, else the path found below its sub-conversations. -/
def __r_find_conversation_step (uuid : UUIDt) : T → Except Err (Option (List Nat))
  | .node s x kids =>
    match __cid_getUUID (_t_child (some (.node s x kids)) ConversationIdentIdx) with
    | .error e => .error e
    | .ok u => if uuid = u then .ok (some []) else __r_find_conversation_sub uuid kids
  | .tnode s t kids =>
    match __cid_getUUID (_t_child (some (.tnode s t kids)) ConversationIdentIdx) with
    | .error e => .error e
    | .ok u => if uuid = u then .ok (some []) else __r_find_conversation_sub uuid kids
/-- The recursive call of `__r_find_conversation` on the sub-conversations, the child number
`ConversationConversationsIdx` among the children `kids` of a conversation. -/
def __r_find_conversation_sub (uuid : UUIDt) : List T → Except Err (Option (List Nat))
  | _ :: _ :: .node _ _ subs :: _ =>
    match __r_find_conversation_loop uuid subs 1 with
    | .error e => .error e
    | .ok (some p) => .ok (some (ConversationConversationsIdx :: p))
    | .ok none => .ok none
  | _ :: _ :: .tnode _ _ subs :: _ =>
    match __r_find_conversation_loop uuid subs 1 with
    | .error e => .error e
    | .ok (some p) => .ok (some (ConversationConversationsIdx :: p))
    | .ok none => .ok none
  | _ => .error .null_deref
end

/-- The function `__r_find_conversation(conversations, uuid)`: the path from `conversations`
to the conversation found, or NULL. -/
def __r_find_conversation (conversations : T) (uuid : UUIDt) : Except Err (Option (List Nat)) :=
  __r_find_conversation_loop uuid conversations.kids 1

/-- The function `_r_find_conversation(r, uuid)`. -/
def _r_find_conversation (r : Receptor) (uuid : UUIDt) : Except Err (Option (List Nat)) :=
  __r_find_conversation r.conversations uuid

/-- The tree `t` after `f` has been applied to the node that the path `p` of child indices
leads to: what a write through a pointer found by search leaves in `t`. -/
def T.updateAt (f : T → T) : List Nat → T → T
  | [], t => f t
  | i :: p, t =>
    match _t_child (some t) i with
    | none => t
    | some c => t.setChild i (T.updateAt f p c)

/-- The function `_r_add_conversation(r, parent_u, u, until, wakeup)`: the receptor
afterwards and the new conversation (`until_` stands for `until`). -/
def _r_add_conversation (r : Receptor) (parent_u : Option UUIDt) (u : UUIDt) (until_ : Option T)
    (wakeup : Option T) : Except Err (Receptor × T) :=
  let c0 := _t_add (_t_add (_t_add (_t_newr CONVERSATION) (__cid_new u))
    (match until_ with
     | some t => t
     | none => __r_build_default_until)) (_t_newr CONVERSATIONS)
  let c := match wakeup with
    | some w => _t_add c0 w
    | none => c0
  match parent_u with
  | some pu =>
    match _r_find_conversation r pu with
    | .error e => .error e
    | .ok none => .error .parent_conversation_not_found
    | .ok (some path) =>
      match _t_get r.conversations (path ++ [ConversationConversationsIdx]) with
      | none => .error .parent_conversation_not_found
      | some _ =>
        let cs := T.updateAt (fun p => _t_add p c) (path ++ [ConversationConversationsIdx])
          r.conversations
        .ok ({ r with conversations := cs }, c)
  | none => .ok ({ r with conversations := _t_add r.conversations c }, c)

/-! ## The flux and the delivery dispatcher -/

/-- The function `__r_add_aspect(flux, aspect)`: the flux with the new aspect, holding empty
EXPECTATIONS and SIGNALS, as its last child. -/
def __r_add_aspect (flux : T) (aspect : Aspect) : T :=
  _t_add flux (_t_add (_t_add (_t_newr aspect) (_t_newr EXPECTATIONS)) (_t_newr SIGNALS))

/-- The `DO_KIDS` loop of `__r_get_aspect` over the aspects `a :: rest` still to be visited,
`a` being child number `i` of the flux: the number of the first whose symbol is `aspect`. -/
def __r_get_aspect_loop (aspect : Aspect) : List T → Nat → Option Nat
  | [], _ => none
  | a :: rest, i => if aspect = a.symbol then some i else __r_get_aspect_loop aspect rest (i + 1)

/-- The function `__r_get_aspect(r, aspect)`: the flux afterwards and the child number in it
of the aspect returned. -/
def __r_get_aspect (flux : T) (aspect : Aspect) : T × Nat :=
  match __r_get_aspect_loop aspect flux.kids 1 with
  | some i => (flux, i)
  | none => (__r_add_aspect flux aspect, _t_children flux + 1)

/-- The optional items of a HEAD that `_r_deliver` looks for. -/
structure Optionals where
  conversation : Option T
  response_to : Option T
  end_conditions : Option T
  deriving DecidableEq

/-- The `while` loop of `_r_deliver` over the optional items `extra :: rest` of the HEAD. -/
def scan_optionals : List T → Optionals → Optionals
  | [], o => o
  | extra :: rest, o =>
    if CONVERSATION_IDENT = extra.symbol then
      scan_optionals rest { o with conversation := some extra }
    else if IN_RESPONSE_TO_UUID = extra.symbol then
      scan_optionals rest { o with response_to := some extra }
    else if END_CONDITIONS = extra.symbol then
      scan_optionals rest { o with end_conditions := some extra }
    else scan_optionals rest o

/-- The optional items found in the HEAD of a signal, from child `HeadOptionalsIdx` on. -/
def head_optionals (head : Option T) : Optionals :=
  match head with
  | none => ⟨none, none, none⟩
  | some h => scan_optionals (h.kids.drop (HeadOptionalsIdx - 1)) ⟨none, none, none⟩

/-- The block `if (conversation) ...` of `_r_deliver`: a conversation identifier that the
registry does not know opens a conversation at the root of the registry. -/
def open_conversation (r : Receptor) (o : Optionals) : Except Err Receptor :=
  match o.conversation with
  | none => .ok r
  | some conversation =>
    match __cid_getUUID (some conversation) with
    | .error e => .error e
    | .ok cuuid =>
      match _r_find_conversation r cuuid with
      | .error e => .error e
      | .ok (some _) => .ok r
      | .ok none =>
        match _r_add_conversation r none cuuid o.end_conditions none with
        | .error e => .error e
        | .ok (r1, _) => .ok r1

/-- The `DO_KIDS` loop of `_r_deliver` over the expectations of an aspect. `n` counts the
iterations that remain until `i` passes the number of children read before the first one;
`i` is the loop index; `es` are the children of the EXPECTATIONS node at this moment. With
`do_kids_recount` the loop also ends as soon as `i` passes the current number of
children. -/
def test_expectations (env : Env) :
    Nat → Nat → List T → T → List QItem → Except Err (List T × T × List QItem)
  | 0, _, es, signal, q => .ok (es, signal, q)
  | n + 1, i, es, signal, q =>
    if env.do_kids_recount && decide (es.length < i) then .ok (es, signal, q)
    else
      match __r_test_expectation env q (es[i - 1]?) signal with
      | .error e => .error e
      | .ok out =>
        test_expectations env n (i + 1)
          (match out.expectation with
           | some l => es.set (i - 1) l
           | none => es.eraseIdx (i - 1))
          out.signal out.q

/-- The function `_r_deliver(r, signal)`. -/
def _r_deliver (env : Env) (r : Receptor) (signal : T) : Except Err (Receptor × Error) :=
  let head := signal_head signal
  let o := head_optionals head
  match open_conversation r o with
  | .error e => .error e
  | .ok r1 =>
    match o.response_to with
    | some response_to => __r_deliver_response env r1 response_to signal
    | none =>
      match surface_sem (_t_child head HeadAspectIdx) with
      | .error e => .error e
      | .ok aspect =>
        let fa := __r_get_aspect r1.flux aspect
        match _t_child (some fa.1) fa.2 with
        | none => .error .null_deref
        | some a =>
          match _t_child (some a) aspectSignalsIdx, _t_child (some a) aspectExpectationsIdx with
          | none, _ => .error .null_deref
          | _, none => .error .null_deref
          | some as, some es =>
            match test_expectations env (_t_children es) 1 es.kids signal r1.q with
            | .error e => .error e
            | .ok (es1, signal1, q1) =>
              .ok ({ r1 with
                      flux := fa.1.setChild fa.2
                        ((a.setChild aspectSignalsIdx (_t_add as signal1)).setChild
                          aspectExpectationsIdx (es.setKids es1)),
                      q := q1 }, .noDeliveryErr)

/-! ## Building signals and expectations -/

/-- A receptor address `(type (RECEPTOR_ADDR:addr))`: `___r_make_addr`. -/
def __r_make_addr (type : Symbol) (addr : Int) : T := _t_add (_t_newr type) (_t_newi RECEPTOR_ADDR addr)

/-- The function `__r_make_signal(from, to, aspect, carrier, signal_contents, in_response_to,
until, cid)`; `t` is the uuid that `__uuid_gen` returns (`from_`, `to_` and `until_` stand for
`from`, `to` and `until`). -/
def __r_make_signal (t : UUIDt) (from_ to_ : Int) (aspect : Aspect) (carrier : Symbol)
    (signal_contents : T) (in_response_to : Option UUIDt) (until_ : Option T) (cid : Option T) :
    Except Err T :=
  let e := _t_add (_t_newr ENVELOPE) (.node SIGNAL_UUID (.uuid t) [])
  let h := _t_add (_t_add (_t_add (_t_add (_t_newr HEAD) (__r_make_addr FROM_ADDRESS from_))
    (__r_make_addr TO_ADDRESS to_)) (_t_news ASPECT_IDENT aspect)) (_t_news CARRIER carrier)
  let b := _t_newt BODY signal_contents
  match in_response_to, until_ with
  | some _, some _ => .error .both_response_uuid_and_until
  | _, _ =>
    let h1 := match in_response_to, until_ with
      | some u, _ => _t_add h (.node IN_RESPONSE_TO_UUID (.uuid u) [])
      | none, some ec => _t_add h ec
      | none, none => h
    let h2 := match cid with
      | some c => _t_add h1 (_t_clone c)
      | none => h1
    .ok (_t_add (_t_add (_t_newr SIGNAL) e) (_t_add (_t_add (_t_newr MESSAGE) h2) b))

/-- The function `__r_build_expectation(carrier, pattern, action, with, until, using, cid)`
(`with_`, `until_` and `using_` stand for `with`, `until` and `using`). -/
def __r_build_expectation (carrier : Symbol) (pattern action : T) (with_ until_ using_ cid : Option T) :
    T :=
  let e := _t_add (_t_add (_t_add (_t_newr EXPECTATION) (_t_news CARRIER carrier)) pattern) action
  let e1 := _t_add e (match with_ with
    | some w => w
    | none => _t_newr PARAMS)
  let e2 := _t_add e1 (match until_ with
    | some u => u
    | none => __r_build_default_until)
  let e3 := match using_ with
    | some u => _t_add e2 u
    | none => e2
  match cid with
  | some c => _t_add e3 c
  | none => e3

/-- The function `__r_add_expectation(r, aspect, e)`. -/
def __r_add_expectation (r : Receptor) (aspect : Aspect) (e : T) : Except Err Receptor :=
  let fa := __r_get_aspect r.flux aspect
  match _t_get fa.1 [fa.2, aspectExpectationsIdx] with
  | none => .error .null_deref
  | some _ =>
    .ok { r with flux := T.updateAt (fun a => _t_add a e) [fa.2, aspectExpectationsIdx] fa.1 }

/-- The function `_r_add_expectation(r, aspect, carrier, pattern, action, with, until, using,
cid)`. -/
def _r_add_expectation (r : Receptor) (aspect : Aspect) (carrier : Symbol) (pattern action : T)
    (with_ until_ using_ cid : Option T) : Except Err Receptor :=
  __r_add_expectation r aspect (__r_build_expectation carrier pattern action with_ until_ using_ cid)

/-- The state tree of a new receptor, as the four subtrees and the empty queue:
`_r_make_state` followed by `__r_init`. -/
def _r_new_state : Receptor where
  flux := __r_add_aspect (_t_newr FLUX) DEFAULT_ASPECT
  pending_signals := _t_newr PENDING_SIGNALS
  pending_responses := _t_newr PENDING_RESPONSES
  conversations := _t_newr CONVERSATIONS
  q := []
  state := .Alive

/-! ## Reading the flux, and delivering several signals -/

/-- The expectations that stand on `aspect`, first subscribed first: the children of the
EXPECTATIONS node of the aspect that `__r_get_aspect` finds, when the flux has it. -/
def flux_expectations (flux : T) (aspect : Aspect) : Option (List T) :=
  match __r_get_aspect_loop aspect flux.kids 1 with
  | none => none
  | some i => (_t_get flux [i, aspectExpectationsIdx]).map T.kids

/-- The log of the signals delivered on `aspect`: the children of the SIGNALS node of the
aspect that `__r_get_aspect` finds, when the flux has it. -/
def flux_signals (flux : T) (aspect : Aspect) : Option (List T) :=
  match __r_get_aspect_loop aspect flux.kids 1 with
  | none => none
  | some i => (_t_get flux [i, aspectSignalsIdx]).map T.kids

/-- Delivering the signals of a list one after the other with `_r_deliver`. -/
def deliver_all (env : Env) : Receptor → List T → Except Err Receptor
  | r, [] => .ok r
  | r, s :: rest =>
    match _r_deliver env r s with
    | .error e => .error e
    | .ok (r1, _) => deliver_all env r1 rest

/-! ## Closing a conversation

The functions of this section return the receptor as the call leaves it together with the
error, if any, at which the call ends: `_cleaner` works on the receptor in place, so what it
has removed stays removed when a later step of the same call fails. -/

/-- The function `_r_add_conversation(r, parent_u, u, until, wakeup)` with the receptor as the
call leaves it, also where it raises: the new conversation is built apart and attached by the
last statement only. -/
def _r_add_conversation_run (r : Receptor) (parent_u : Option UUIDt) (u : UUIDt)
    (until_ : Option T) (wakeup : Option T) : Receptor × Except Err T :=
  let c0 := _t_add (_t_add (_t_add (_t_newr CONVERSATION) (__cid_new u))
    (match until_ with
     | some t => t
     | none => __r_build_default_until)) (_t_newr CONVERSATIONS)
  let c := match wakeup with
    | some w => _t_add c0 w
    | none => c0
  match parent_u with
  | some pu =>
    match _r_find_conversation r pu with
    | .error e => (r, .error e)
    | .ok none => (r, .error .parent_conversation_not_found)
    | .ok (some path) =>
      match _t_get r.conversations (path ++ [ConversationConversationsIdx]) with
      | none => (r, .error .parent_conversation_not_found)
      | some _ =>
        let cs := T.updateAt (fun p => _t_add p c) (path ++ [ConversationConversationsIdx])
          r.conversations
        ({ r with conversations := cs }, .ok c)
  | none => ({ r with conversations := _t_add r.conversations c }, .ok c)

/-- The tree `t` after the node that the path `p` leads to has been detached from its parent:
`_t_detach_by_ptr(_t_parent(c),c)` for the node `c` found at `p`. -/
def T.detachAt : List Nat → T → T
  | [], t => t
  | [i], t => if i = 0 then t else t.setKids (t.kids.eraseIdx (i - 1))
  | i :: j :: p, t =>
    match _t_child (some t) i with
    | none => t
    | some c => t.setChild i (T.detachAt (j :: p) c)

/-- The test of the first loop of `_cleaner` on the expectation `e`: whether `e` has a
CONVERSATION_IDENT among its optional items whose uuid is `u`. -/
def cleaner_expectation_test (u : UUIDt) (e : T) : Except Err Bool :=
  match __t_find e CONVERSATION_IDENT ExpectationOptionalsIdx with
  | none => .ok false
  | some cid =>
    match __cid_getUUID (some cid) with
    | .error err => .error err
    | .ok cu => .ok (decide (u = cu))

/-- The test of the second loop of `_cleaner` on the pending-response entry `e`: whether `e`
has a child number `PendingResponseConversationIdentIdx` whose uuid is `u`. -/
def cleaner_pending_test (u : UUIDt) (e : T) : Except Err Bool :=
  match _t_child (some e) PendingResponseConversationIdentIdx with
  | none => .ok false
  | some cid =>
    match __cid_getUUID (some cid) with
    | .error err => .error err
    | .ok cu => .ok (decide (u = cu))

/-- A `for` loop of `_cleaner` over the children `e :: rest` still to be visited: a child for
which the test holds is detached and the index stays (`i--`), so that the next child is
visited next. The children left, and the error at which the loop ended, if any. -/
def cleaner_loop (test : T → Except Err Bool) : List T → List T × Option Err
  | [] => ([], none)
  | e :: rest =>
    match test e with
    | .error err => (e :: rest, some err)
    | .ok true => cleaner_loop test rest
    | .ok false => ((e :: (cleaner_loop test rest).1), (cleaner_loop test rest).2)

/-- The outer loop of `_cleaner` over the aspects `a :: rest` of the flux still to be
visited. -/
def cleaner_aspects (u : UUIDt) : List T → List T × Option Err
  | [] => ([], none)
  | a :: rest =>
    match _t_child (some a) aspectExpectationsIdx with
    | none => (a :: rest, some .null_deref)
    | some ex =>
      let out := cleaner_loop (cleaner_expectation_test u) ex.kids
      let a1 := a.setChild aspectExpectationsIdx (ex.setKids out.1)
      match out.2 with
      | some err => (a1 :: rest, some err)
      | none => (a1 :: (cleaner_aspects u rest).1, (cleaner_aspects u rest).2)

/-- The function `_cleaner(cid, p)`, `p` being the receptor `r`. -/
def _cleaner (cid : Option T) (r : Receptor) : Receptor × Option Err :=
  match __cid_getUUID cid with
  | .error err => (r, some err)
  | .ok u =>
    let fl := cleaner_aspects u r.flux.kids
    let r1 := Receptor.mk (r.flux.setKids fl.1) r.pending_signals r.pending_responses
      r.conversations r.q r.state
    match fl.2 with
    | some err => (r1, some err)
    | none =>
      let pr := cleaner_loop (cleaner_pending_test u) r.pending_responses.kids
      (Receptor.mk r1.flux r.pending_signals (r.pending_responses.setKids pr.1) r.conversations
        r.q r.state, pr.2)

/-- What `__r_walk_conversation` is handed as `fn` and as `param`: the function `_cleaner` or
the receptor `r`. -/
inductive WalkArg where
  | cleaner
  | receptor
  deriving DecidableEq

/-- The call `(*fn)(cid, param)` of `__r_walk_conversation`: `_cleaner` run on the receptor
when `fn` is `_cleaner` and `param` the receptor; a call through a pointer to data when `fn`
is the receptor (and `_cleaner` reading a receptor out of code when both are `_cleaner`). -/
def walk_call (fn param : WalkArg) (cid : Option T) (r : Receptor) : Receptor × Option Err :=
  match fn, param with
  | .cleaner, .receptor => _cleaner cid r
  | _, _ => (r, some .not_a_function)

mutual
/-- The function `__r_walk_conversation(conversation, fn, param)`. -/
def __r_walk_conversation : T → WalkArg → WalkArg → Receptor → Receptor × Option Err
  | .node s x kids, fn, param, r =>
    match walk_call fn param (_t_child (some (.node s x kids)) ConversationIdentIdx) r with
    | (r1, some err) => (r1, some err)
    | (r1, none) => __r_walk_conversation_sub kids fn param r1
  | .tnode s t kids, fn, param, r =>
    match walk_call fn param (_t_child (some (.tnode s t kids)) ConversationIdentIdx) r with
    | (r1, some err) => (r1, some err)
    | (r1, none) => __r_walk_conversation_sub kids fn param r1
/-- The second half of `__r_walk_conversation`, on the children `kids` of the conversation:
the loop over the sub-conversations, child number `ConversationConversationsIdx`. -/
def __r_walk_conversation_sub : List T → WalkArg → WalkArg → Receptor → Receptor × Option Err
  | _ :: _ :: .node _ _ subs :: _, fn, param, r => __r_walk_conversation_loop subs fn param r
  | _ :: _ :: .tnode _ _ subs :: _, fn, param, r => __r_walk_conversation_loop subs fn param r
  | _, _, _, r => (r, some .null_deref)
/-- The `DO_KIDS` loop of `__r_walk_conversation` over the sub-conversations `c :: rest` still
to be visited; `fn` and `param` are those of the enclosing call, which the source passes on
as `__r_walk_conversation(c,param,fn)`. -/
def __r_walk_conversation_loop : List T → WalkArg → WalkArg → Receptor → Receptor × Option Err
  | [], _, _, r => (r, none)
  | c :: rest, fn, param, r =>
    match __r_walk_conversation c param fn r with
    | (r1, some err) => (r1, some err)
    | (r1, none) => __r_walk_conversation_loop rest fn param r1
end

/-- The function `__r_cleanup_conversation(r, cuuid)`: the receptor as the call leaves it,
and the wakeup reference returned (NULL when the conversation has none) or the error at
which the call ended. -/
def __r_cleanup_conversation (r : Receptor) (cuuid : UUIDt) : Receptor × Except Err (Option T) :=
  match _r_find_conversation r cuuid with
  | .error err => (r, .error err)
  | .ok none => (r, .error .cant_find_conversation)
  | .ok (some path) =>
    match _t_get r.conversations path with
    | none => (r, .error .null_deref)
    | some c =>
      let w := _t_child (some c) ConversationWakeupIdx
      let c1 := c.setKids (c.kids.eraseIdx (ConversationWakeupIdx - 1))
      let r0 := Receptor.mk r.flux r.pending_signals r.pending_responses
        (T.updateAt (fun _ => c1) path r.conversations) r.q r.state
      match __r_walk_conversation c1 .cleaner .receptor r0 with
      | (r1, some err) => (r1, .error err)
      | (r1, none) =>
        (Receptor.mk r1.flux r1.pending_signals r1.pending_responses
          (T.detachAt path r1.conversations) r1.q r1.state, .ok w)

/-! ## The conversation forest as the specification reads it -/

mutual
/-- Whether every conversation of the forest `cs`, at every depth, has an identifier with a
uuid as first child and a node for its sub-conversations as third child. -/
def wf_conversations : List T → Bool
  | [] => true
  | c :: rest => wf_conversation c && wf_conversations rest
/-- Whether the conversation `c` and all conversations below it are well formed. -/
def wf_conversation : T → Bool
  | .node s x kids =>
    (match __cid_getUUID (_t_child (some (.node s x kids)) ConversationIdentIdx) with
     | .ok _ => true
     | .error _ => false) && wf_sub_conversations kids
  | .tnode s t kids =>
    (match __cid_getUUID (_t_child (some (.tnode s t kids)) ConversationIdentIdx) with
     | .ok _ => true
     | .error _ => false) && wf_sub_conversations kids
/-- Whether the children `kids` of a conversation hold well-formed sub-conversations. -/
def wf_sub_conversations : List T → Bool
  | _ :: _ :: .node _ _ subs :: _ => wf_conversations subs
  | _ :: _ :: .tnode _ _ subs :: _ => wf_conversations subs
  | _ => false
end

mutual
/-- The specification's order of search: the conversations of the forest `cs` in depth-first
pre-order (a conversation before its sub-conversations, these before its later siblings),
each with the path of child indices that leads to it from the node whose children `cs` are,
the first of `cs` being child number `i`. -/
def spec_conversations_preorder : List T → Nat → List (List Nat × T)
  | [], _ => []
  | c :: rest, i =>
    (spec_conversation_preorder c).map (fun pc => (i :: pc.1, pc.2)) ++
      spec_conversations_preorder rest (i + 1)
/-- The conversation `c` followed by the conversations below it, with their paths from
`c`. -/
def spec_conversation_preorder : T → List (List Nat × T)
  | .node s x kids => ([], .node s x kids) :: spec_sub_conversations_preorder kids
  | .tnode s t kids => ([], .tnode s t kids) :: spec_sub_conversations_preorder kids
/-- The conversations below a conversation with the children `kids`. -/
def spec_sub_conversations_preorder : List T → List (List Nat × T)
  | _ :: _ :: .node _ _ subs :: _ =>
    (spec_conversations_preorder subs 1).map
      (fun pc => (ConversationConversationsIdx :: pc.1, pc.2))
  | _ :: _ :: .tnode _ _ subs :: _ =>
    (spec_conversations_preorder subs 1).map
      (fun pc => (ConversationConversationsIdx :: pc.1, pc.2))
  | _ => []
end

/-- Whether the conversation `c` has the uuid `u`. -/
def conversation_has_uuid (u : UUIDt) (c : T) : Bool :=
  decide (__cid_getUUID (_t_child (some c) ConversationIdentIdx) = .ok u)

/-- The specification's `find`: the first conversation in depth-first pre-order whose uuid is
`u`, with its path from the root of the registry. -/
def spec_find_conversation (conversations : T) (u : UUIDt) : Option (List Nat × T) :=
  (spec_conversations_preorder conversations.kids 1).find? (fun pc => conversation_has_uuid u pc.2)

/-- Whether the expectation `e` is scoped to the conversation with uuid `u`: whether the
conversation id among its optional items has that uuid. -/
def expectation_scoped_to (u : UUIDt) (e : T) : Bool :=
  match __t_find e CONVERSATION_IDENT ExpectationOptionalsIdx with
  | some cid => decide (__cid_getUUID (some cid) = .ok u)
  | none => false

/-- Whether the pending-response entry `l` is scoped to the conversation with uuid `u`. -/
def pending_scoped_to (u : UUIDt) (l : T) : Bool :=
  match _t_child (some l) PendingResponseConversationIdentIdx with
  | some cid => decide (__cid_getUUID (some cid) = .ok u)
  | none => false

/-- The aspect `a` with the expectations scoped to the conversation `u` taken out, the others
staying in their order. -/
def spec_aspect_without (u : UUIDt) (a : T) : T :=
  match _t_child (some a) aspectExpectationsIdx with
  | none => a
  | some ex =>
    a.setChild aspectExpectationsIdx
      (ex.setKids (ex.kids.filter (fun e => !expectation_scoped_to u e)))

/-- Whether a conversation id, where there is one, has a uuid to read. -/
def wf_conversation_ident (cid : Option T) : Bool :=
  match cid with
  | none => true
  | some c =>
    match __cid_getUUID (some c) with
    | .ok _ => true
    | .error _ => false

/-- Whether every aspect of the flux has its EXPECTATIONS node and every expectation with a
conversation id has a uuid in it. -/
def wf_flux_scopes (flux : T) : Bool :=
  flux.kids.all (fun a =>
    match _t_child (some a) aspectExpectationsIdx with
    | none => false
    | some ex =>
      ex.kids.all (fun e =>
        wf_conversation_ident (__t_find e CONVERSATION_IDENT ExpectationOptionalsIdx)))

/-- Whether every pending-response entry with a conversation id has a uuid in it. -/
def wf_pending_scopes (pending_responses : T) : Bool :=
  pending_responses.kids.all (fun l =>
    wf_conversation_ident (_t_child (some l) PendingResponseConversationIdentIdx))

/-! ## Creating a receptor -/

/-- Modelled from the spec: the child indices of a RECEPTOR_INSTANCE (`receptor.h`, not among
the sources at hand), as fixed by the order in which `_r_new` adds the children. -/
abbrev ReceptorInstanceInstOfIdx : Nat := 1
/-- Modelled from the spec: index of the CONTEXT_NUM (see `ReceptorInstanceInstOfIdx`). -/
abbrev ReceptorInstanceContextNumIdx : Nat := 2
/-- Modelled from the spec: index of the PARENT_CONTEXT_NUM. -/
abbrev ReceptorInstanceParentContextIdx : Nat := 3
/-- Modelled from the spec: index of the RECEPTOR_STATE. -/
abbrev ReceptorInstanceStateIdx : Nat := 4
/-- Modelled from the spec: the child indices of a RECEPTOR_STATE, as fixed by the order in
which `_r_make_state` adds the children. -/
abbrev ReceptorFluxIdx : Nat := 1
/-- Modelled from the spec: index of the PENDING_SIGNALS (see `ReceptorFluxIdx`). -/
abbrev ReceptorPendingSignalsIdx : Nat := 2
/-- Modelled from the spec: index of the PENDING_RESPONSES. -/
abbrev ReceptorPendingResponsesIdx : Nat := 3
/-- Modelled from the spec: index of the CONVERSATIONS. -/
abbrev ReceptorConversationsIdx : Nat := 4
/-- Modelled from the spec: index of the RECEPTOR_ELAPSED_TIME. -/
abbrev ReceptorElapsedTimeIdx : Nat := 5

/-- The function `_r_make_state()`. -/
def _r_make_state : T :=
  _t_add (_t_add (_t_add (_t_add (_t_add (_t_newr RECEPTOR_STATE)
    (__r_add_aspect (_t_newr FLUX) DEFAULT_ASPECT)) (_t_newr PENDING_SIGNALS))
    (_t_newr PENDING_RESPONSES)) (_t_newr CONVERSATIONS)) (_t_newi RECEPTOR_ELAPSED_TIME 0)

/-- Modelled from the spec: what `_r_new` takes from the definitions of the semantic table
(`def.c`, not among the sources at hand): `receptor_context r` is
`_d_get_receptor_context(sem, r)` and `context r` the field `r.context` of the identifier. -/
structure Contexts where
  receptor_context : SemanticID → Int
  context : SemanticID → Int

/-- The C structure `Receptor` as `__r_init` fills it: the tree it was made from, the two
context numbers, and the parts on which the signalling code works. -/
structure Instance where
  root : T
  parent : Int
  context : Int
  receptor : Receptor
  deriving DecidableEq

/-- The function `__r_init(t, sem)`. The four fields of the receptor are the children of the
RECEPTOR_STATE; where the source would store a NULL pointer for a missing child, to fail at
its first use, the call ends here. -/
def __r_init (t : T) : Except Err Instance :=
  match surface_int (_t_child (some t) ReceptorInstanceParentContextIdx),
        surface_int (_t_child (some t) ReceptorInstanceContextNumIdx) with
  | .error e, _ => .error e
  | _, .error e => .error e
  | .ok parent, .ok context =>
    let state := _t_child (some t) ReceptorInstanceStateIdx
    match _t_child state ReceptorFluxIdx, _t_child state ReceptorPendingSignalsIdx,
          _t_child state ReceptorPendingResponsesIdx, _t_child state ReceptorConversationsIdx with
    | some flux, some pending_signals, some pending_responses, some conversations =>
      .ok ⟨t, parent, context,
        ⟨flux, pending_signals, pending_responses, conversations, [], .Alive⟩⟩
    | _, _, _, _ => .error .null_deref

/-- The function `_r_new(sem, r)`. -/
def _r_new (ctx : Contexts) (r : SemanticID) : Except Err Instance :=
  let t := _t_add (_t_newr RECEPTOR_INSTANCE) (_t_news INSTANCE_OF r)
  let t1 :=
    if r = SYS_RECEPTOR then
      _t_add (_t_add t (_t_newi CONTEXT_NUM 0)) (_t_newi PARENT_CONTEXT_NUM (-1))
    else
      _t_add (_t_add t (_t_newi CONTEXT_NUM (ctx.receptor_context r)))
        (_t_newi PARENT_CONTEXT_NUM (ctx.context r))
  __r_init (_t_add t1 _r_make_state)

/-! ## Observations used by the properties -/

/-- The children of child number `idx` of the aspect that `__r_get_aspect` finds, when the
flux has it: `flux_expectations` for `aspectExpectationsIdx`, `flux_signals` for
`aspectSignalsIdx`. -/
def flux_part (idx : Nat) (flux : T) (aspect : Aspect) : Option (List T) :=
  match __r_get_aspect_loop aspect flux.kids 1 with
  | none => none
  | some i => (_t_get flux [i, idx]).map T.kids

/-- Subscribing the expectations of a list one after the other with
`__r_add_expectation`. -/
def add_expectations (aspect : Aspect) : Receptor → List T → Except Err Receptor
  | r, [] => .ok r
  | r, e :: rest =>
    match __r_add_expectation r aspect e with
    | .error err => .error err
    | .ok r1 => add_expectations aspect r1 rest

/-- The run trees among the calls recorded in a process queue: those handed over by
`__p_addrt2q`, in order. -/
def run_trees : List QItem → List T
  | [] => []
  | .addrt2q rt _ :: rest => rt :: run_trees rest
  | .wakeup _ _ :: rest => run_trees rest

/-- Whether the broken-down time `now` is strictly earlier, as a calendar time, than second
`s` of minute `mi` of hour `h` of day `d` of month `m` of year `y`: the comparison of the two
times field by field, the year first. -/
def calendar_before (now : Tm) (y m d h mi s : Int) : Bool :=
  decide (now.tm_year + 1900 < y) || (decide (now.tm_year + 1900 = y) &&
    (decide (now.tm_mon + 1 < m) || (decide (now.tm_mon + 1 = m) &&
      (decide (now.tm_mday < d) || (decide (now.tm_mday = d) &&
        (decide (now.tm_hour < h) || (decide (now.tm_hour = h) &&
          (decide (now.tm_min < mi) || (decide (now.tm_min = mi) &&
            decide (now.tm_sec < s))))))))))

/-! ## Concrete instances

A small pattern matcher and process engine, a receptor and some signals, on which the
definitions above are evaluated. -/

/-- A sample environment. The matcher accepts a subject whose symbol is the one named by the
single item of the pattern; the clock stands at 2021-01-01 00:00:00 UTC. -/
def demo_env (recount : Bool) : Env where
  now := ⟨0, 0, 0, 1, 0, 121⟩
  matchr := fun stx subject =>
    match stx.kids with
    | [.node _ (.sem s) _] =>
      if s = subject.symbol then some (_t_add (_t_newr (user 900)) subject) else none
    | _ => none
  fill_from_match := fun params _ contents => _t_add params contents
  make_run_tree := fun p params _ => _t_add (_t_news (user 901) p) params
  build_wakeup_info := fun code_point process_id =>
    _t_add (_t_newi WAKEUP_REFERENCE process_id) code_point
  do_kids_recount := recount

/-- The symbol LINE of the sample signals. -/
def demo_LINE : Symbol := user 1

/-- The carrier PING of the sample signals. -/
def demo_PING : Symbol := user 2

/-- Another carrier. -/
def demo_PONG : Symbol := user 3

/-- A pattern that matches a payload whose symbol is `s`. -/
def demo_pattern (s : Symbol) : T := _t_add (_t_newr PATTERN) (_t_news (user 50) s)

/-- The end-conditions `(END_CONDITIONS (COUNT:n))`. -/
def end_conditions_count (n : Int) : T := _t_add (_t_newr END_CONDITIONS) (_t_newi COUNT n)

/-- The end-conditions `(END_CONDITIONS (TIMEOUT_AT (TODAY y m d) (NOW h mi s)))`. -/
def end_conditions_timeout_at (y m d h mi s : Int) : T :=
  _t_add (_t_newr END_CONDITIONS)
    (_t_add (_t_add (_t_newr TIMEOUT_AT)
      (_t_add (_t_add (_t_add (_t_newr TODAY) (_t_newi YEAR y)) (_t_newi MONTH m)) (_t_newi DAY d)))
      (_t_add (_t_add (_t_add (_t_newr NOW) (_t_newi HOUR h)) (_t_newi MINUTE mi))
        (_t_newi SECOND s)))

/-- An expectation for carrier PING and LINE payloads whose action is the process
`user proc`. -/
def demo_expectation (proc : Nat) (until_ : Option T) : T :=
  __r_build_expectation demo_PING (demo_pattern demo_LINE) (_t_news ACTION (user proc)) none until_
    none none

/-- The signal with the given parts, or an empty SIGNAL node where `__r_make_signal` fails. -/
def demo_make_signal (t : UUIDt) (carrier : Symbol) (contents : T) (in_response_to : Option UUIDt)
    (until_ : Option T) : T :=
  match __r_make_signal t 3 4 DEFAULT_ASPECT carrier contents in_response_to until_ none with
  | .ok sg => sg
  | .error _ => _t_newr SIGNAL

/-- A plain signal on the default aspect, carrier PING, payload `(LINE:v)`. -/
def demo_signal (v : Int) : T := demo_make_signal ⟨1, v.toNat⟩ demo_PING (_t_newi demo_LINE v) none none

/-- A request on the default aspect, carrier PING, payload `(LINE:1)`, end-conditions
Count(1), with envelope uuid (5, 5). -/
def demo_request : T :=
  demo_make_signal ⟨5, 5⟩ demo_PING (_t_newi demo_LINE 1) none (some (end_conditions_count 1))

/-- A new receptor after it has sent `demo_request`, expecting the response on carrier PING. -/
def demo_requester : Receptor :=
  match _r_request (demo_env true) _r_new_state demo_request demo_PING (_t_newr (user 70)) 1 none with
  | .ok (r, _) => r
  | .error _ => _r_new_state

/-- A response to `demo_request` on the given carrier, payload `(LINE:2)`. -/
def demo_response (carrier : Symbol) : T :=
  demo_make_signal ⟨6, 6⟩ carrier (_t_newi demo_LINE 2) (some ⟨5, 5⟩) none

/-- The IN_RESPONSE_TO_UUID item of `demo_response`. -/
def demo_response_to : T := .node IN_RESPONSE_TO_UUID (.uuid ⟨5, 5⟩) []

/-- The pending-response entry that `_r_request` makes for `demo_request`. -/
def demo_pending_entry : T :=
  _t_add (_t_add (_t_add (_t_add (_t_newr PENDING_RESPONSE) (.node SIGNAL_UUID (.uuid ⟨5, 5⟩) []))
    (_t_news CARRIER demo_PING)) ((demo_env true).build_wakeup_info (_t_newr (user 70)) 1))
    (end_conditions_count 1)

/-- The run tree that the sample process engine makes for the process `user proc` and the
payload `(LINE:v)`, the parameters of the expectation being empty. -/
def demo_run_tree (proc : Nat) (v : Int) : T :=
  _t_add (_t_news (user 901) (user proc)) (_t_add (_t_newr PARAMS) (_t_newi demo_LINE v))

/-- A new receptor whose default aspect holds the expectations `es`. -/
def demo_receptor (es : List T) : Receptor :=
  { _r_new_state with flux := T.updateAt (fun a => a.setKids es) [1, 1] _r_new_state.flux }

/-- Another payload symbol. -/
def demo_OTHER : Symbol := user 4

/-- A plain signal on the default aspect with the given carrier and payload `(sym:v)`, whose
head ends with the conversation id `cid` when one is given. -/
def demo_signal_with (carrier sym : Symbol) (v : Int) (cid : Option T) : T :=
  match __r_make_signal ⟨1, v.toNat⟩ 3 4 DEFAULT_ASPECT carrier (_t_newi sym v) none none cid with
  | .ok sg => sg
  | .error _ => _t_newr SIGNAL

/-- The conversation id with uuid (9, n). -/
def demo_cid (n : Nat) : T := __cid_new ⟨9, n⟩

/-- An expectation for carrier PING and LINE payloads, scoped to the conversation `cid`, whose
action is the process `user proc`. -/
def demo_conversation_expectation (proc : Nat) (cid : T) : T :=
  __r_build_expectation demo_PING (demo_pattern demo_LINE) (_t_news ACTION (user proc)) none none
    none (some cid)

/-- The wakeup reference of the sample continuation: process 1 at the code point
`user 70`. -/
def demo_wakeup : T := (demo_env true).build_wakeup_info (_t_newr (user 70)) 1

/-- An expectation for carrier PING and LINE payloads whose action resumes
`demo_wakeup`. -/
def demo_wakeup_expectation (until_ : Option T) : T :=
  __r_build_expectation demo_PING (demo_pattern demo_LINE) demo_wakeup none until_ none none

/-- A request like `demo_request` that belongs to the conversation `demo_cid 1`: the signal
`(SIGNAL (ENVELOPE uuid) (MESSAGE (HEAD from to aspect carrier end-conditions cid) (BODY ..)))`. -/
def demo_signal_with_until : T :=
  T.node SIGNAL .none
    [T.node ENVELOPE .none [T.node SIGNAL_UUID (.uuid ⟨5, 5⟩) []],
     T.node MESSAGE .none
      [T.node HEAD .none
        [__r_make_addr FROM_ADDRESS 3, __r_make_addr TO_ADDRESS 4,
         _t_news ASPECT_IDENT DEFAULT_ASPECT, _t_news CARRIER demo_PING, end_conditions_count 1,
         demo_cid 1],
       _t_newt BODY (_t_newi demo_LINE 1)]]

/-- A signal like `demo_signal_with_until` whose HEAD has the two optional items in the other
order: the conversation id first, the END_CONDITIONS after it. -/
def demo_signal_until_second : T :=
  T.node SIGNAL .none
    [T.node ENVELOPE .none [T.node SIGNAL_UUID (.uuid ⟨5, 5⟩) []],
     T.node MESSAGE .none
      [T.node HEAD .none
        [__r_make_addr FROM_ADDRESS 3, __r_make_addr TO_ADDRESS 4,
         _t_news ASPECT_IDENT DEFAULT_ASPECT, _t_news CARRIER demo_PING, demo_cid 1,
         end_conditions_count 1],
       _t_newt BODY (_t_newi demo_LINE 1)]]

/-- The receptor `r` after the conversation `u` has been opened below the conversation
`parent`, or at the root of the registry, with default end-conditions. -/
def demo_open (r : Receptor) (parent : Option UUIDt) (u : UUIDt) (wakeup : Option T) : Receptor :=
  match _r_add_conversation r parent u none wakeup with
  | .ok (r1, _) => r1
  | .error _ => r

/-- The receptor `r` after the request `demo_signal_with_until` has been registered for the
conversation `cid`. -/
def demo_ask (r : Receptor) (cid : Option T) : Receptor :=
  match _r_request (demo_env true) r demo_signal_with_until demo_PING (_t_newr (user 70)) 1 cid with
  | .ok (r1, _) => r1
  | .error _ => r

/-- A receptor in three conversations: (9, 1), opened with the wakeup reference
`demo_wakeup`, its sub-conversation (9, 2), and (9, 3). Its default aspect holds an
expectation scoped to each of them and one that is scoped to none; a request is pending for
the conversation (9, 3) and one for no conversation. -/
def demo_conversing : Receptor :=
  demo_ask (demo_ask
    (demo_open (demo_open (demo_open
      (demo_receptor [demo_conversation_expectation 61 (demo_cid 1),
        demo_conversation_expectation 62 (demo_cid 2), demo_expectation 60 none,
        demo_conversation_expectation 63 (demo_cid 3)])
      none ⟨9, 1⟩ (some demo_wakeup)) (some ⟨9, 1⟩) ⟨9, 2⟩ none) none ⟨9, 3⟩ none)
    (some (demo_cid 3))) none

/-- The receptor `r` after the signal `s` has been delivered to it. -/
def demo_deliver (r : Receptor) (s : T) : Receptor :=
  match _r_deliver (demo_env true) r s with
  | .ok (r1, _) => r1
  | .error _ => r

/-- The end-condition `(TIMEOUT_AT (TODAY y m d) (NOW h mi s))`. -/
def demo_timeout_at (y m d h mi s : Int) : T :=
  _t_add (_t_add (_t_newr TIMEOUT_AT)
    (_t_add (_t_add (_t_add (_t_newr TODAY) (_t_newi YEAR y)) (_t_newi MONTH m)) (_t_newi DAY d)))
    (_t_add (_t_add (_t_add (_t_newr NOW) (_t_newi HOUR h)) (_t_newi MINUTE mi))
      (_t_newi SECOND s))

/-- The end-conditions `(END_CONDITIONS (COUNT:n) (TIMEOUT_AT (TODAY y m d) (NOW h mi s)))`. -/
def end_conditions_count_timeout_at (n y m d h mi s : Int) : T :=
  _t_add (end_conditions_count n) (demo_timeout_at y m d h mi s)

/-! ## Properties -/

/-! ### Trees -/

@[simp] theorem T.kids_setKids (t : T) (cs : List T) : (t.setKids cs).kids = cs := by
  cases t <;> rfl

@[simp] theorem T.symbol_setKids (t : T) (cs : List T) : (t.setKids cs).symbol = t.symbol := by
  cases t <;> rfl

@[simp] theorem T.setKids_setKids (t : T) (cs ds : List T) :
    (t.setKids cs).setKids ds = t.setKids ds := by
  cases t <;> rfl

@[simp] theorem T.setKids_kids (t : T) : t.setKids t.kids = t := by
  cases t <;> rfl

@[simp] theorem T.kids_node (s : SemanticID) (x : Surface) (cs : List T) :
    (T.node s x cs).kids = cs := rfl

@[simp] theorem T.kids_tnode (s : SemanticID) (t : T) (cs : List T) :
    (T.tnode s t cs).kids = cs := rfl

@[simp] theorem T.symbol_node (s : SemanticID) (x : Surface) (cs : List T) :
    (T.node s x cs).symbol = s := rfl

@[simp] theorem T.symbol_tnode (s : SemanticID) (t : T) (cs : List T) :
    (T.tnode s t cs).symbol = s := rfl

@[simp] theorem T.setKids_node (s : SemanticID) (x : Surface) (cs ds : List T) :
    (T.node s x cs).setKids ds = T.node s x ds := rfl

@[simp] theorem T.setKids_tnode (s : SemanticID) (t : T) (cs ds : List T) :
    (T.tnode s t cs).setKids ds = T.tnode s t ds := rfl

theorem wrap32_of_int (x : Int) (hlo : -2147483648 ≤ x) (hhi : x ≤ 2147483647) : wrap32 x = x := by
  unfold wrap32
  omega

/-! ### The end-condition evaluator -/

theorem evaluateEndCondition_single_count (now : Tm) (ec : T) (n : Int) (cs : List T)
    (hkids : ec.kids = [T.node COUNT (.int n) cs])
    (hmin : -2147483648 < n) (hmax : n ≤ 2147483647) :
    evaluateEndCondition now (some ec) =
      .ok ⟨ec.setKids [T.node COUNT (.int (n - 1)) cs], decide (n ≤ 1), decide (n ≥ 1)⟩ := by
  have hw : wrap32 (n - 1) = n - 1 := wrap32_of_int _ (by omega) (by omega)
  simp [evaluateEndCondition, _t_children, hkids, evaluateEndCondition_loop, T.symbol, hw]

/-- C5. On an END_CONDITIONS tree whose only child is COUNT with value `n`, above the least
`int`, `evaluateEndCondition` returns allow = (n ≥ 1) and cleanup = (n ≤ 1), both judged on
the value before the decrement, and leaves the count at `n - 1`. -/
theorem evaluateEndCondition_count (now : Tm) (ec : T) (n : Int) (cs : List T)
    (hkids : ec.kids = [T.node COUNT (.int n) cs])
    (hmin : -2147483648 < n) (hmax : n ≤ 2147483647) :
    evaluateEndCondition now (some ec) =
      .ok ⟨ec.setKids [T.node COUNT (.int (n - 1)) cs], decide (n ≤ 1), decide (n ≥ 1)⟩ :=
  evaluateEndCondition_single_count now ec n cs hkids hmin hmax

theorem evaluateEndCondition_count_witness :
    evaluateEndCondition (demo_env true).now (some (end_conditions_count 1)) =
      .ok ⟨(end_conditions_count 1).setKids [T.node COUNT (.int (1 - 1)) []], decide ((1 : Int) ≤ 1),
        decide ((1 : Int) ≥ 1)⟩ :=
  evaluateEndCondition_count (demo_env true).now (end_conditions_count 1) 1 [] (by decide) (by decide)
    (by decide)

/-- C6. A TIMEOUT_AT deadline of 2020-12-31 00:00:00 evaluated at 2021-01-01 00:00:00 UTC, a
day after it: `evaluateEndCondition` returns allow = true and cleanup = false, because the
month and the day of the deadline are each greater than those of the current time. -/
theorem evaluateEndCondition_timeout_at_past_deadline :
    evaluateEndCondition ⟨0, 0, 0, 1, 0, 121⟩ (some (end_conditions_timeout_at 2020 12 31 0 0 0)) =
      .ok ⟨end_conditions_timeout_at 2020 12 31 0 0 0, false, true⟩ := by
  decide

/-! ### The expectation engine -/

/-- Past the carrier and the conversation tests, `__r_test_expectation` adds one entry to the
process queue exactly when the pattern matches and the end-conditions allow; the three ways
in which it can return. -/
theorem test_expectation_after_filters (env : Env) (q : List QItem)
    (e signal head body contents pat action params : T)
    (hbody : signal_body signal = some body)
    (hcontents : surface_tree (some body) = .ok contents)
    (hhead : signal_head signal = some head)
    (hcarrier : carrier_test (some e) signal = .ok true)
    (hconv : conversation_test e head = .ok true)
    (hpat : _t_child (_t_child (some e) ExpectationPatternIdx) 1 = some pat)
    (haction : _t_child (some e) ExpectationActionIdx = some action)
    (hproc : action.symbol = WAKEUP_REFERENCE ∨ ∃ p, surface_sem (some action) = .ok p)
    (hparams : _t_child (some e) ExpectationParamsIdx = some params) :
    ((∃ out item, __r_test_expectation env q (some e) signal = .ok out ∧ out.q = q ++ [item]) ↔
      ((env.matchr (_t_add (_t_news SEMTREX_GROUP NULL_SYMBOL) pat) contents).isSome = true ∧
        ∃ r, evaluateEndCondition env.now (_t_child (some e) ExpectationEndCondsIdx) = .ok r ∧
          r.allow = true)) ∧
    (∀ out, __r_test_expectation env q (some e) signal = .ok out →
      (out.q = q ∧ out.signal = signal) ∨
      (action.symbol = WAKEUP_REFERENCE ∧ out.signal = signal ∧
        ∃ v, out.q = q ++ [QItem.wakeup action v]) ∨
      (action.symbol ≠ WAKEUP_REFERENCE ∧
        ∃ rt sm, out.q = q ++ [QItem.addrt2q rt sm] ∧ out.signal = _t_add signal rt)) := by
  unfold __r_test_expectation
  simp only [hbody, hcarrier, hhead, hconv, hpat, hcontents, haction, hparams, _t_clone]
  cases hev : evaluateEndCondition env.now (_t_child (some e) ExpectationEndCondsIdx) with
  | error err => simp
  | ok r =>
    obtain ⟨rec, rcl, ral⟩ := r
    cases ral <;>
      cases hm : env.matchr (_t_add (_t_news SEMTREX_GROUP NULL_SYMBOL) pat) contents <;>
      simp
    by_cases hw : action.symbol = WAKEUP_REFERENCE
    · simp [hw]
    · rcases hproc with h | ⟨p, hp⟩
      · exact absurd h hw
      · simp [hw, hp]

/-- C1. For an expectation that has an action and a signal that passes the carrier and the
conversation tests, `__r_test_expectation` dispatches (adds one entry to the process queue)
if and only if the pattern matches the payload and the end-condition evaluation gives
allow = true. Whenever it returns, it has either left queue and signal as they were, or
resumed the WAKEUP_REFERENCE action, or enqueued one run tree and added it to the signal. -/
theorem test_expectation_dispatches_iff (env : Env) (q : List QItem)
    (e signal head body contents pat action params : T)
    (hbody : signal_body signal = some body)
    (hcontents : surface_tree (some body) = .ok contents)
    (hhead : signal_head signal = some head)
    (hcarrier : carrier_test (some e) signal = .ok true)
    (hconv : conversation_test e head = .ok true)
    (hpat : _t_child (_t_child (some e) ExpectationPatternIdx) 1 = some pat)
    (haction : _t_child (some e) ExpectationActionIdx = some action)
    (hproc : action.symbol = WAKEUP_REFERENCE ∨ ∃ p, surface_sem (some action) = .ok p)
    (hparams : _t_child (some e) ExpectationParamsIdx = some params) :
    ((∃ out item, __r_test_expectation env q (some e) signal = .ok out ∧ out.q = q ++ [item]) ↔
      ((env.matchr (_t_add (_t_news SEMTREX_GROUP NULL_SYMBOL) pat) contents).isSome = true ∧
        ∃ r, evaluateEndCondition env.now (_t_child (some e) ExpectationEndCondsIdx) = .ok r ∧
          r.allow = true)) ∧
    (∀ out, __r_test_expectation env q (some e) signal = .ok out →
      (out.q = q ∧ out.signal = signal) ∨
      (action.symbol = WAKEUP_REFERENCE ∧ out.signal = signal ∧
        ∃ v, out.q = q ++ [QItem.wakeup action v]) ∨
      (action.symbol ≠ WAKEUP_REFERENCE ∧
        ∃ rt sm, out.q = q ++ [QItem.addrt2q rt sm] ∧ out.signal = _t_add signal rt)) :=
  test_expectation_after_filters env q e signal head body contents pat action params hbody
    hcontents hhead hcarrier hconv hpat haction hproc hparams

theorem test_expectation_dispatches_iff_witness :
    ∃ out item, __r_test_expectation (demo_env true) [] (some (demo_expectation 60 none))
      (demo_signal 7) = .ok out ∧ out.q = [] ++ [item] :=
  (test_expectation_dispatches_iff (demo_env true) [] (demo_expectation 60 none) (demo_signal 7)
    _ _ _ _ _ _ (by rfl) (by rfl) (by rfl) (by decide) (by decide) (by rfl) (by rfl)
    (Or.inr ⟨user 60, by rfl⟩) (by rfl)).1.2 ⟨by decide, _, by rfl, by rfl⟩

/-! ### The pending responses -/

theorem deliver_response_loop_skip (env : Env) (u : UUIDt) (sc : Symbol) (resp : Except Err T)
    (q : List QItem) (rest : List T) :
    ∀ pre : List T,
      (∀ x ∈ pre, ∃ lu, surface_uuid (_t_child (some x) PendingResponseUUIDIdx) = .ok lu ∧ lu ≠ u) →
      __r_deliver_response_loop env (.ok u) sc resp q (pre ++ rest) =
        match __r_deliver_response_loop env (.ok u) sc resp q rest with
        | .error e => .error e
        | .ok (rest1, q1) => .ok (pre ++ rest1, q1) := by
  intro pre
  induction pre with
  | nil =>
    intro _
    simp only [List.nil_append]
    rcases hX : __r_deliver_response_loop env (.ok u) sc resp q rest with e | ⟨rest1, q1⟩ <;> rfl
  | cons x pre ih =>
    intro h
    obtain ⟨lu, hlu, hne⟩ := h x (List.mem_cons_self x pre)
    have ih1 := ih (fun y hy => h y (List.mem_cons_of_mem x hy))
    generalize __r_deliver_response_loop env (.ok u) sc resp q rest = R at ih1 ⊢
    rw [List.cons_append]
    unfold __r_deliver_response_loop
    simp only [hlu]
    rw [if_neg (fun hEq => hne hEq.symm), ih1]
    rcases R with e | ⟨rest1, q1⟩ <;> rfl

theorem deliver_response_loop_none (env : Env) (u : UUIDt) (sc : Symbol) (resp : Except Err T)
    (q : List QItem) (pre : List T)
    (h : ∀ x ∈ pre, ∃ lu, surface_uuid (_t_child (some x) PendingResponseUUIDIdx) = .ok lu ∧ lu ≠ u) :
    __r_deliver_response_loop env (.ok u) sc resp q pre = .ok (pre, q) := by
  have h1 := deliver_response_loop_skip env u sc resp q [] pre h
  simpa [__r_deliver_response_loop] using h1

theorem deliver_response_no_match (env : Env) (r : Receptor) (response_to signal body : T)
    (u : UUIDt) (carrier : Symbol)
    (hu : surface_uuid (some response_to) = .ok u)
    (hcarrier : surface_sem (_t_child (signal_head signal) HeadCarrierIdx) = .ok carrier)
    (hbody : signal_body signal = some body)
    (hnone : ∀ l ∈ r.pending_responses.kids,
      ∃ lu, surface_uuid (_t_child (some l) PendingResponseUUIDIdx) = .ok lu ∧ lu ≠ u) :
    __r_deliver_response env r response_to signal = .ok (r, .noDeliveryErr) := by
  unfold __r_deliver_response
  simp only [hcarrier, hbody, hu]
  rw [deliver_response_loop_none env u carrier _ r.q _ hnone]
  simp

/-- C10. A response whose in-response-to uuid is the uuid of no pending-response entry:
`__r_deliver_response` resumes nothing, leaves the receptor (every pending entry with its
end-conditions, and the queue) as it was, and returns `noDeliveryErr`. -/
theorem deliver_response_unknown_uuid (env : Env) (r : Receptor) (response_to signal body : T)
    (u : UUIDt) (carrier : Symbol)
    (hu : surface_uuid (some response_to) = .ok u)
    (hcarrier : surface_sem (_t_child (signal_head signal) HeadCarrierIdx) = .ok carrier)
    (hbody : signal_body signal = some body)
    (hnone : ∀ l ∈ r.pending_responses.kids,
      ∃ lu, surface_uuid (_t_child (some l) PendingResponseUUIDIdx) = .ok lu ∧ lu ≠ u) :
    __r_deliver_response env r response_to signal = .ok (r, .noDeliveryErr) :=
  deliver_response_no_match env r response_to signal body u carrier hu hcarrier hbody hnone

theorem deliver_response_unknown_uuid_witness :
    __r_deliver_response (demo_env true) demo_requester (.node IN_RESPONSE_TO_UUID (.uuid ⟨9, 9⟩) [])
      (demo_response demo_PING) = .ok (demo_requester, .noDeliveryErr) :=
  deliver_response_unknown_uuid (demo_env true) demo_requester _ (demo_response demo_PING) _ ⟨9, 9⟩
    demo_PING (by rfl) (by rfl) (by rfl)
    (fun l hl => ⟨⟨5, 5⟩, by
      rw [show demo_requester.pending_responses.kids = [_] from rfl] at hl
      rw [List.mem_singleton.mp hl]
      exact ⟨by rfl, by decide⟩⟩)

/-- C9. A response whose uuid is that of a pending-response entry whose end-condition allows,
but whose carrier differs from the carrier the entry expects: `__r_deliver_response` resumes
nothing (the queue is as before) and returns `noDeliveryErr`; the entry stays, with its
end-conditions as the evaluation left them. -/
theorem deliver_response_carrier_mismatch (env : Env) (r : Receptor)
    (response_to signal body l : T) (pre post : List T) (u : UUIDt) (carrier expected : Symbol)
    (ec : EndCondition)
    (hu : surface_uuid (some response_to) = .ok u)
    (hcarrier : surface_sem (_t_child (signal_head signal) HeadCarrierIdx) = .ok carrier)
    (hbody : signal_body signal = some body)
    (hkids : r.pending_responses.kids = pre ++ l :: post)
    (hpre : ∀ x ∈ pre,
      ∃ lu, surface_uuid (_t_child (some x) PendingResponseUUIDIdx) = .ok lu ∧ lu ≠ u)
    (hl : surface_uuid (_t_child (some l) PendingResponseUUIDIdx) = .ok u)
    (hev : evaluateEndCondition env.now (_t_child (some l) PendingResponseEndCondsIdx) = .ok ec)
    (hallow : ec.allow = true)
    (hexpected : surface_sem (_t_child (some l) PendingResponseCarrierIdx) = .ok expected)
    (hne : expected ≠ carrier) :
    ∃ r1, __r_deliver_response env r response_to signal = .ok (r1, .noDeliveryErr) ∧
      r1.q = r.q ∧
      r1.pending_responses.kids = pre ++ l.setChild PendingResponseEndCondsIdx ec.ec :: post := by
  unfold __r_deliver_response
  simp only [hcarrier, hbody, hu, hkids]
  rw [deliver_response_loop_skip env u carrier _ r.q _ pre hpre]
  simp [__r_deliver_response_loop, hl, hev, hallow, hexpected, hne]

theorem deliver_response_carrier_mismatch_witness :
    ∃ r1, __r_deliver_response (demo_env true) demo_requester demo_response_to
        (demo_response demo_PONG) = .ok (r1, .noDeliveryErr) ∧ r1.q = demo_requester.q :=
  let ⟨r1, h1, h2, _⟩ := deliver_response_carrier_mismatch (demo_env true) demo_requester
    demo_response_to (demo_response demo_PONG) _ demo_pending_entry [] [] ⟨5, 5⟩ demo_PONG demo_PING
    ⟨end_conditions_count 0, true, true⟩
    (by rfl) (by rfl) (by rfl) (by rfl) (by simp) (by rfl) (by rfl) (by rfl) (by rfl) (by decide)
  ⟨r1, h1, h2⟩

/-- C8, refuted as stated. The receptor holds one pending-response entry, for uuid (5, 5),
expected carrier PING and end-conditions Count(1). A response to that uuid on carrier PONG is
delivered: evaluating the entry's end-conditions yields cleanup = true (and allow = true), yet
the entry is still pending when `__r_deliver_response` returns, its count now 0. -/
theorem deliver_response_cleanup_entry_stays :
    demo_requester.pending_responses.kids = [demo_pending_entry] ∧
    surface_uuid (_t_child (some demo_pending_entry) PendingResponseUUIDIdx) =
      surface_uuid (some demo_response_to) ∧
    evaluateEndCondition (demo_env true).now
      (_t_child (some demo_pending_entry) PendingResponseEndCondsIdx) =
        .ok ⟨end_conditions_count 0, true, true⟩ ∧
    ∃ r1, __r_deliver_response (demo_env true) demo_requester demo_response_to
        (demo_response demo_PONG) = .ok (r1, .noDeliveryErr) ∧
      r1.pending_responses.kids =
        [demo_pending_entry.setChild PendingResponseEndCondsIdx (end_conditions_count 0)] :=
  ⟨by decide, by decide, by decide, _, by rfl, by decide⟩

/-- C8, amended. A response whose in-response-to uuid is that of a pending-response entry (the
first with that uuid): if evaluating the entry's end-conditions yields cleanup = true and
either it yields allow = false or the response's carrier is the one the entry expects, then
the entry is no longer among the pending responses when `__r_deliver_response` returns; the
other entries are kept in their order. -/
theorem deliver_response_cleanup_removes_entry (env : Env) (r : Receptor)
    (response_to signal body l : T) (pre post : List T) (u : UUIDt) (carrier : Symbol)
    (ec : EndCondition)
    (hu : surface_uuid (some response_to) = .ok u)
    (hcarrier : surface_sem (_t_child (signal_head signal) HeadCarrierIdx) = .ok carrier)
    (hbody : signal_body signal = some body)
    (hkids : r.pending_responses.kids = pre ++ l :: post)
    (hpre : ∀ x ∈ pre,
      ∃ lu, surface_uuid (_t_child (some x) PendingResponseUUIDIdx) = .ok lu ∧ lu ≠ u)
    (hl : surface_uuid (_t_child (some l) PendingResponseUUIDIdx) = .ok u)
    (hev : evaluateEndCondition env.now (_t_child (some l) PendingResponseEndCondsIdx) = .ok ec)
    (hcleanup : ec.cleanup = true)
    (hallow : ec.allow = true →
      surface_sem (_t_child (some l) PendingResponseCarrierIdx) = .ok carrier ∧
      (∃ resp, surface_tree (some body) = .ok resp) ∧
      ∃ w, _t_child (some l) PendingResponseWakeupIdx = some w) :
    ∃ r1, __r_deliver_response env r response_to signal = .ok (r1, .noDeliveryErr) ∧
      r1.pending_responses.kids = pre ++ post := by
  unfold __r_deliver_response
  simp only [hcarrier, hbody, hu, hkids]
  rw [deliver_response_loop_skip env u carrier _ r.q _ pre hpre]
  cases hal : ec.allow with
  | false => simp [__r_deliver_response_loop, hl, hev, hal, hcleanup]
  | true =>
    obtain ⟨hc, ⟨resp, hresp⟩, ⟨w, hw⟩⟩ := hallow hal
    simp [__r_deliver_response_loop, hl, hev, hal, hcleanup, hc, hresp, hw]

theorem deliver_response_cleanup_removes_entry_witness :
    ∃ r1, __r_deliver_response (demo_env true) demo_requester demo_response_to
        (demo_response demo_PING) = .ok (r1, .noDeliveryErr) ∧
      r1.pending_responses.kids = [] ++ [] :=
  deliver_response_cleanup_removes_entry (demo_env true) demo_requester demo_response_to
    (demo_response demo_PING) _ demo_pending_entry [] [] ⟨5, 5⟩ demo_PING
    ⟨end_conditions_count 0, true, true⟩
    (by rfl) (by rfl) (by rfl) (by rfl) (by simp) (by rfl) (by rfl) (by rfl)
    (fun _ => ⟨by rfl, ⟨_, by rfl⟩, ⟨_, by rfl⟩⟩)

theorem make_signal_request_shape (t : UUIDt) (from_ to_ : Int) (aspect : Aspect)
    (carrier : Symbol) (contents ec : T) (cid : Option T) (signal : T)
    (h : __r_make_signal t from_ to_ aspect carrier contents none (some ec) cid = .ok signal) :
    ∃ opts, signal = T.node SIGNAL .none
      [T.node ENVELOPE .none [T.node SIGNAL_UUID (.uuid t) []],
       T.node MESSAGE .none
        [T.node HEAD .none (__r_make_addr FROM_ADDRESS from_ :: __r_make_addr TO_ADDRESS to_ ::
            _t_news ASPECT_IDENT aspect :: _t_news CARRIER carrier :: ec :: opts),
         T.tnode BODY contents []]] := by
  cases cid with
  | none =>
    refine ⟨[], ?_⟩
    simp [__r_make_signal, _t_add, _t_newr, _t_newt] at h
    exact h.symm
  | some c =>
    refine ⟨[c], ?_⟩
    simp [__r_make_signal, _t_add, _t_newr, _t_newt, _t_clone] at h
    exact h.symm

theorem message_of_append (s : T) (extra : List T) (m : T)
    (h : _t_child (some s) SignalMessageIdx = some m) :
    _t_child (some (s.setKids (s.kids ++ extra))) SignalMessageIdx = some m := by
  simp only [_t_child, T.kids_setKids] at h ⊢
  rcases hk : s.kids with _ | ⟨a, _ | ⟨b, rest⟩⟩ <;> simp_all

theorem signal_body_append (s : T) (extra : List T) (b : T) (h : signal_body s = some b) :
    signal_body (s.setKids (s.kids ++ extra)) = some b := by
  have h1 : _t_child (_t_child (some s) SignalMessageIdx) MessageBodyIdx = some b := h
  show _t_child (_t_child (some _) SignalMessageIdx) MessageBodyIdx = some b
  cases hm : _t_child (some s) SignalMessageIdx with
  | none => rw [hm] at h1; simp [_t_child] at h1
  | some m => rw [message_of_append s extra m hm]; rw [hm] at h1; exact h1

theorem signal_head_append (s : T) (extra : List T) (b : T) (h : signal_head s = some b) :
    signal_head (s.setKids (s.kids ++ extra)) = some b := by
  have h1 : _t_child (_t_child (some s) SignalMessageIdx) MessageHeadIdx = some b := h
  show _t_child (_t_child (some _) SignalMessageIdx) MessageHeadIdx = some b
  cases hm : _t_child (some s) SignalMessageIdx with
  | none => rw [hm] at h1; simp [_t_child] at h1
  | some m => rw [message_of_append s extra m hm]; rw [hm] at h1; exact h1

theorem carrier_test_append (e : Option T) (s : T) (extra : List T) (b : T)
    (h : signal_head s = some b) :
    carrier_test e (s.setKids (s.kids ++ extra)) = carrier_test e s := by
  unfold carrier_test
  rw [signal_head_append s extra b h, h]

theorem test_expectation_frame (env : Env) (q : List QItem) (e : Option T) (s : T)
    (extra : List T) (out : TestOutcome)
    (h : __r_test_expectation env [] e s = .ok out) :
    ∃ added, out.signal = s.setKids (s.kids ++ added) ∧
      __r_test_expectation env q e (s.setKids (s.kids ++ extra)) =
        .ok ⟨out.expectation, s.setKids (s.kids ++ extra ++ added), q ++ out.q⟩ := by
  unfold __r_test_expectation at h ⊢
  cases hb : signal_body s with
  | none => simp [hb] at h
  | some body =>
    cases hh : signal_head s with
    | none =>
      have : ∃ err, carrier_test e s = .error err := by
        unfold carrier_test
        rw [hh]
        cases surface_sem (_t_child e ExpectationCarrierIdx) <;> simp [_t_child, surface_sem]
      obtain ⟨err, herr⟩ := this
      simp [hb, herr] at h
    | some head =>
      rw [signal_body_append s extra body hb, carrier_test_append e s extra head hh,
        signal_head_append s extra head hh]
      rw [hb, hh] at h
      simp only at h ⊢
      repeat' split at h
      all_goals first
        | exact Except.noConfusion h
        | (cases h; refine ⟨[_], rfl, ?_⟩; simp [*, _t_add])
        | (cases h; refine ⟨[], ?_, ?_⟩ <;> simp [*])

theorem test_expectations_all (env : Env) (s : T) (rest : List T) (items : List QItem)
    (h : List.Forall₂ (fun e item => ∃ out, __r_test_expectation env [] (some e) s = .ok out ∧
      out.q = [item] ∧ out.expectation.isSome = true) rest items) :
    ∀ (done extra : List T) (q : List QItem),
      ∃ rest1 added, rest1.length = rest.length ∧
        test_expectations env rest.length (done.length + 1) (done ++ rest)
          (s.setKids (s.kids ++ extra)) q =
          .ok (done ++ rest1, s.setKids (s.kids ++ extra ++ added), q ++ items) := by
  induction h with
  | nil =>
    intro done extra q
    exact ⟨[], [], rfl, by simp [test_expectations]⟩
  | @cons e item rest items he _ ih =>
    intro done extra q
    obtain ⟨out, hout, hq, hsome⟩ := he
    obtain ⟨added, -, hframe⟩ := test_expectation_frame env q (some e) s extra out hout
    obtain ⟨e1, he1⟩ := Option.isSome_iff_exists.mp hsome
    obtain ⟨rest1, added1, hlen, hloop⟩ := ih (done ++ [e1]) (extra ++ added) (q ++ [item])
    refine ⟨e1 :: rest1, added ++ added1, by simp [hlen], ?_⟩
    have hget : (done ++ e :: rest)[done.length + 1 - 1]? = some e := by
      rw [Nat.add_sub_cancel, List.getElem?_append_right (le_refl _)]
      simp
    have hnot : (env.do_kids_recount && decide ((done ++ e :: rest).length < done.length + 1)) = false := by
      simp
    rw [List.length_cons, test_expectations, hnot]
    simp only [hget, hframe, he1, hq, Bool.false_eq_true, if_false]
    have hset : (done ++ e :: rest).set (done.length + 1 - 1) e1 = (done ++ [e1]) ++ rest := by
      simp
    rw [hset]
    have hloop' := hloop
    simp only [List.length_append, List.length_singleton, List.append_assoc] at hloop' ⊢
    rw [hloop']
    simp

@[simp] theorem T.kids_setChild (t : T) (i : Nat) (c : T) :
    (t.setChild i c).kids = t.kids.set (i - 1) c := by
  simp [T.setChild]

@[simp] theorem T.symbol_setChild (t : T) (i : Nat) (c : T) :
    (t.setChild i c).symbol = t.symbol := by
  simp [T.setChild]

theorem child_setChild_same (t : T) (i : Nat) (c x : T) (h : _t_child (some t) i = some x) :
    _t_child (some (t.setChild i c)) i = some c := by
  unfold _t_child at h ⊢
  by_cases hi : i = 0
  · simp [hi] at h
  · simp only [hi, if_false, T.kids_setChild] at h ⊢
    have hlt : i - 1 < t.kids.length := by
      rcases Nat.lt_or_ge (i - 1) t.kids.length with hl | hl
      · exact hl
      · rw [List.getElem?_eq_none hl] at h
        cases h
    exact List.getElem?_set_self hlt

theorem child_setChild_other (t : T) (i j : Nat) (c : T) (hi : 1 ≤ i) (hij : i ≠ j) :
    _t_child (some (t.setChild i c)) j = _t_child (some t) j := by
  unfold _t_child
  by_cases hj : j = 0
  · simp [hj]
  · simp only [hj, if_false, T.kids_setChild]
    exact List.getElem?_set_ne (by omega)

theorem get_aspect_loop_found (aspect : Aspect) :
    ∀ (kids : List T) (j i : Nat), __r_get_aspect_loop aspect kids j = some i →
      j ≤ i ∧ ∃ a, kids[i - j]? = some a ∧ aspect = a.symbol := by
  intro kids
  induction kids with
  | nil => intro j i h; simp [__r_get_aspect_loop] at h
  | cons b rest ih =>
    intro j i h
    unfold __r_get_aspect_loop at h
    by_cases hb : aspect = b.symbol
    · simp [hb] at h
      subst h
      exact ⟨le_refl _, b, by simp, hb⟩
    · simp [hb] at h
      obtain ⟨hle, a, ha, hs⟩ := ih (j + 1) i h
      refine ⟨by omega, a, ?_, hs⟩
      have : i - j = (i - (j + 1)) + 1 := by omega
      rw [this]
      simpa using ha

theorem get_aspect_loop_set (aspect : Aspect) (a1 : T) (ha1 : aspect = a1.symbol) :
    ∀ (kids : List T) (j i : Nat), __r_get_aspect_loop aspect kids j = some i →
      __r_get_aspect_loop aspect (kids.set (i - j) a1) j = some i := by
  intro kids
  induction kids with
  | nil => intro j i h; simp [__r_get_aspect_loop] at h
  | cons b rest ih =>
    intro j i h
    unfold __r_get_aspect_loop at h
    by_cases hb : aspect = b.symbol
    · simp [hb] at h
      subst h
      simp [__r_get_aspect_loop, ha1]
    · simp [hb] at h
      obtain ⟨hle, -⟩ := get_aspect_loop_found aspect rest (j + 1) i h
      have : i - j = (i - (j + 1)) + 1 := by omega
      rw [this, List.set_cons_succ, __r_get_aspect_loop]
      simp [hb, ih (j + 1) i h]

theorem flux_expectations_some (flux : T) (aspect : Aspect) (exps : List T)
    (h : flux_expectations flux aspect = some exps) :
    ∃ i a es, __r_get_aspect_loop aspect flux.kids 1 = some i ∧ _t_child (some flux) i = some a ∧
      _t_child (some a) aspectExpectationsIdx = some es ∧ es.kids = exps := by
  unfold flux_expectations at h
  cases hi : __r_get_aspect_loop aspect flux.kids 1 with
  | none => simp [hi] at h
  | some i =>
    simp only [hi, _t_get, List.foldl, Option.map_eq_some'] at h
    obtain ⟨es, hes, hk⟩ := h
    have hes1 : _t_child (_t_child (some flux) i) aspectExpectationsIdx = some es := hes
    cases ha : _t_child (some flux) i with
    | none => rw [ha] at hes1; simp [_t_child] at hes1
    | some a => exact ⟨i, a, es, rfl, ha, by rw [ha] at hes1; exact hes1, hk⟩

theorem flux_signals_some (flux : T) (aspect : Aspect) (log : List T)
    (h : flux_signals flux aspect = some log) :
    ∃ i a as, __r_get_aspect_loop aspect flux.kids 1 = some i ∧ _t_child (some flux) i = some a ∧
      _t_child (some a) aspectSignalsIdx = some as ∧ as.kids = log := by
  unfold flux_signals at h
  cases hi : __r_get_aspect_loop aspect flux.kids 1 with
  | none => simp [hi] at h
  | some i =>
    simp only [hi, _t_get, List.foldl, Option.map_eq_some'] at h
    obtain ⟨es, hes, hk⟩ := h
    have hes1 : _t_child (_t_child (some flux) i) aspectSignalsIdx = some es := hes
    cases ha : _t_child (some flux) i with
    | none => rw [ha] at hes1; simp [_t_child] at hes1
    | some a => exact ⟨i, a, es, rfl, ha, by rw [ha] at hes1; exact hes1, hk⟩

theorem deliver_to_aspect (env : Env) (r r1 : Receptor) (signal head s1 : T) (aspect : Aspect)
    (exps log exps1 : List T) (q1 : List QItem)
    (hhead : signal_head signal = some head)
    (hopen : open_conversation r (head_optionals (some head)) = .ok r1)
    (hresp : (head_optionals (some head)).response_to = none)
    (haspect : surface_sem (_t_child (some head) HeadAspectIdx) = .ok aspect)
    (hexp : flux_expectations r1.flux aspect = some exps)
    (hlog : flux_signals r1.flux aspect = some log)
    (hloop : test_expectations env exps.length 1 exps signal r1.q = .ok (exps1, s1, q1)) :
    ∃ r2, _r_deliver env r signal = .ok (r2, .noDeliveryErr) ∧ r2.q = q1 ∧
      flux_expectations r2.flux aspect = some exps1 ∧
      flux_signals r2.flux aspect = some (log ++ [s1]) ∧
      r2.pending_responses = r1.pending_responses ∧
      r2.pending_signals = r1.pending_signals ∧
      r2.conversations = r1.conversations ∧ r2.state = r1.state := by
  obtain ⟨i, a, es, hi, ha, hes, hek⟩ := flux_expectations_some _ _ _ hexp
  obtain ⟨i', a', as, hi', ha', has, hak⟩ := flux_signals_some _ _ _ hlog
  rw [hi] at hi'
  cases hi'
  rw [ha] at ha'
  cases ha'
  obtain ⟨hle, b, hb, hbs⟩ := get_aspect_loop_found aspect _ 1 i hi
  have hfa : __r_get_aspect r1.flux aspect = (r1.flux, i) := by simp [__r_get_aspect, hi]
  subst hek
  unfold _r_deliver
  simp only [hhead, hopen, hresp, haspect, hfa, ha, has, hes, _t_children, hloop]
  have hsym : aspect = ((a.setChild aspectSignalsIdx (_t_add as s1)).setChild
      aspectExpectationsIdx (es.setKids exps1)).symbol := by
    have hab : b = a := by
      have h1 : _t_child (some r1.flux) i = some b := by
        unfold _t_child
        have : i ≠ 0 := by omega
        simpa [this] using hb
      rw [ha] at h1
      exact (Option.some.inj h1).symm
    simp [hbs, hab]
  have hset := get_aspect_loop_set aspect _ hsym r1.flux.kids 1 i hi
  have hnew := child_setChild_same r1.flux i
    ((a.setChild aspectSignalsIdx (_t_add as s1)).setChild aspectExpectationsIdx (es.setKids exps1))
    a ha
  have has1 := child_setChild_same a aspectSignalsIdx (_t_add as s1) as has
  have hes1 := child_setChild_same (a.setChild aspectSignalsIdx (_t_add as s1))
    aspectExpectationsIdx (es.setKids exps1) es
    (by rw [child_setChild_other _ _ _ _ (by decide) (by decide)]; exact hes)
  have has2 : _t_child (some ((a.setChild aspectSignalsIdx (_t_add as s1)).setChild
      aspectExpectationsIdx (es.setKids exps1))) aspectSignalsIdx = some (_t_add as s1) := by
    rw [child_setChild_other _ _ _ _ (by decide) (by decide)]
    exact has1
  refine ⟨_, rfl, rfl, ?_, ?_, rfl, rfl, rfl, rfl⟩
  · unfold flux_expectations
    simp only [T.kids_setChild, hset, _t_get, List.foldl, hnew, hes1]
    simp
  · unfold flux_signals
    simp only [T.kids_setChild, hset, _t_get, List.foldl, hnew, has2]
    simp [_t_add, hak]

theorem find_conversation_loop_cons (u : UUIDt) (c : T) (rest : List T) (i : Nat) :
    __r_find_conversation_loop u (c :: rest) i =
      match __r_find_conversation_step u c with
      | .error e => .error e
      | .ok (some p) => .ok (some (i :: p))
      | .ok none => __r_find_conversation_loop u rest (i + 1) := by
  simp only [__r_find_conversation_loop]

theorem find_conversation_loop_append (u : UUIDt) (c : T) :
    ∀ (xs : List T) (i : Nat),
      __r_find_conversation_loop u (xs ++ [c]) i =
        match __r_find_conversation_loop u xs i with
        | .error e => .error e
        | .ok (some p) => .ok (some p)
        | .ok none =>
          match __r_find_conversation_step u c with
          | .error e => .error e
          | .ok (some p) => .ok (some ((i + xs.length) :: p))
          | .ok none => .ok none := by
  intro xs
  induction xs with
  | nil =>
    intro i
    simp only [List.nil_append, __r_find_conversation_loop, List.length_nil, Nat.add_zero]
  | cons x xs ih =>
    intro i
    rw [List.cons_append, find_conversation_loop_cons, find_conversation_loop_cons, ih (i + 1),
      List.length_cons]
    have : i + 1 + xs.length = i + (xs.length + 1) := by omega
    rw [this]
    rcases __r_find_conversation_step u x with e | _ | p <;> rfl

theorem open_conversation_ok (r : Receptor) (o : Optionals)
    (hreg : ∀ u, ∃ p, _r_find_conversation r u = .ok p)
    (hcid : ∀ c, o.conversation = some c → ∃ cu, __cid_getUUID (some c) = .ok cu) :
    ∃ r1, open_conversation r o = .ok r1 ∧ r1.flux = r.flux ∧ r1.q = r.q ∧
      r1.pending_responses = r.pending_responses ∧ r1.pending_signals = r.pending_signals ∧
      r1.state = r.state ∧ ∀ u, ∃ p, _r_find_conversation r1 u = .ok p := by
  unfold open_conversation
  cases hc : o.conversation with
  | none => exact ⟨r, rfl, rfl, rfl, rfl, rfl, rfl, hreg⟩
  | some c =>
    obtain ⟨cu, hcu⟩ := hcid c hc
    obtain ⟨p, hp⟩ := hreg cu
    cases p with
    | some path => exact ⟨r, by simp [hcu, hp], rfl, rfl, rfl, rfl, rfl, hreg⟩
    | none =>
      have hopen : ∃ ec, (match __cid_getUUID (some c) with
          | .error e => .error e
          | .ok cuuid =>
            match _r_find_conversation r cuuid with
            | .error e => .error e
            | .ok (some _) => .ok r
            | .ok none =>
              match _r_add_conversation r none cuuid o.end_conditions none with
              | .error e => .error e
              | .ok (r1, _) => .ok r1) =
          Except.ok (Receptor.mk r.flux r.pending_signals r.pending_responses
            (_t_add r.conversations (T.node CONVERSATION .none
              [__cid_new cu, ec, T.node CONVERSATIONS .none []])) r.q r.state) := by
        refine ⟨o.end_conditions.getD __r_build_default_until, ?_⟩
        cases o.end_conditions <;>
          simp [hcu, hp, _r_add_conversation, _t_add, _t_newr]
      obtain ⟨ec, hopen⟩ := hopen
      refine ⟨_, hopen, rfl, rfl, rfl, rfl, rfl, ?_⟩
      intro u
      obtain ⟨p1, hp1⟩ := hreg u
      simp only [_r_find_conversation, __r_find_conversation, _t_add, T.kids_setKids] at hp1 ⊢
      rw [find_conversation_loop_append, hp1]
      cases p1 with
      | some path => exact ⟨_, rfl⟩
      | none =>
        by_cases huc : u = cu
        · refine ⟨some [1 + r.conversations.kids.length], ?_⟩
          simp [__r_find_conversation_step, __cid_getUUID, __cid_new, _t_child, _t_newr, _t_add,
            surface_uuid, huc]
        · refine ⟨none, ?_⟩
          simp [__r_find_conversation_step, __cid_getUUID, __cid_new, _t_child, _t_newr, _t_add,
            surface_uuid, huc, __r_find_conversation_sub, __r_find_conversation_loop]

/-- C7, refuted as stated. The default aspect holds two expectations with unlimited
end-conditions that both match the signal `(LINE:7)` on carrier PING; each of them is
dispatched when tested on its own, and one delivery of the signal enqueues the run trees of
both, first subscribed first, whichever way the loop macro counts. -/
theorem deliver_dispatches_second_match :
    flux_expectations (demo_receptor [demo_expectation 60 none, demo_expectation 61 none]).flux
      DEFAULT_ASPECT = some [demo_expectation 60 none, demo_expectation 61 none] ∧
    (∃ out, __r_test_expectation (demo_env true) [] (some (demo_expectation 60 none))
      (demo_signal 7) = .ok out ∧ out.q = [QItem.addrt2q (demo_run_tree 60 7) none]) ∧
    (∃ out, __r_test_expectation (demo_env true) [] (some (demo_expectation 61 none))
      (demo_signal 7) = .ok out ∧ out.q = [QItem.addrt2q (demo_run_tree 61 7) none]) ∧
    (∃ r1, _r_deliver (demo_env true)
        (demo_receptor [demo_expectation 60 none, demo_expectation 61 none]) (demo_signal 7) =
          .ok (r1, .noDeliveryErr) ∧
        r1.q = [QItem.addrt2q (demo_run_tree 60 7) none, QItem.addrt2q (demo_run_tree 61 7) none]) ∧
    ∃ r1, _r_deliver (demo_env false)
        (demo_receptor [demo_expectation 60 none, demo_expectation 61 none]) (demo_signal 7) =
          .ok (r1, .noDeliveryErr) ∧
        r1.q = [QItem.addrt2q (demo_run_tree 60 7) none, QItem.addrt2q (demo_run_tree 61 7) none] :=
  ⟨by decide, ⟨_, by rfl, by decide⟩, ⟨_, by rfl, by decide⟩, ⟨_, by rfl, by decide⟩,
    ⟨_, by rfl, by decide⟩⟩

/-- C7, amended. A plain signal delivered to an aspect whose expectations, each tested on its
own against the signal, are all dispatched and none removed: `_r_deliver` dispatches every
one of them, once each and in subscription order, not only the first. -/
theorem deliver_dispatches_every_match (env : Env) (r : Receptor) (signal head : T)
    (aspect : Aspect) (exps log : List T) (items : List QItem)
    (hreg : ∀ u, ∃ p, _r_find_conversation r u = .ok p)
    (hhead : signal_head signal = some head)
    (hcid : ∀ c, (head_optionals (some head)).conversation = some c →
      ∃ cu, __cid_getUUID (some c) = .ok cu)
    (hresp : (head_optionals (some head)).response_to = none)
    (haspect : surface_sem (_t_child (some head) HeadAspectIdx) = .ok aspect)
    (hexp : flux_expectations r.flux aspect = some exps)
    (hlog : flux_signals r.flux aspect = some log)
    (hall : List.Forall₂ (fun e item => ∃ out,
      __r_test_expectation env [] (some e) signal = .ok out ∧ out.q = [item] ∧
        out.expectation.isSome = true) exps items) :
    ∃ r1, _r_deliver env r signal = .ok (r1, .noDeliveryErr) ∧ r1.q = r.q ++ items := by
  obtain ⟨r0, hopen, hflux, hq, -, -, -, -⟩ := open_conversation_ok r _ hreg hcid
  obtain ⟨exps1, added, -, hloop⟩ := test_expectations_all env signal exps items hall [] [] r.q
  simp only [List.length_nil, Nat.zero_add, List.nil_append, List.append_nil, T.setKids_kids]
    at hloop
  rw [← hflux] at hexp hlog
  rw [← hq] at hloop
  obtain ⟨r1, h1, h1q, -⟩ := deliver_to_aspect env r r0 signal head _ aspect exps log exps1 _
    hhead hopen hresp haspect hexp hlog hloop
  exact ⟨r1, h1, by rw [h1q, hq]⟩

theorem deliver_dispatches_every_match_witness :
    ∃ r1, _r_deliver (demo_env false)
        (demo_receptor [demo_expectation 60 none, demo_expectation 61 none]) (demo_signal 7) =
          .ok (r1, .noDeliveryErr) ∧
      r1.q = (demo_receptor [demo_expectation 60 none, demo_expectation 61 none]).q ++
        [QItem.addrt2q (demo_run_tree 60 7) none, QItem.addrt2q (demo_run_tree 61 7) none] :=
  deliver_dispatches_every_match (demo_env false)
    (demo_receptor [demo_expectation 60 none, demo_expectation 61 none]) (demo_signal 7) _
    DEFAULT_ASPECT [demo_expectation 60 none, demo_expectation 61 none] [] _
    (fun _ => ⟨none, by rfl⟩) (by rfl) (by simp [head_optionals, scan_optionals])
    (by rfl) (by rfl) (by rfl) (by rfl)
    (List.Forall₂.cons ⟨_, by rfl, by rfl, by rfl⟩
      (List.Forall₂.cons ⟨_, by rfl, by rfl, by rfl⟩ List.Forall₂.nil))

/-- C2. The default aspect holds an expectation with end-conditions Count(1) followed by one
with unlimited end-conditions; both match the signal `(LINE:7)` on carrier PING, and the
second is dispatched when tested on its own. Delivering the signal tests the first, which is
dispatched and removed, and never the second: if `DO_KIDS` reads the number of children again,
the loop ends with the second expectation untested and still in place; if it keeps the number
read at the start, the second iteration passes a NULL expectation to
`__r_test_expectation`. -/
theorem deliver_skips_expectation_after_removal :
    flux_expectations
      (demo_receptor [demo_expectation 60 (some (end_conditions_count 1)),
        demo_expectation 61 none]).flux DEFAULT_ASPECT =
      some [demo_expectation 60 (some (end_conditions_count 1)), demo_expectation 61 none] ∧
    (∃ out, __r_test_expectation (demo_env true) [] (some (demo_expectation 61 none))
      (demo_signal 7) = .ok out ∧ out.q = [QItem.addrt2q (demo_run_tree 61 7) none]) ∧
    (∃ r1, _r_deliver (demo_env true)
        (demo_receptor [demo_expectation 60 (some (end_conditions_count 1)),
          demo_expectation 61 none]) (demo_signal 7) = .ok (r1, .noDeliveryErr) ∧
        r1.q = [QItem.addrt2q (demo_run_tree 60 7) none] ∧
        flux_expectations r1.flux DEFAULT_ASPECT = some [demo_expectation 61 none]) ∧
    _r_deliver (demo_env false)
      (demo_receptor [demo_expectation 60 (some (end_conditions_count 1)),
        demo_expectation 61 none]) (demo_signal 7) = .error .null_deref :=
  ⟨by decide, ⟨_, by rfl, by decide⟩, ⟨_, by rfl, by decide, by decide⟩, by decide⟩

theorem carrier_test_congr (e e1 : T) (s : T)
    (h : _t_child (some e) ExpectationCarrierIdx = _t_child (some e1) ExpectationCarrierIdx) :
    carrier_test (some e) s = carrier_test (some e1) s := by
  unfold carrier_test
  rw [h]

theorem conversation_test_congr (e e1 : T) (head : T)
    (h : e.kids.drop (ExpectationOptionalsIdx - 1) = e1.kids.drop (ExpectationOptionalsIdx - 1)) :
    conversation_test e head = conversation_test e1 head := by
  unfold conversation_test __t_find
  rw [h]

theorem test_count_expectation (env : Env) (q : List QItem)
    (e ec c1 pattern pat action params s head body contents m : T) (opts cs : List T)
    (p : Process) (k : Int)
    (he : e.kids = c1 :: pattern :: action :: params :: ec :: opts)
    (hec : ec.kids = [T.node COUNT (.int k) cs])
    (hk : 1 ≤ k) (hmax : k ≤ 2147483647)
    (hpat : _t_child (some pattern) 1 = some pat)
    (hact : action.symbol ≠ WAKEUP_REFERENCE) (hp : surface_sem (some action) = .ok p)
    (hhead : signal_head s = some head) (hbody : signal_body s = some body)
    (hcontents : surface_tree (some body) = .ok contents)
    (hcarrier : carrier_test (some e) s = .ok true)
    (hconv : conversation_test e head = .ok true)
    (hm : env.matchr (_t_add (_t_news SEMTREX_GROUP NULL_SYMBOL) pat) contents = some m) :
    __r_test_expectation env q (some e) s =
      .ok ⟨if k ≤ 1 then none
            else some (e.setKids (c1 :: pattern :: action :: params ::
              ec.setKids [T.node COUNT (.int (k - 1)) cs] :: opts)),
          _t_add s (env.make_run_tree p (env.fill_from_match params m contents)
            ((find_symbol SEMANTIC_MAP opts).map _t_clone)),
          q ++ [QItem.addrt2q (env.make_run_tree p (env.fill_from_match params m contents)
            ((find_symbol SEMANTIC_MAP opts).map _t_clone))
            ((find_symbol SEMANTIC_MAP opts).map _t_clone)]⟩ := by
  have hev := evaluateEndCondition_single_count env.now ec k cs hec (by omega) hmax
  unfold __r_test_expectation
  simp only [hbody, hcarrier, hhead, hconv]
  simp [_t_child, he, hpat, hcontents, hev, hm, hact, hp, _t_clone, __t_find, T.setChild, hk]
  have hpat1 : pattern.kids[0]? = some pat := by simpa [_t_child] using hpat
  simp [hpat1, hm, hact, hp]

theorem deliver_count_step (env : Env) (r : Receptor) (aspect : Aspect)
    (e ec c1 pattern pat action params s head body contents m : T) (opts cs log : List T)
    (p : Process) (k : Int)
    (he : e.kids = c1 :: pattern :: action :: params :: ec :: opts)
    (hec : ec.kids = [T.node COUNT (.int k) cs])
    (hk : 1 ≤ k) (hmax : k ≤ 2147483647)
    (hpat : _t_child (some pattern) 1 = some pat)
    (hact : action.symbol ≠ WAKEUP_REFERENCE) (hp : surface_sem (some action) = .ok p)
    (hreg : ∀ u, ∃ x, _r_find_conversation r u = .ok x)
    (hexp : flux_expectations r.flux aspect = some [e])
    (hlog : flux_signals r.flux aspect = some log)
    (hhead : signal_head s = some head) (hbody : signal_body s = some body)
    (hcontents : surface_tree (some body) = .ok contents)
    (hresp : (head_optionals (some head)).response_to = none)
    (hcid : ∀ c, (head_optionals (some head)).conversation = some c →
      ∃ cu, __cid_getUUID (some c) = .ok cu)
    (haspect : surface_sem (_t_child (some head) HeadAspectIdx) = .ok aspect)
    (hcarrier : carrier_test (some e) s = .ok true)
    (hconv : conversation_test e head = .ok true)
    (hm : env.matchr (_t_add (_t_news SEMTREX_GROUP NULL_SYMBOL) pat) contents = some m) :
    ∃ r2 log2, _r_deliver env r s = .ok (r2, .noDeliveryErr) ∧
      r2.q = r.q ++ [QItem.addrt2q (env.make_run_tree p (env.fill_from_match params m contents)
        ((find_symbol SEMANTIC_MAP opts).map _t_clone))
        ((find_symbol SEMANTIC_MAP opts).map _t_clone)] ∧
      flux_expectations r2.flux aspect = some (if k ≤ 1 then []
        else [e.setKids (c1 :: pattern :: action :: params ::
          ec.setKids [T.node COUNT (.int (k - 1)) cs] :: opts)]) ∧
      flux_signals r2.flux aspect = some log2 ∧
      ∀ u, ∃ x, _r_find_conversation r2 u = .ok x := by
  obtain ⟨r0, hopen, hflux, hq, -, -, -, hreg0⟩ := open_conversation_ok r _ hreg hcid
  have htest := test_count_expectation env r0.q e ec c1 pattern pat action params s head body
    contents m opts cs p k he hec hk hmax hpat hact hp hhead hbody hcontents hcarrier hconv hm
  have hloop : test_expectations env [e].length 1 [e] s r0.q =
      .ok (if k ≤ 1 then [] else [e.setKids (c1 :: pattern :: action :: params ::
          ec.setKids [T.node COUNT (.int (k - 1)) cs] :: opts)],
        _t_add s (env.make_run_tree p (env.fill_from_match params m contents)
            ((find_symbol SEMANTIC_MAP opts).map _t_clone)),
        r0.q ++ [QItem.addrt2q (env.make_run_tree p (env.fill_from_match params m contents)
            ((find_symbol SEMANTIC_MAP opts).map _t_clone))
            ((find_symbol SEMANTIC_MAP opts).map _t_clone)]) := by
    simp only [List.length_singleton, test_expectations]
    simp only [List.length_singleton, Nat.lt_irrefl, decide_False, Bool.and_false,
      Bool.false_eq_true, if_false]
    have h0 : [e][1 - 1]? = some e := rfl
    rw [h0, htest]
    by_cases hk1 : k ≤ 1 <;> simp [hk1]
  rw [← hflux] at hexp hlog
  obtain ⟨r2, h2, h2q, h2e, h2l, -, -, h2c, -⟩ := deliver_to_aspect env r r0 s head _ aspect [e]
    log _ _ hhead hopen hresp haspect hexp hlog hloop
  refine ⟨r2, _, h2, by rw [h2q, hq], h2e, h2l, ?_⟩
  intro u
  obtain ⟨x, hx⟩ := hreg0 u
  exact ⟨x, by simpa [_r_find_conversation, h2c] using hx⟩

theorem count_deliveries (env : Env) (aspect : Aspect)
    (c1 pattern pat action params : T) (opts cs : List T) (p : Process)
    (hpat : _t_child (some pattern) 1 = some pat)
    (hact : action.symbol ≠ WAKEUP_REFERENCE) (hp : surface_sem (some action) = .ok p) :
    ∀ (n : Nat) (sigs : List T) (r : Receptor) (e ec : T) (log : List T),
      sigs.length = n + 1 → n + 1 ≤ 2147483647 →
      e.kids = c1 :: pattern :: action :: params :: ec :: opts →
      ec.kids = [T.node COUNT (.int ((n + 1 : Nat) : Int)) cs] →
      (∀ u, ∃ x, _r_find_conversation r u = .ok x) →
      flux_expectations r.flux aspect = some [e] →
      flux_signals r.flux aspect = some log →
      (∀ s ∈ sigs, ∃ head body contents m, signal_head s = some head ∧
        signal_body s = some body ∧ surface_tree (some body) = .ok contents ∧
        (head_optionals (some head)).response_to = none ∧
        (∀ c, (head_optionals (some head)).conversation = some c →
          ∃ cu, __cid_getUUID (some c) = .ok cu) ∧
        surface_sem (_t_child (some head) HeadAspectIdx) = .ok aspect ∧
        carrier_test (some e) s = .ok true ∧ conversation_test e head = .ok true ∧
        env.matchr (_t_add (_t_news SEMTREX_GROUP NULL_SYMBOL) pat) contents = some m) →
      ∃ r1 items log1, deliver_all env r sigs = .ok r1 ∧ r1.q = r.q ++ items ∧
        List.Forall₂ (fun s item => ∃ body contents m, signal_body s = some body ∧
          surface_tree (some body) = .ok contents ∧
          env.matchr (_t_add (_t_news SEMTREX_GROUP NULL_SYMBOL) pat) contents = some m ∧
          item = QItem.addrt2q (env.make_run_tree p (env.fill_from_match params m contents)
            ((find_symbol SEMANTIC_MAP opts).map _t_clone))
            ((find_symbol SEMANTIC_MAP opts).map _t_clone)) sigs items ∧
        flux_expectations r1.flux aspect = some [] ∧
        flux_signals r1.flux aspect = some log1 ∧
        ∀ u, ∃ x, _r_find_conversation r1 u = .ok x := by
  intro n
  induction n with
  | zero =>
    intro sigs r e ec log hlen hmax he hec hreg hexp hlog hs
    obtain ⟨s, rfl⟩ := List.length_eq_one.mp hlen
    obtain ⟨head, body, contents, m, hhead, hbody, hcontents, hresp, hcid, haspect, hcarrier,
      hconv, hm⟩ := hs s (List.mem_singleton_self s)
    obtain ⟨r2, log2, h2, h2q, h2e, h2l, h2r⟩ := deliver_count_step env r aspect e ec c1 pattern
      pat action params s head body contents m opts cs log p _ he hec (by simp) (by simp)
      hpat hact hp hreg hexp hlog hhead hbody hcontents hresp hcid haspect hcarrier hconv hm
    refine ⟨r2, [(QItem.addrt2q (env.make_run_tree p (env.fill_from_match params m contents)
      ((find_symbol SEMANTIC_MAP opts).map _t_clone)) ((find_symbol SEMANTIC_MAP opts).map _t_clone))],
      log2, by simp [deliver_all, h2], h2q, ?_, by simpa using h2e, h2l, h2r⟩
    exact List.Forall₂.cons ⟨body, contents, m, hbody, hcontents, hm, rfl⟩ List.Forall₂.nil
  | succ n ih =>
    intro sigs r e ec log hlen hmax he hec hreg hexp hlog hs
    rcases sigs with _ | ⟨s, rest⟩
    · simp at hlen
    obtain ⟨head, body, contents, m, hhead, hbody, hcontents, hresp, hcid, haspect, hcarrier,
      hconv, hm⟩ := hs s (List.mem_cons_self s rest)
    obtain ⟨r2, log2, h2, h2q, h2e, h2l, h2r⟩ := deliver_count_step env r aspect e ec c1 pattern
      pat action params s head body contents m opts cs log p _ he hec
      (by push_cast; omega) (by push_cast; omega)
      hpat hact hp hreg hexp hlog hhead hbody hcontents hresp hcid haspect hcarrier hconv hm
    have hnot : ¬ (((n + 1 + 1 : Nat) : Int) ≤ 1) := by push_cast; omega
    rw [if_neg hnot] at h2e
    have hcnt : (((n + 1 + 1 : Nat) : Int) - 1) = ((n + 1 : Nat) : Int) := by push_cast; ring
    rw [hcnt] at h2e
    obtain ⟨r1, items, log1, h1, h1q, h1f, h1e, h1l, h1r⟩ := ih rest r2
      (e.setKids (c1 :: pattern :: action :: params ::
        ec.setKids [T.node COUNT (.int ((n + 1 : Nat) : Int)) cs] :: opts))
      (ec.setKids [T.node COUNT (.int ((n + 1 : Nat) : Int)) cs]) log2
      (by simpa using hlen) (by omega) (by simp) (by simp) h2r h2e h2l
      (by
        intro s1 hs1
        obtain ⟨head1, body1, contents1, m1, g1, g2, g3, g4, g5, g6, g7, g8, g9⟩ :=
          hs s1 (List.mem_cons_of_mem s hs1)
        refine ⟨head1, body1, contents1, m1, g1, g2, g3, g4, g5, g6, ?_, ?_, g9⟩
        · rw [← g7]
          exact carrier_test_congr _ _ _ (by simp [_t_child, he])
        · rw [← g8]
          exact conversation_test_congr _ _ _ (by simp [he]))
    refine ⟨r1, (QItem.addrt2q (env.make_run_tree p (env.fill_from_match params m contents)
      ((find_symbol SEMANTIC_MAP opts).map _t_clone)) ((find_symbol SEMANTIC_MAP opts).map _t_clone)) :: items,
      log1, by simp [deliver_all, h2, h1], ?_, ?_, h1e, h1l, h1r⟩
    · rw [h1q, h2q, List.append_assoc]
      rfl
    · exact List.Forall₂.cons ⟨body, contents, m, hbody, hcontents, hm, rfl⟩ h1f

/-- An expectation with a process action and end-conditions Count(n), n ≥ 1, that is the
only expectation of its aspect: when n signals that pass its carrier and conversation tests
and match its pattern are delivered one after the other, each of them is dispatched once (one run tree
per signal is enqueued, in order) and after the n-th the aspect holds no expectation; a
further such signal is delivered without anything being dispatched. -/
theorem count_expectation_dispatched_n_times (env : Env) (r : Receptor) (aspect : Aspect)
    (n : Nat) (e ec c1 pattern pat action params last : T) (opts cs log sigs : List T)
    (p : Process)
    (hn : 1 ≤ n) (hmax : n ≤ 2147483647)
    (he : e.kids = c1 :: pattern :: action :: params :: ec :: opts)
    (hec : ec.kids = [T.node COUNT (.int (n : Int)) cs])
    (hpat : _t_child (some pattern) 1 = some pat)
    (hact : action.symbol ≠ WAKEUP_REFERENCE) (hp : surface_sem (some action) = .ok p)
    (hreg : ∀ u, ∃ x, _r_find_conversation r u = .ok x)
    (hexp : flux_expectations r.flux aspect = some [e])
    (hlog : flux_signals r.flux aspect = some log)
    (hlen : sigs.length = n)
    (hs : ∀ s ∈ sigs ++ [last], ∃ head body contents m, signal_head s = some head ∧
      signal_body s = some body ∧ surface_tree (some body) = .ok contents ∧
      (head_optionals (some head)).response_to = none ∧
      (∀ c, (head_optionals (some head)).conversation = some c →
        ∃ cu, __cid_getUUID (some c) = .ok cu) ∧
      surface_sem (_t_child (some head) HeadAspectIdx) = .ok aspect ∧
      carrier_test (some e) s = .ok true ∧ conversation_test e head = .ok true ∧
      env.matchr (_t_add (_t_news SEMTREX_GROUP NULL_SYMBOL) pat) contents = some m) :
    ∃ r1 r2 items, deliver_all env r sigs = .ok r1 ∧ r1.q = r.q ++ items ∧
      List.Forall₂ (fun s item => ∃ body contents m, signal_body s = some body ∧
        surface_tree (some body) = .ok contents ∧
        env.matchr (_t_add (_t_news SEMTREX_GROUP NULL_SYMBOL) pat) contents = some m ∧
        item = QItem.addrt2q (env.make_run_tree p (env.fill_from_match params m contents)
          ((__t_find e SEMANTIC_MAP ExpectationOptionalsIdx).map _t_clone))
          ((__t_find e SEMANTIC_MAP ExpectationOptionalsIdx).map _t_clone)) sigs items ∧
      flux_expectations r1.flux aspect = some [] ∧
      _r_deliver env r1 last = .ok (r2, .noDeliveryErr) ∧ r2.q = r1.q ∧
      flux_expectations r2.flux aspect = some [] := by
  obtain ⟨k, rfl⟩ : ∃ k, n = k + 1 := ⟨n - 1, by omega⟩
  have hfind : __t_find e SEMANTIC_MAP ExpectationOptionalsIdx = find_symbol SEMANTIC_MAP opts := by
    simp [__t_find, he]
  rw [hfind]
  obtain ⟨r1, items, log1, h1, h1q, h1f, h1e, h1l, h1r⟩ := count_deliveries env aspect c1 pattern
    pat action params opts cs p hpat hact hp k sigs r e ec log hlen hmax he hec hreg hexp hlog
    (fun s hs1 => hs s (List.mem_append_left _ hs1))
  obtain ⟨head, body, contents, m, hhead, -, -, hresp, hcid, haspect, -, -, -⟩ :=
    hs last (List.mem_append_right _ (List.mem_singleton_self last))
  obtain ⟨r0, hopen, hflux, hq, -, -, -, -⟩ := open_conversation_ok r1 _ h1r hcid
  rw [← hflux] at h1e h1l
  obtain ⟨r2, h2, h2q, h2e, -⟩ := deliver_to_aspect env r1 r0 last head last aspect [] log1 []
    r0.q hhead hopen hresp haspect h1e h1l (by simp [test_expectations])
  rw [hflux] at h1e
  exact ⟨r1, r2, items, h1, h1q, h1f, h1e, h2, by rw [h2q, hq], h2e⟩

theorem count_expectation_dispatched_n_times_witness :
    ∃ r1 r2,
      deliver_all (demo_env true)
        (demo_receptor [demo_expectation 60 (some (end_conditions_count 2))])
        [demo_signal 7, demo_signal 8] = .ok r1 ∧
      flux_expectations r1.flux DEFAULT_ASPECT = some [] ∧
      _r_deliver (demo_env true) r1 (demo_signal 9) = .ok (r2, .noDeliveryErr) ∧ r2.q = r1.q :=
  let ⟨r1, r2, _, h1, _, _, h4, h5, h6, _⟩ :=
    count_expectation_dispatched_n_times (demo_env true)
      (demo_receptor [demo_expectation 60 (some (end_conditions_count 2))]) DEFAULT_ASPECT 2
      (demo_expectation 60 (some (end_conditions_count 2))) (end_conditions_count 2)
      (_t_news CARRIER demo_PING) (demo_pattern demo_LINE) (_t_news (user 50) demo_LINE)
      (_t_news ACTION (user 60)) (_t_newr PARAMS) (demo_signal 9) [] [] []
      [demo_signal 7, demo_signal 8] (user 60)
      (by decide) (by decide) (by rfl) (by rfl) (by rfl) (by decide) (by rfl)
      (fun _ => ⟨none, by rfl⟩) (by rfl) (by rfl) (by rfl)
      (by
        intro s hs
        simp only [List.cons_append, List.nil_append, List.mem_cons, List.mem_singleton,
          List.not_mem_nil, or_false] at hs
        rcases hs with rfl | rfl | rfl
        · exact ⟨_, _, _, _, by rfl, by rfl, by rfl, by rfl,
            fun c hc => absurd (hc.symm.trans (by rfl)) (Option.some_ne_none c),
            by rfl, by rfl, by rfl, by rfl⟩
        · exact ⟨_, _, _, _, by rfl, by rfl, by rfl, by rfl,
            fun c hc => absurd (hc.symm.trans (by rfl)) (Option.some_ne_none c),
            by rfl, by rfl, by rfl, by rfl⟩
        · exact ⟨_, _, _, _, by rfl, by rfl, by rfl, by rfl,
            fun c hc => absurd (hc.symm.trans (by rfl)) (Option.some_ne_none c),
            by rfl, by rfl, by rfl, by rfl⟩)
  ⟨r1, r2, h1, h4, h5, h6⟩

/-- C11. When the carrier of the expectation is not NULL_SYMBOL and differs from the carrier of
the signal, `__r_test_expectation` returns with the expectation (end-conditions included),
the signal and the process queue exactly as they were: nothing is dispatched and the
expectation is not removed. -/
theorem test_expectation_other_carrier (env : Env) (q : List QItem) (e signal body : T)
    (esym ssym : Symbol)
    (hbody : signal_body signal = some body)
    (he : surface_sem (_t_child (some e) ExpectationCarrierIdx) = .ok esym)
    (hs : surface_sem (_t_child (signal_head signal) HeadCarrierIdx) = .ok ssym)
    (hne : esym ≠ ssym) (hnull : esym ≠ NULL_SYMBOL) :
    __r_test_expectation env q (some e) signal = .ok ⟨some e, signal, q⟩ := by
  have hc : carrier_test (some e) signal = .ok false := by
    simp [carrier_test, he, hs, hne, hnull]
  cases hh : signal_head signal with
  | none =>
    rw [hh] at hs
    simp [_t_child, surface_sem] at hs
  | some head =>
    unfold __r_test_expectation
    simp only [hbody, hc, hh]

theorem test_expectation_other_carrier_witness :
    __r_test_expectation (demo_env true) [] (some (demo_expectation 60 (some (end_conditions_count 2))))
      (demo_signal_with demo_PONG demo_LINE 7 none) =
      .ok ⟨some (demo_expectation 60 (some (end_conditions_count 2))),
        demo_signal_with demo_PONG demo_LINE 7 none, []⟩ :=
  test_expectation_other_carrier (demo_env true) [] _ _ _ demo_PING demo_PONG (by rfl) (by rfl)
    (by rfl) (by decide) (by decide)

/-- C12. For a signal that passes the carrier test: when the expectation has a
CONVERSATION_IDENT and the head of the signal has none, and when both have one and the two
uuids differ, `__r_test_expectation` returns with expectation, signal and queue as they
were; when the expectation has no CONVERSATION_IDENT, it is tested like any other, whatever
the head of the signal carries: it is dispatched exactly when the pattern matches and the
end-conditions allow. -/
theorem test_expectation_conversation_filter (env : Env) (q : List QItem)
    (e signal head body : T)
    (hbody : signal_body signal = some body)
    (hhead : signal_head signal = some head)
    (hcarrier : carrier_test (some e) signal = .ok true) :
    (∀ e_cid, __t_find e CONVERSATION_IDENT ExpectationOptionalsIdx = some e_cid →
      __t_find head CONVERSATION_IDENT HeadOptionalsIdx = none →
      __r_test_expectation env q (some e) signal = .ok ⟨some e, signal, q⟩) ∧
    (∀ e_cid s_cid u1 u2, __t_find e CONVERSATION_IDENT ExpectationOptionalsIdx = some e_cid →
      __t_find head CONVERSATION_IDENT HeadOptionalsIdx = some s_cid →
      __cid_getUUID (some e_cid) = .ok u1 → __cid_getUUID (some s_cid) = .ok u2 → u1 ≠ u2 →
      __r_test_expectation env q (some e) signal = .ok ⟨some e, signal, q⟩) ∧
    (__t_find e CONVERSATION_IDENT ExpectationOptionalsIdx = none →
      ∀ contents pat action params, surface_tree (some body) = .ok contents →
      _t_child (_t_child (some e) ExpectationPatternIdx) 1 = some pat →
      _t_child (some e) ExpectationActionIdx = some action →
      (action.symbol = WAKEUP_REFERENCE ∨ ∃ p, surface_sem (some action) = .ok p) →
      _t_child (some e) ExpectationParamsIdx = some params →
      ((∃ out item, __r_test_expectation env q (some e) signal = .ok out ∧
          out.q = q ++ [item]) ↔
        ((env.matchr (_t_add (_t_news SEMTREX_GROUP NULL_SYMBOL) pat) contents).isSome = true ∧
          ∃ r, evaluateEndCondition env.now (_t_child (some e) ExpectationEndCondsIdx) = .ok r ∧
            r.allow = true))) := by
  refine ⟨?_, ?_, ?_⟩
  · intro e_cid he hs
    have hconv : conversation_test e head = .ok false := by
      simp only [conversation_test, he, hs]
    unfold __r_test_expectation
    simp only [hbody, hcarrier, hhead, hconv]
  · intro e_cid s_cid u1 u2 he hs h1 h2 hne
    have hconv : conversation_test e head = .ok false := by
      simp only [conversation_test, he, hs, __cid_equal, h1, h2]
      simp [Ne.symm hne]
    unfold __r_test_expectation
    simp only [hbody, hcarrier, hhead, hconv]
  · intro he contents pat action params hcontents hpat haction hproc hparams
    have hconv : conversation_test e head = .ok true := by
      simp only [conversation_test, he]
    exact (test_expectation_after_filters env q e signal head body contents pat action params
      hbody hcontents hhead hcarrier hconv hpat haction hproc hparams).1

theorem test_expectation_conversation_filter_witness :
    (__r_test_expectation (demo_env true) [] (some (demo_conversation_expectation 60 (demo_cid 1)))
        (demo_signal_with demo_PING demo_LINE 7 none) =
        .ok ⟨some (demo_conversation_expectation 60 (demo_cid 1)),
          demo_signal_with demo_PING demo_LINE 7 none, []⟩) ∧
    (__r_test_expectation (demo_env true) [] (some (demo_conversation_expectation 60 (demo_cid 1)))
        (demo_signal_with demo_PING demo_LINE 7 (some (demo_cid 2))) =
        .ok ⟨some (demo_conversation_expectation 60 (demo_cid 1)),
          demo_signal_with demo_PING demo_LINE 7 (some (demo_cid 2)), []⟩) ∧
    (∃ out item, __r_test_expectation (demo_env true) [] (some (demo_expectation 60 none))
        (demo_signal_with demo_PING demo_LINE 7 (some (demo_cid 2))) = .ok out ∧
        out.q = [] ++ [item]) :=
  ⟨(test_expectation_conversation_filter (demo_env true) []
      (demo_conversation_expectation 60 (demo_cid 1))
      (demo_signal_with demo_PING demo_LINE 7 none) _ _ (by rfl) (by rfl) (by decide)).1
      (demo_cid 1) (by rfl) (by rfl),
   (test_expectation_conversation_filter (demo_env true) []
      (demo_conversation_expectation 60 (demo_cid 1))
      (demo_signal_with demo_PING demo_LINE 7 (some (demo_cid 2))) _ _ (by rfl) (by rfl)
      (by decide)).2.1 (demo_cid 1) (demo_cid 2) ⟨9, 1⟩ ⟨9, 2⟩ (by rfl) (by rfl) (by rfl) (by rfl)
      (by decide),
   ((test_expectation_conversation_filter (demo_env true) [] (demo_expectation 60 none)
      (demo_signal_with demo_PING demo_LINE 7 (some (demo_cid 2))) _ _ (by rfl) (by rfl)
      (by decide)).2.2 (by rfl) _ _ _ _ (by rfl) (by rfl) (by rfl) (Or.inr ⟨user 60, by rfl⟩)
      (by rfl)).2 ⟨by decide, _, by rfl, by rfl⟩⟩

/-- C13. When the action of the expectation is a WAKEUP_REFERENCE, every call of
`__r_test_expectation` that dispatches (adds an entry to the process queue) resumes that
continuation, leaves the signal as it was and removes the expectation, whatever its
end-conditions are. -/
theorem test_expectation_wakeup_removes (env : Env) (q : List QItem) (e signal action : T)
    (out : TestOutcome) (item : QItem)
    (haction : _t_child (some e) ExpectationActionIdx = some action)
    (hw : action.symbol = WAKEUP_REFERENCE)
    (hres : __r_test_expectation env q (some e) signal = .ok out)
    (hq : out.q = q ++ [item]) :
    out.expectation = none ∧ out.signal = signal ∧ ∃ v, item = QItem.wakeup action v := by
  unfold __r_test_expectation at hres
  simp only [haction, hw] at hres
  repeat' split at hres
  all_goals first
    | exact Except.noConfusion hres
    | (cases hres; simp at hq; done)
    | (cases hres; simp at hq; subst hq; simp_all)

theorem test_expectation_wakeup_removes_witness :
    (TestOutcome.mk none (demo_signal 7)
        [QItem.wakeup demo_wakeup (_t_add (_t_newr PARAMS) (_t_newi demo_LINE 7))]).expectation =
        none ∧
      (TestOutcome.mk none (demo_signal 7)
        [QItem.wakeup demo_wakeup (_t_add (_t_newr PARAMS) (_t_newi demo_LINE 7))]).signal =
        demo_signal 7 ∧
      ∃ v, QItem.wakeup demo_wakeup (_t_add (_t_newr PARAMS) (_t_newi demo_LINE 7)) =
        QItem.wakeup demo_wakeup v :=
  test_expectation_wakeup_removes (demo_env true) []
    (demo_wakeup_expectation (some (end_conditions_count 5))) (demo_signal 7) demo_wakeup
    ⟨none, demo_signal 7, [QItem.wakeup demo_wakeup (_t_add (_t_newr PARAMS) (_t_newi demo_LINE 7))]⟩
    (QItem.wakeup demo_wakeup (_t_add (_t_newr PARAMS) (_t_newi demo_LINE 7)))
    (by rfl) (by rfl) (by decide) (by rfl)

/-- C14. For a signal that passes the carrier and the conversation tests and whose payload
does not match the pattern, `__r_test_expectation` still evaluates the end-conditions: the
expectation is left with the evaluated END_CONDITIONS, or removed when the evaluation gives
cleanup, while signal and process queue stay as they were. In particular a single COUNT
with value `n` is left at `n - 1`, and the expectation is removed when `n ≤ 1`. -/
theorem test_expectation_no_match_still_evaluates (env : Env) (q : List QItem)
    (e signal head body contents pat : T)
    (hbody : signal_body signal = some body)
    (hcontents : surface_tree (some body) = .ok contents)
    (hhead : signal_head signal = some head)
    (hcarrier : carrier_test (some e) signal = .ok true)
    (hconv : conversation_test e head = .ok true)
    (hpat : _t_child (_t_child (some e) ExpectationPatternIdx) 1 = some pat)
    (hno : env.matchr (_t_add (_t_news SEMTREX_GROUP NULL_SYMBOL) pat) contents = none) :
    (∀ r, evaluateEndCondition env.now (_t_child (some e) ExpectationEndCondsIdx) = .ok r →
      __r_test_expectation env q (some e) signal =
        .ok ⟨if r.cleanup then none else some (e.setChild ExpectationEndCondsIdx r.ec),
          signal, q⟩) ∧
    (∀ ec n cs, _t_child (some e) ExpectationEndCondsIdx = some ec →
      ec.kids = [T.node COUNT (.int n) cs] → -2147483648 < n → n ≤ 2147483647 →
      __r_test_expectation env q (some e) signal =
        .ok ⟨if n ≤ 1 then none
             else some (e.setChild ExpectationEndCondsIdx
               (ec.setKids [T.node COUNT (.int (n - 1)) cs])), signal, q⟩) := by
  have key : ∀ r, evaluateEndCondition env.now (_t_child (some e) ExpectationEndCondsIdx) = .ok r →
      __r_test_expectation env q (some e) signal =
        .ok ⟨if r.cleanup then none else some (e.setChild ExpectationEndCondsIdx r.ec),
          signal, q⟩ := by
    intro r hev
    unfold __r_test_expectation
    simp only [hbody, hcarrier, hhead, hconv, hpat, hcontents, hev, _t_clone, hno]
    split
    · rename_i h1 h2
      exact Option.noConfusion h2
    · rfl
  refine ⟨key, ?_⟩
  intro ec n cs hec hkids hmin hmax
  rw [key _ (by rw [hec]; exact evaluateEndCondition_single_count env.now ec n cs hkids hmin hmax)]
  simp

theorem test_expectation_no_match_still_evaluates_witness :
    __r_test_expectation (demo_env true) [] (some (demo_expectation 60 (some (end_conditions_count 2))))
        (demo_signal_with demo_PING demo_OTHER 7 none) =
      .ok ⟨if (2 : Int) ≤ 1 then none
           else some ((demo_expectation 60 (some (end_conditions_count 2))).setChild
             ExpectationEndCondsIdx
             ((end_conditions_count 2).setKids [T.node COUNT (.int (2 - 1)) []])),
        demo_signal_with demo_PING demo_OTHER 7 none, []⟩ :=
  (test_expectation_no_match_still_evaluates (demo_env true) []
    (demo_expectation 60 (some (end_conditions_count 2)))
    (demo_signal_with demo_PING demo_OTHER 7 none) _ _ _ _ (by rfl) (by rfl) (by rfl) (by decide)
    (by decide) (by rfl) (by decide)).2 (end_conditions_count 2) 2 [] (by rfl) (by rfl) (by decide)
    (by decide)

/-- C15. An expectation whose only end-condition is the TIMEOUT_AT deadline 2020-12-31
00:00:00, tested at 2021-01-01 00:00:00 UTC against a signal that matches its pattern: the
month and the day of the deadline exceed those of the current time, so the evaluation
allows; `__r_test_expectation` enqueues a run tree, adds it to the signal and keeps the
expectation. -/
theorem test_expectation_past_timeout_dispatches :
    __r_test_expectation (demo_env true) []
        (some (demo_expectation 60 (some (end_conditions_timeout_at 2020 12 31 0 0 0))))
        (demo_signal 7) =
      .ok ⟨some (demo_expectation 60 (some (end_conditions_timeout_at 2020 12 31 0 0 0))),
        _t_add (demo_signal 7) (demo_run_tree 60 7), [QItem.addrt2q (demo_run_tree 60 7) none]⟩ := by
  decide

/-! ### Making signals and requests -/

/-- C17. The function `__r_make_signal` raises its error exactly when both `in_response_to` and
`until` are given, and returns a signal exactly when at most one of them is given. -/
theorem make_signal_fails_iff (t : UUIDt) (from_ to_ : Int) (aspect : Aspect)
    (carrier : Symbol) (contents : T) (in_response_to : Option UUIDt) (until_ cid : Option T) :
    ((__r_make_signal t from_ to_ aspect carrier contents in_response_to until_ cid =
        .error .both_response_uuid_and_until) ↔
      (in_response_to.isSome = true ∧ until_.isSome = true)) ∧
    ((∃ s, __r_make_signal t from_ to_ aspect carrier contents in_response_to until_ cid =
        .ok s) ↔
      (in_response_to = none ∨ until_ = none)) := by
  cases in_response_to <;> cases until_ <;> simp [__r_make_signal]

/-- C18. Every signal returned by `__r_make_signal` is a SIGNAL of an ENVELOPE holding the one
SIGNAL_UUID and a MESSAGE of HEAD and BODY; the BODY holds the payload; the HEAD holds
FROM_ADDRESS, TO_ADDRESS, ASPECT_IDENT and CARRIER in this order, then the
IN_RESPONSE_TO_UUID when `in_response_to` was given or the `until` tree when that was given
(never both), then the copy of `cid` when it was given, and nothing else. -/
theorem make_signal_shape (t : UUIDt) (from_ to_ : Int) (aspect : Aspect)
    (carrier : Symbol) (contents : T) (in_response_to : Option UUIDt) (until_ cid : Option T)
    (s : T)
    (h : __r_make_signal t from_ to_ aspect carrier contents in_response_to until_ cid = .ok s) :
    (in_response_to = none ∨ until_ = none) ∧
    s = T.node SIGNAL .none
      [T.node ENVELOPE .none [T.node SIGNAL_UUID (.uuid t) []],
       T.node MESSAGE .none
        [T.node HEAD .none
          ([T.node FROM_ADDRESS .none [T.node RECEPTOR_ADDR (.int from_) []],
            T.node TO_ADDRESS .none [T.node RECEPTOR_ADDR (.int to_) []],
            T.node ASPECT_IDENT (.sem aspect) [], T.node CARRIER (.sem carrier) []] ++
           (in_response_to.map (fun u => T.node IN_RESPONSE_TO_UUID (.uuid u) [])).toList ++
           until_.toList ++ cid.toList),
         T.tnode BODY contents []]] := by
  cases in_response_to <;> cases until_ <;> cases cid <;>
    simp [__r_make_signal, __r_make_addr, _t_add, _t_newr, _t_newt, _t_news, _t_newi, _t_clone] at h <;>
    simp [h]

theorem make_signal_shape_witness :
    ((none : Option UUIDt) = none ∨ some (end_conditions_count 1) = none) ∧
    demo_signal_with_until = T.node SIGNAL .none
      [T.node ENVELOPE .none [T.node SIGNAL_UUID (.uuid ⟨5, 5⟩) []],
       T.node MESSAGE .none
        [T.node HEAD .none
          ([T.node FROM_ADDRESS .none [T.node RECEPTOR_ADDR (.int 3) []],
            T.node TO_ADDRESS .none [T.node RECEPTOR_ADDR (.int 4) []],
            T.node ASPECT_IDENT (.sem DEFAULT_ASPECT) [], T.node CARRIER (.sem demo_PING) []] ++
           ((none : Option UUIDt).map (fun u => T.node IN_RESPONSE_TO_UUID (.uuid u) [])).toList ++
           (some (end_conditions_count 1)).toList ++ (some (demo_cid 1)).toList),
         T.tnode BODY (_t_newi demo_LINE 1) []]] :=
  make_signal_shape ⟨5, 5⟩ 3 4 DEFAULT_ASPECT demo_PING (_t_newi demo_LINE 1) none
    (some (end_conditions_count 1)) (some (demo_cid 1)) demo_signal_with_until (by rfl)

theorem find_symbol_head (sym : SemanticID) (c : T) (cs : List T) (h : c.symbol = sym) :
    find_symbol sym (c :: cs) = some c := by
  simp [find_symbol, h]

theorem first_optional_found (signal ec : T)
    (hec : _t_get signal [SignalMessageIdx, MessageHeadIdx, HeadOptionalsIdx] = some ec)
    (hsym : ec.symbol = END_CONDITIONS) :
    (signal_head signal).bind (fun h => __t_find h END_CONDITIONS HeadOptionalsIdx) = some ec := by
  have h1 : _t_child (signal_head signal) HeadOptionalsIdx = some ec := hec
  cases hh : signal_head signal with
  | none => rw [hh] at h1; simp [_t_child] at h1
  | some head =>
    rw [hh] at h1
    simp only [_t_child, HeadOptionalsIdx] at h1
    have h2 : head.kids[4]? = some ec := by simpa using h1
    have h3 : head.kids.drop 4 = ec :: head.kids.drop 5 := by
      have hlt : 4 < head.kids.length := by
        by_contra hc
        rw [List.getElem?_eq_none (by omega)] at h2
        exact Option.noConfusion h2
      rw [List.getElem?_eq_getElem hlt] at h2
      rw [List.drop_eq_getElem_cons hlt]
      simp at h2
      rw [h2]
    simp only [Option.bind, __t_find, HeadOptionalsIdx]
    show find_symbol END_CONDITIONS (head.kids.drop 4) = some ec
    rw [h3]
    exact find_symbol_head _ _ _ hsym

/-- C19, refuted as stated. A signal whose HEAD carries END_CONDITIONS among its optional
items, after the conversation id: the search from the first optional position finds the
END_CONDITIONS and the scan of `_r_deliver` records them, but `_r_request` fails with
"request missing END_CONDITIONS", because it looks at the first optional position only. -/
theorem request_fails_end_conditions_second :
    (signal_head demo_signal_until_second).bind
        (fun h => __t_find h END_CONDITIONS HeadOptionalsIdx) = some (end_conditions_count 1) ∧
      (head_optionals (signal_head demo_signal_until_second)).end_conditions =
        some (end_conditions_count 1) ∧
      _r_request (demo_env true) _r_new_state demo_signal_until_second demo_PING
        (_t_newr (user 70)) 1 none = .error .request_missing_END_CONDITIONS := by
  decide

/-- C19, amended. For a signal with an envelope uuid, `_r_request` succeeds exactly when the
first optional item of the HEAD (child `HeadOptionalsIdx`) is END_CONDITIONS, and fails with
"request missing END_CONDITIONS" otherwise, in particular when the HEAD carries no
END_CONDITIONS among its optional items; it succeeds on every signal made by
`__r_make_signal` with END_CONDITIONS as `until`. -/
theorem request_succeeds_iff_first_optional (env : Env) (r : Receptor) (signal u : T)
    (response_carrier : Symbol) (code_point : T) (process_id : Int) (cid : Option T)
    (hu : _t_get signal [SignalEnvelopeIdx, EnvelopeSignalUUIDIdx] = some u) :
    ((∃ r1 res, _r_request env r signal response_carrier code_point process_id cid =
        .ok (r1, res)) ↔
      (∃ ec, _t_get signal [SignalMessageIdx, MessageHeadIdx, HeadOptionalsIdx] = some ec ∧
        ec.symbol = END_CONDITIONS)) ∧
    ((¬ ∃ ec, _t_get signal [SignalMessageIdx, MessageHeadIdx, HeadOptionalsIdx] = some ec ∧
        ec.symbol = END_CONDITIONS) →
      _r_request env r signal response_carrier code_point process_id cid =
        .error .request_missing_END_CONDITIONS) ∧
    ((signal_head signal).bind (fun h => __t_find h END_CONDITIONS HeadOptionalsIdx) = none →
      _r_request env r signal response_carrier code_point process_id cid =
        .error .request_missing_END_CONDITIONS) ∧
    (∀ t from_ to_ aspect carrier contents until_ scid, until_.symbol = END_CONDITIONS →
      __r_make_signal t from_ to_ aspect carrier contents none (some until_) scid = .ok signal →
      ∃ r1 res, _r_request env r signal response_carrier code_point process_id cid =
        .ok (r1, res)) := by
  have hu1 : _t_child (_t_child (some signal) SignalEnvelopeIdx) EnvelopeSignalUUIDIdx = some u := hu
  have hfail : (¬ ∃ ec, _t_get signal [SignalMessageIdx, MessageHeadIdx, HeadOptionalsIdx] = some ec ∧
        ec.symbol = END_CONDITIONS) →
      _r_request env r signal response_carrier code_point process_id cid =
        .error .request_missing_END_CONDITIONS := by
    intro hno
    simp only [_r_request, __r_send, hu1]
    cases hg : _t_get signal [SignalMessageIdx, MessageHeadIdx, HeadOptionalsIdx] with
    | none => rfl
    | some ec =>
      have hne : ec.symbol ≠ END_CONDITIONS := fun hs => hno ⟨ec, hg, hs⟩
      simp [hne]
  have hok : (∃ ec, _t_get signal [SignalMessageIdx, MessageHeadIdx, HeadOptionalsIdx] = some ec ∧
        ec.symbol = END_CONDITIONS) →
      ∃ r1 res, _r_request env r signal response_carrier code_point process_id cid =
        .ok (r1, res) := by
    rintro ⟨ec, hg, hs⟩
    simp only [_r_request, __r_send, hu1, hg, hs, if_true]
    exact ⟨_, _, rfl⟩
  refine ⟨⟨?_, hok⟩, hfail, ?_, ?_⟩
  · rintro ⟨r1, res, hres⟩
    by_contra hno
    rw [hfail hno] at hres
    exact Except.noConfusion hres
  · intro hnone
    apply hfail
    rintro ⟨ec, hg, hs⟩
    rw [first_optional_found signal ec hg hs] at hnone
    exact Option.noConfusion hnone
  · intro t from_ to_ aspect carrier contents until_ scid hsym hmk
    obtain ⟨opts, hshape⟩ := make_signal_request_shape t from_ to_ aspect carrier contents until_
      scid signal hmk
    apply hok
    refine ⟨until_, ?_, hsym⟩
    rw [hshape]
    simp [_t_get, _t_child]

theorem request_succeeds_iff_first_optional_witness :
    ∃ r1 res, _r_request (demo_env true) _r_new_state demo_signal_with_until demo_PING
      (_t_newr (user 70)) 1 none = .ok (r1, res) :=
  (request_succeeds_iff_first_optional (demo_env true) _r_new_state demo_signal_with_until
    (T.node SIGNAL_UUID (.uuid ⟨5, 5⟩) []) demo_PING (_t_newr (user 70)) 1 none (by rfl)).1.2
    ⟨end_conditions_count 1, by rfl, by rfl⟩

/-- C20. For a signal with an envelope uuid whose first optional HEAD item is END_CONDITIONS,
`_r_request` returns the copy of the signal's SIGNAL_UUID and leaves a receptor that differs
from the one before in two places only: the signal is the new last child of the pending
signals, and the new last child of the pending responses is one PENDING_RESPONSE holding, in
this order, the SIGNAL_UUID, the CARRIER with the response carrier, the wakeup info, the copy
of the END_CONDITIONS and, when `cid` is given, its copy; the children that the pending
responses had before are unchanged. -/
theorem request_appends_pending_response (env : Env) (r : Receptor) (signal u ec : T)
    (response_carrier : Symbol) (code_point : T) (process_id : Int) (cid : Option T)
    (hu : _t_get signal [SignalEnvelopeIdx, EnvelopeSignalUUIDIdx] = some u)
    (hec : _t_get signal [SignalMessageIdx, MessageHeadIdx, HeadOptionalsIdx] = some ec)
    (hsym : ec.symbol = END_CONDITIONS) :
    ∃ r1, _r_request env r signal response_carrier code_point process_id cid = .ok (r1, u) ∧
      r1.pending_responses.kids = r.pending_responses.kids ++
        [T.node PENDING_RESPONSE .none
          ([u, T.node CARRIER (.sem response_carrier) [],
            env.build_wakeup_info code_point process_id, ec] ++ cid.toList)] ∧
      r1.pending_responses = _t_add r.pending_responses
        (T.node PENDING_RESPONSE .none
          ([u, T.node CARRIER (.sem response_carrier) [],
            env.build_wakeup_info code_point process_id, ec] ++ cid.toList)) ∧
      r1.pending_signals.kids = r.pending_signals.kids ++ [signal] ∧
      r1.pending_signals = _t_add r.pending_signals signal ∧
      r1.flux = r.flux ∧ r1.conversations = r.conversations ∧ r1.q = r.q ∧
      r1.state = r.state := by
  have hu1 : _t_child (_t_child (some signal) SignalEnvelopeIdx) EnvelopeSignalUUIDIdx = some u := hu
  cases cid <;>
    simp [_r_request, __r_send, hu1, hec, hsym, _t_clone, _t_add, _t_newr, _t_news]

theorem request_appends_pending_response_witness :
    ∃ r1, _r_request (demo_env true) _r_new_state demo_signal_with_until demo_PING
        (_t_newr (user 70)) 1 (some (demo_cid 1)) =
        .ok (r1, T.node SIGNAL_UUID (.uuid ⟨5, 5⟩) []) ∧
      r1.pending_responses.kids = _r_new_state.pending_responses.kids ++
        [T.node PENDING_RESPONSE .none
          ([T.node SIGNAL_UUID (.uuid ⟨5, 5⟩) [], T.node CARRIER (.sem demo_PING) [],
            (demo_env true).build_wakeup_info (_t_newr (user 70)) 1, end_conditions_count 1] ++
            (some (demo_cid 1)).toList)] ∧
      r1.pending_responses = _t_add _r_new_state.pending_responses
        (T.node PENDING_RESPONSE .none
          ([T.node SIGNAL_UUID (.uuid ⟨5, 5⟩) [], T.node CARRIER (.sem demo_PING) [],
            (demo_env true).build_wakeup_info (_t_newr (user 70)) 1, end_conditions_count 1] ++
            (some (demo_cid 1)).toList)) ∧
      r1.pending_signals.kids = _r_new_state.pending_signals.kids ++ [demo_signal_with_until] ∧
      r1.pending_signals = _t_add _r_new_state.pending_signals demo_signal_with_until ∧
      r1.flux = _r_new_state.flux ∧ r1.conversations = _r_new_state.conversations ∧
      r1.q = _r_new_state.q ∧ r1.state = _r_new_state.state :=
  request_appends_pending_response (demo_env true) _r_new_state demo_signal_with_until
    (T.node SIGNAL_UUID (.uuid ⟨5, 5⟩) []) (end_conditions_count 1) demo_PING (_t_newr (user 70)) 1
    (some (demo_cid 1)) (by rfl) (by rfl) (by rfl)

/-! ### Unlimited expectations -/

theorem evaluateEndCondition_unlimited (now : Tm) (ec u : T)
    (hkids : ec.kids = [u]) (hu : u.symbol = UNLIMITED) :
    evaluateEndCondition now (some ec) = .ok ⟨ec, false, true⟩ := by
  have h := T.setKids_kids ec
  rw [hkids] at h
  simp [evaluateEndCondition, _t_children, hkids, evaluateEndCondition_loop, hu, h]

theorem setChild_same (e c1 pattern action params ec : T) (opts : List T)
    (he : e.kids = c1 :: pattern :: action :: params :: ec :: opts) :
    e.setChild ExpectationEndCondsIdx ec = e := by
  have h := T.setKids_kids e
  rw [he] at h
  simp [T.setChild, he, h]

theorem test_unlimited_expectation (env : Env) (q : List QItem)
    (e ec u c1 pattern pat action params s head body contents : T) (opts : List T)
    (p : Process) (b1 b2 : Bool)
    (he : e.kids = c1 :: pattern :: action :: params :: ec :: opts)
    (hec : ec.kids = [u]) (hu : u.symbol = UNLIMITED)
    (hpat : _t_child (some pattern) 1 = some pat)
    (hact : action.symbol ≠ WAKEUP_REFERENCE) (hp : surface_sem (some action) = .ok p)
    (hhead : signal_head s = some head) (hbody : signal_body s = some body)
    (hcontents : surface_tree (some body) = .ok contents)
    (hcarrier : carrier_test (some e) s = .ok b1)
    (hconv : conversation_test e head = .ok b2) :
    ∃ s1, __r_test_expectation env q (some e) s =
      .ok ⟨some e, s1, q ++ (if b1 && b2 then
        (env.matchr (_t_add (_t_news SEMTREX_GROUP NULL_SYMBOL) pat) contents).map
          (fun m => QItem.addrt2q (env.make_run_tree p (env.fill_from_match params m contents)
            ((find_symbol SEMANTIC_MAP opts).map _t_clone))
            ((find_symbol SEMANTIC_MAP opts).map _t_clone))
        else none).toList⟩ := by
  have hev := evaluateEndCondition_unlimited env.now ec u hec hu
  have hsame := setChild_same e c1 pattern action params ec opts he
  have hpat1 : pattern.kids[0]? = some pat := by simpa [_t_child] using hpat
  unfold __r_test_expectation
  simp only [hbody, hcarrier, hhead]
  cases b1 with
  | false => exact ⟨s, by simp⟩
  | true =>
    simp only [hconv]
    cases b2 with
    | false => exact ⟨s, by simp⟩
    | true =>
      cases hm : env.matchr (_t_add (_t_news SEMTREX_GROUP NULL_SYMBOL) pat) contents with
      | none =>
        refine ⟨s, ?_⟩
        simp [_t_child, he, hpat1, hcontents, hev, hm, _t_clone, hsame]
      | some m =>
        refine ⟨_t_add s (env.make_run_tree p (env.fill_from_match params m contents)
            ((find_symbol SEMANTIC_MAP opts).map _t_clone)), ?_⟩
        simp [_t_child, he, hpat1, hcontents, hev, hm, hact, hp, _t_clone, __t_find, hsame]

theorem deliver_unlimited_step (env : Env) (r : Receptor) (aspect : Aspect)
    (e ec u c1 pattern pat action params s head body contents : T) (opts log : List T)
    (p : Process) (b1 b2 : Bool)
    (he : e.kids = c1 :: pattern :: action :: params :: ec :: opts)
    (hec : ec.kids = [u]) (hu : u.symbol = UNLIMITED)
    (hpat : _t_child (some pattern) 1 = some pat)
    (hact : action.symbol ≠ WAKEUP_REFERENCE) (hp : surface_sem (some action) = .ok p)
    (hreg : ∀ x, ∃ y, _r_find_conversation r x = .ok y)
    (hexp : flux_expectations r.flux aspect = some [e])
    (hlog : flux_signals r.flux aspect = some log)
    (hhead : signal_head s = some head) (hbody : signal_body s = some body)
    (hcontents : surface_tree (some body) = .ok contents)
    (hresp : (head_optionals (some head)).response_to = none)
    (hcid : ∀ c, (head_optionals (some head)).conversation = some c →
      ∃ cu, __cid_getUUID (some c) = .ok cu)
    (haspect : surface_sem (_t_child (some head) HeadAspectIdx) = .ok aspect)
    (hcarrier : carrier_test (some e) s = .ok b1)
    (hconv : conversation_test e head = .ok b2) :
    ∃ r2 log2, _r_deliver env r s = .ok (r2, .noDeliveryErr) ∧
      r2.q = r.q ++ (if b1 && b2 then
        (env.matchr (_t_add (_t_news SEMTREX_GROUP NULL_SYMBOL) pat) contents).map
          (fun m => QItem.addrt2q (env.make_run_tree p (env.fill_from_match params m contents)
            ((find_symbol SEMANTIC_MAP opts).map _t_clone))
            ((find_symbol SEMANTIC_MAP opts).map _t_clone))
        else none).toList ∧
      flux_expectations r2.flux aspect = some [e] ∧
      flux_signals r2.flux aspect = some log2 ∧
      ∀ x, ∃ y, _r_find_conversation r2 x = .ok y := by
  obtain ⟨r0, hopen, hflux, hq, -, -, -, hreg0⟩ := open_conversation_ok r _ hreg hcid
  obtain ⟨s1, htest⟩ := test_unlimited_expectation env r0.q e ec u c1 pattern pat action params s
    head body contents opts p b1 b2 he hec hu hpat hact hp hhead hbody hcontents hcarrier hconv
  have hloop : test_expectations env [e].length 1 [e] s r0.q =
      .ok ([e], s1, r0.q ++ (if b1 && b2 then
        (env.matchr (_t_add (_t_news SEMTREX_GROUP NULL_SYMBOL) pat) contents).map
          (fun m => QItem.addrt2q (env.make_run_tree p (env.fill_from_match params m contents)
            ((find_symbol SEMANTIC_MAP opts).map _t_clone))
            ((find_symbol SEMANTIC_MAP opts).map _t_clone))
        else none).toList) := by
    simp only [List.length_singleton, test_expectations]
    simp only [List.length_singleton, Nat.lt_irrefl, decide_False, Bool.and_false,
      Bool.false_eq_true, if_false]
    have h0 : [e][1 - 1]? = some e := rfl
    rw [h0, htest]
    simp
  rw [← hflux] at hexp hlog
  obtain ⟨r2, h2, h2q, h2e, h2l, -, -, h2c, -⟩ := deliver_to_aspect env r r0 s head _ aspect [e]
    log _ _ hhead hopen hresp haspect hexp hlog hloop
  refine ⟨r2, _, h2, by rw [h2q, hq], h2e, h2l, ?_⟩
  intro x
  obtain ⟨y, hy⟩ := hreg0 x
  exact ⟨y, by simpa [_r_find_conversation, h2c] using hy⟩

theorem unlimited_deliveries (env : Env) (aspect : Aspect)
    (e ec u c1 pattern pat action params : T) (opts : List T) (p : Process)
    (he : e.kids = c1 :: pattern :: action :: params :: ec :: opts)
    (hec : ec.kids = [u]) (hu : u.symbol = UNLIMITED)
    (hpat : _t_child (some pattern) 1 = some pat)
    (hact : action.symbol ≠ WAKEUP_REFERENCE) (hp : surface_sem (some action) = .ok p) :
    ∀ (sigs : List T) (r : Receptor) (log : List T),
      (∀ x, ∃ y, _r_find_conversation r x = .ok y) →
      flux_expectations r.flux aspect = some [e] →
      flux_signals r.flux aspect = some log →
      (∀ s ∈ sigs, ∃ head body contents b1 b2, signal_head s = some head ∧
        signal_body s = some body ∧ surface_tree (some body) = .ok contents ∧
        (head_optionals (some head)).response_to = none ∧
        (∀ c, (head_optionals (some head)).conversation = some c →
          ∃ cu, __cid_getUUID (some c) = .ok cu) ∧
        surface_sem (_t_child (some head) HeadAspectIdx) = .ok aspect ∧
        carrier_test (some e) s = .ok b1 ∧ conversation_test e head = .ok b2) →
      ∃ r1 outs log1, deliver_all env r sigs = .ok r1 ∧ r1.q = r.q ++ outs.reduceOption ∧
        List.Forall₂ (fun s out => ∃ head body contents b1 b2, signal_head s = some head ∧
          signal_body s = some body ∧ surface_tree (some body) = .ok contents ∧
          carrier_test (some e) s = .ok b1 ∧ conversation_test e head = .ok b2 ∧
          out = if b1 && b2 then
            (env.matchr (_t_add (_t_news SEMTREX_GROUP NULL_SYMBOL) pat) contents).map
              (fun m => QItem.addrt2q
                (env.make_run_tree p (env.fill_from_match params m contents)
                  ((find_symbol SEMANTIC_MAP opts).map _t_clone))
                ((find_symbol SEMANTIC_MAP opts).map _t_clone))
            else none) sigs outs ∧
        flux_expectations r1.flux aspect = some [e] ∧
        flux_signals r1.flux aspect = some log1 ∧
        ∀ x, ∃ y, _r_find_conversation r1 x = .ok y := by
  intro sigs
  induction sigs with
  | nil =>
    intro r log hreg hexp hlog _
    exact ⟨r, [], log, by simp [deliver_all], by simp, List.Forall₂.nil, hexp, hlog, hreg⟩
  | cons s rest ih =>
    intro r log hreg hexp hlog hs
    obtain ⟨head, body, contents, b1, b2, hhead, hbody, hcontents, hresp, hcid, haspect,
      hcarrier, hconv⟩ := hs s (List.mem_cons_self s rest)
    obtain ⟨r2, log2, h2, h2q, h2e, h2l, h2r⟩ := deliver_unlimited_step env r aspect e ec u c1
      pattern pat action params s head body contents opts log p b1 b2 he hec hu hpat hact hp hreg
      hexp hlog hhead hbody hcontents hresp hcid haspect hcarrier hconv
    obtain ⟨r1, outs, log1, h1, h1q, h1f, h1e, h1l, h1r⟩ := ih r2 log2 h2r h2e h2l
      (fun s1 hs1 => hs s1 (List.mem_cons_of_mem s hs1))
    refine ⟨r1, (if b1 && b2 then
        (env.matchr (_t_add (_t_news SEMTREX_GROUP NULL_SYMBOL) pat) contents).map
          (fun m => QItem.addrt2q (env.make_run_tree p (env.fill_from_match params m contents)
            ((find_symbol SEMANTIC_MAP opts).map _t_clone))
            ((find_symbol SEMANTIC_MAP opts).map _t_clone))
        else none) :: outs, log1, by simp [deliver_all, h2, h1], ?_, ?_, h1e, h1l, h1r⟩
    · rw [h1q, h2q, List.append_assoc]
      congr 1
      generalize (if b1 && b2 then
        (env.matchr (_t_add (_t_news SEMTREX_GROUP NULL_SYMBOL) pat) contents).map
          (fun m => QItem.addrt2q (env.make_run_tree p (env.fill_from_match params m contents)
            ((find_symbol SEMANTIC_MAP opts).map _t_clone))
            ((find_symbol SEMANTIC_MAP opts).map _t_clone))
        else none) = o
      cases o <;> simp [List.reduceOption_cons_of_some, List.reduceOption_cons_of_none]
    · exact List.Forall₂.cons ⟨head, body, contents, b1, b2, hhead, hbody, hcontents, hcarrier,
        hconv, rfl⟩ h1f

/-- An expectation with a process action whose end-conditions are the single item
UNLIMITED (what `__r_build_expectation` gives when no end-conditions are passed), that is the
only expectation of its aspect: when plain signals are delivered on that aspect one after the other,
each signal that passes the carrier and conversation tests and matches the pattern enqueues
exactly one run tree, every other signal enqueues nothing, the queue grows by these run trees
in the order of the signals, and after the whole sequence the aspect still holds the
expectation, unchanged. -/
theorem unlimited_expectation_dispatched_per_match (env : Env) (r : Receptor) (aspect : Aspect)
    (e ec u c1 pattern pat action params : T) (opts log sigs : List T) (p : Process)
    (he : e.kids = c1 :: pattern :: action :: params :: ec :: opts)
    (hec : ec.kids = [u]) (hu : u.symbol = UNLIMITED)
    (hpat : _t_child (some pattern) 1 = some pat)
    (hact : action.symbol ≠ WAKEUP_REFERENCE) (hp : surface_sem (some action) = .ok p)
    (hreg : ∀ x, ∃ y, _r_find_conversation r x = .ok y)
    (hexp : flux_expectations r.flux aspect = some [e])
    (hlog : flux_signals r.flux aspect = some log)
    (hs : ∀ s ∈ sigs, ∃ head body contents b1 b2, signal_head s = some head ∧
      signal_body s = some body ∧ surface_tree (some body) = .ok contents ∧
      (head_optionals (some head)).response_to = none ∧
      (∀ c, (head_optionals (some head)).conversation = some c →
        ∃ cu, __cid_getUUID (some c) = .ok cu) ∧
      surface_sem (_t_child (some head) HeadAspectIdx) = .ok aspect ∧
      carrier_test (some e) s = .ok b1 ∧ conversation_test e head = .ok b2) :
    ∃ r1 outs, deliver_all env r sigs = .ok r1 ∧ r1.q = r.q ++ outs.reduceOption ∧
      List.Forall₂ (fun s out => ∃ head body contents b1 b2, signal_head s = some head ∧
        signal_body s = some body ∧ surface_tree (some body) = .ok contents ∧
        carrier_test (some e) s = .ok b1 ∧ conversation_test e head = .ok b2 ∧
        out = if b1 && b2 then
          (env.matchr (_t_add (_t_news SEMTREX_GROUP NULL_SYMBOL) pat) contents).map
            (fun m => QItem.addrt2q
              (env.make_run_tree p (env.fill_from_match params m contents)
                ((__t_find e SEMANTIC_MAP ExpectationOptionalsIdx).map _t_clone))
              ((__t_find e SEMANTIC_MAP ExpectationOptionalsIdx).map _t_clone))
          else none) sigs outs ∧
      flux_expectations r1.flux aspect = some [e] := by
  have hfind : __t_find e SEMANTIC_MAP ExpectationOptionalsIdx = find_symbol SEMANTIC_MAP opts := by
    simp [__t_find, he]
  rw [hfind]
  obtain ⟨r1, outs, log1, h1, h1q, h1f, h1e, -, -⟩ := unlimited_deliveries env aspect e ec u c1
    pattern pat action params opts p he hec hu hpat hact hp sigs r log hreg hexp hlog hs
  exact ⟨r1, outs, h1, h1q, h1f, h1e⟩

theorem unlimited_expectation_dispatched_per_match_witness :
    ∃ (r1 : Receptor) (outs : List (Option QItem)),
      deliver_all (demo_env true) (demo_receptor [demo_expectation 60 none])
        [demo_signal 7, demo_signal 8, demo_signal_with demo_PING demo_OTHER 9 none,
          demo_signal_with demo_PONG demo_LINE 10 none] = .ok r1 ∧
      r1.q = (demo_receptor [demo_expectation 60 none]).q ++ outs.reduceOption ∧
      flux_expectations r1.flux DEFAULT_ASPECT = some [demo_expectation 60 none] :=
  let ⟨r1, outs, h1, h2, _, h4⟩ :=
    unlimited_expectation_dispatched_per_match (demo_env true)
      (demo_receptor [demo_expectation 60 none]) DEFAULT_ASPECT
      (demo_expectation 60 none) __r_build_default_until (_t_newr UNLIMITED)
      (_t_news CARRIER demo_PING) (demo_pattern demo_LINE) (_t_news (user 50) demo_LINE)
      (_t_news ACTION (user 60)) (_t_newr PARAMS) [] []
      [demo_signal 7, demo_signal 8, demo_signal_with demo_PING demo_OTHER 9 none,
        demo_signal_with demo_PONG demo_LINE 10 none] (user 60)
      (by rfl) (by rfl) (by rfl) (by rfl) (by decide) (by rfl)
      (fun _ => ⟨none, by rfl⟩) (by rfl) (by rfl)
      (by
        intro s hs
        simp only [List.mem_cons, List.mem_singleton, List.not_mem_nil, or_false] at hs
        rcases hs with rfl | rfl | rfl | rfl
        · exact ⟨_, _, _, true, true, by rfl, by rfl, by rfl, by rfl,
            fun c hc => absurd (hc.symm.trans (by rfl)) (Option.some_ne_none c),
            by rfl, by rfl, by rfl⟩
        · exact ⟨_, _, _, true, true, by rfl, by rfl, by rfl, by rfl,
            fun c hc => absurd (hc.symm.trans (by rfl)) (Option.some_ne_none c),
            by rfl, by rfl, by rfl⟩
        · exact ⟨_, _, _, true, true, by rfl, by rfl, by rfl, by rfl,
            fun c hc => absurd (hc.symm.trans (by rfl)) (Option.some_ne_none c),
            by rfl, by rfl, by rfl⟩
        · exact ⟨_, _, _, false, true, by rfl, by rfl, by rfl, by rfl,
            fun c hc => absurd (hc.symm.trans (by rfl)) (Option.some_ne_none c),
            by rfl, by rfl, by rfl⟩)
  ⟨r1, outs, h1, h2, h4⟩

/-- A sample run evaluated: two LINE signals, a signal with another payload and a
signal on another carrier are delivered to a receptor whose only expectation is Unlimited;
the queue then holds the run trees of the two LINE signals and the expectation is still on
the aspect. -/
theorem unlimited_sample_run :
    (deliver_all (demo_env true) (demo_receptor [demo_expectation 60 none])
        [demo_signal 7, demo_signal 8, demo_signal_with demo_PING demo_OTHER 9 none,
          demo_signal_with demo_PONG demo_LINE 10 none]).toOption.map
        (fun r1 => (r1.q, flux_expectations r1.flux DEFAULT_ASPECT)) =
      some ([QItem.addrt2q (demo_run_tree 60 7) none, QItem.addrt2q (demo_run_tree 60 8) none],
        some [demo_expectation 60 none]) := by
  decide

/-! ### The conversation registry -/

theorem find_map_path (u : UUIDt) (f : List Nat → List Nat) (l : List (List Nat × T)) :
    (l.map (fun pc => (f pc.1, pc.2))).find? (fun pc => conversation_has_uuid u pc.2) =
      (l.find? (fun pc => conversation_has_uuid u pc.2)).map (fun pc => (f pc.1, pc.2)) := by
  induction l with
  | nil => rfl
  | cons a l ih =>
    simp only [List.map_cons, List.find?_cons]
    cases conversation_has_uuid u a.2 <;> simp [ih]

mutual
theorem find_conversation_loop_spec (u : UUIDt) :
    ∀ (cs : List T) (i : Nat), wf_conversations cs = true →
      __r_find_conversation_loop u cs i =
        .ok (((spec_conversations_preorder cs i).find?
          (fun pc => conversation_has_uuid u pc.2)).map Prod.fst)
  | [], i, _ => by simp [__r_find_conversation_loop, spec_conversations_preorder]
  | c :: rest, i, h => by
    simp only [wf_conversations, Bool.and_eq_true] at h
    have h1 := find_conversation_step_spec u c h.1
    have h2 := find_conversation_loop_spec u rest (i + 1) h.2
    rw [__r_find_conversation_loop, h1, spec_conversations_preorder, List.find?_append,
      find_map_path]
    cases hf : (spec_conversation_preorder c).find? (fun pc => conversation_has_uuid u pc.2) with
    | none => simp [h2]
    | some pc => simp
theorem find_conversation_step_spec (u : UUIDt) :
    ∀ (c : T), wf_conversation c = true →
      __r_find_conversation_step u c =
        .ok (((spec_conversation_preorder c).find?
          (fun pc => conversation_has_uuid u pc.2)).map Prod.fst)
  | .node s x kids, h => by
    simp only [wf_conversation, Bool.and_eq_true] at h
    have h2 := find_conversation_sub_spec u kids h.2
    rw [__r_find_conversation_step, spec_conversation_preorder, List.find?_cons]
    cases hu : __cid_getUUID (_t_child (some (T.node s x kids)) ConversationIdentIdx) with
    | error e => rw [hu] at h; simp at h
    | ok cu =>
      by_cases hc : u = cu
      · simp [conversation_has_uuid, hu, hc]
      · have hc1 : ¬ cu = u := fun h => hc h.symm
        simp [conversation_has_uuid, hu, hc, hc1, h2]
  | .tnode s x kids, h => by
    simp only [wf_conversation, Bool.and_eq_true] at h
    have h2 := find_conversation_sub_spec u kids h.2
    rw [__r_find_conversation_step, spec_conversation_preorder, List.find?_cons]
    cases hu : __cid_getUUID (_t_child (some (T.tnode s x kids)) ConversationIdentIdx) with
    | error e => rw [hu] at h; simp at h
    | ok cu =>
      by_cases hc : u = cu
      · simp [conversation_has_uuid, hu, hc]
      · have hc1 : ¬ cu = u := fun h => hc h.symm
        simp [conversation_has_uuid, hu, hc, hc1, h2]
theorem find_conversation_sub_spec (u : UUIDt) :
    ∀ (kids : List T), wf_sub_conversations kids = true →
      __r_find_conversation_sub u kids =
        .ok (((spec_sub_conversations_preorder kids).find?
          (fun pc => conversation_has_uuid u pc.2)).map Prod.fst)
  | [], h => by simp [wf_sub_conversations] at h
  | [_], h => by simp [wf_sub_conversations] at h
  | [_, _], h => by simp [wf_sub_conversations] at h
  | _ :: _ :: .node _ _ subs :: _, h => by
    simp only [wf_sub_conversations] at h
    have h2 := find_conversation_loop_spec u subs 1 h
    rw [__r_find_conversation_sub, h2, spec_sub_conversations_preorder, find_map_path]
    cases (spec_conversations_preorder subs 1).find? (fun pc => conversation_has_uuid u pc.2) <;>
      simp
  | _ :: _ :: .tnode _ _ subs :: _, h => by
    simp only [wf_sub_conversations] at h
    have h2 := find_conversation_loop_spec u subs 1 h
    rw [__r_find_conversation_sub, h2, spec_sub_conversations_preorder, find_map_path]
    cases (spec_conversations_preorder subs 1).find? (fun pc => conversation_has_uuid u pc.2) <;>
      simp
end

theorem get_cons (t : T) (i : Nat) (p : List Nat) :
    _t_get t (i :: p) = p.foldl _t_child (_t_child (some t) i) := rfl

theorem get_of_child (t c : T) (i : Nat) (p : List Nat) (h : _t_child (some t) i = some c) :
    _t_get t (i :: p) = _t_get c p := by
  rw [get_cons, h]
  rfl

theorem wf_sub_conversations_eq (kids : List T) :
    wf_sub_conversations kids =
      (match kids[2]? with
       | some s => wf_conversations s.kids
       | none => false) := by
  match kids with
  | [] => rfl
  | [_] => rfl
  | [_, _] => rfl
  | _ :: _ :: .node _ _ subs :: _ => simp [wf_sub_conversations]
  | _ :: _ :: .tnode _ _ subs :: _ => simp [wf_sub_conversations]

theorem spec_sub_conversations_preorder_eq (kids : List T) :
    spec_sub_conversations_preorder kids =
      (match kids[2]? with
       | some s => (spec_conversations_preorder s.kids 1).map
          (fun pc => (ConversationConversationsIdx :: pc.1, pc.2))
       | none => []) := by
  match kids with
  | [] => rfl
  | [_] => rfl
  | [_, _] => rfl
  | _ :: _ :: .node _ _ subs :: _ => simp [spec_sub_conversations_preorder]
  | _ :: _ :: .tnode _ _ subs :: _ => simp [spec_sub_conversations_preorder]

theorem wf_conversation_eq (c : T) :
    wf_conversation c =
      ((match __cid_getUUID (_t_child (some c) ConversationIdentIdx) with
        | .ok _ => true
        | .error _ => false) && wf_sub_conversations c.kids) := by
  cases c <;> simp [wf_conversation]

theorem spec_conversation_preorder_eq (c : T) :
    spec_conversation_preorder c = ([], c) :: spec_sub_conversations_preorder c.kids := by
  cases c <;> simp [spec_conversation_preorder]

theorem child_three (c : T) : _t_child (some c) ConversationConversationsIdx = c.kids[2]? := by
  simp [_t_child]

mutual
theorem preorder_list_get :
    ∀ (cs : List T) (i : Nat) (pre : List T) (t : T) (p : List Nat) (c : T),
      t.kids = pre ++ cs → pre.length + 1 = i → (p, c) ∈ spec_conversations_preorder cs i →
      _t_get t p = some c
  | [], _, _, _, _, _, _, _, h => by simp [spec_conversations_preorder] at h
  | c0 :: rest, i, pre, t, p, c, hk, hi, h => by
    rw [spec_conversations_preorder, List.mem_append] at h
    rcases h with h | h
    · obtain ⟨⟨q, c1⟩, hq, heq⟩ := List.mem_map.mp h
      simp only [Prod.mk.injEq] at heq
      obtain ⟨rfl, rfl⟩ := heq
      have hc : _t_child (some t) i = some c0 := by
        subst hi
        have hidx : (pre ++ c0 :: rest)[pre.length]? = some c0 := by
          rw [List.getElem?_append_right (le_refl _)]
          simp
        simp [_t_child, hk, hidx]
      rw [get_of_child t c0 i q hc]
      exact preorder_node_get c0 q c1 hq
    · exact preorder_list_get rest (i + 1) (pre ++ [c0]) t p c (by simp [hk]) (by simp [hi]) h
theorem preorder_node_get :
    ∀ (c0 : T) (p : List Nat) (c : T), (p, c) ∈ spec_conversation_preorder c0 →
      _t_get c0 p = some c
  | .node s x kids, p, c, h => by
    rw [spec_conversation_preorder, List.mem_cons] at h
    rcases h with h | h
    · simp only [Prod.mk.injEq] at h
      obtain ⟨rfl, rfl⟩ := h
      rfl
    · exact preorder_sub_get kids (.node s x kids) p c rfl h
  | .tnode s x kids, p, c, h => by
    rw [spec_conversation_preorder, List.mem_cons] at h
    rcases h with h | h
    · simp only [Prod.mk.injEq] at h
      obtain ⟨rfl, rfl⟩ := h
      rfl
    · exact preorder_sub_get kids (.tnode s x kids) p c rfl h
theorem preorder_sub_get :
    ∀ (kids : List T) (t : T) (p : List Nat) (c : T), t.kids = kids →
      (p, c) ∈ spec_sub_conversations_preorder kids → _t_get t p = some c
  | [], _, _, _, _, h => by simp [spec_sub_conversations_preorder] at h
  | [_], _, _, _, _, h => by simp [spec_sub_conversations_preorder] at h
  | [_, _], _, _, _, _, h => by simp [spec_sub_conversations_preorder] at h
  | a :: b :: .node s x subs :: rest, t, p, c, hk, h => by
    rw [spec_sub_conversations_preorder] at h
    obtain ⟨⟨q, c1⟩, hq, heq⟩ := List.mem_map.mp h
    simp only [Prod.mk.injEq] at heq
    obtain ⟨rfl, rfl⟩ := heq
    have hc : _t_child (some t) ConversationConversationsIdx = some (.node s x subs) := by
      simp [_t_child, hk]
    rw [get_of_child t _ _ q hc]
    exact preorder_list_get subs 1 [] (.node s x subs) q c1 rfl rfl hq
  | a :: b :: .tnode s x subs :: rest, t, p, c, hk, h => by
    rw [spec_sub_conversations_preorder] at h
    obtain ⟨⟨q, c1⟩, hq, heq⟩ := List.mem_map.mp h
    simp only [Prod.mk.injEq] at heq
    obtain ⟨rfl, rfl⟩ := heq
    have hc : _t_child (some t) ConversationConversationsIdx = some (.tnode s x subs) := by
      simp [_t_child, hk]
    rw [get_of_child t _ _ q hc]
    exact preorder_list_get subs 1 [] (.tnode s x subs) q c1 rfl rfl hq
end

theorem find_conversation_spec (r : Receptor) (u : UUIDt)
    (hwf : wf_conversations r.conversations.kids = true) :
    _r_find_conversation r u = .ok ((spec_find_conversation r.conversations u).map Prod.fst) :=
  find_conversation_loop_spec u r.conversations.kids 1 hwf

theorem spec_find_conversation_some (conversations : T) (u : UUIDt) (p : List Nat) (c : T)
    (h : spec_find_conversation conversations u = some (p, c)) :
    _t_get conversations p = some c ∧
      __cid_getUUID (_t_child (some c) ConversationIdentIdx) = .ok u := by
  unfold spec_find_conversation at h
  have hm := List.mem_of_find?_eq_some h
  have hp := List.find?_some h
  refine ⟨preorder_list_get conversations.kids 1 [] conversations p c rfl rfl hm, ?_⟩
  simpa [conversation_has_uuid] using hp

theorem find_conversation_some (r : Receptor) (u : UUIDt) (p : List Nat)
    (hwf : wf_conversations r.conversations.kids = true)
    (h : _r_find_conversation r u = .ok (some p)) :
    ∃ c, spec_find_conversation r.conversations u = some (p, c) ∧
      _t_get r.conversations p = some c ∧
      __cid_getUUID (_t_child (some c) ConversationIdentIdx) = .ok u := by
  rw [find_conversation_spec r u hwf] at h
  cases hs : spec_find_conversation r.conversations u with
  | none => rw [hs] at h; simp at h
  | some pc =>
    obtain ⟨q, c⟩ := pc
    rw [hs] at h
    simp at h
    subst h
    exact ⟨c, rfl, spec_find_conversation_some _ u q c hs⟩

/-- C24. In a registry whose conversations are well formed, `_r_find_conversation` returns the
specification's result: the path to the first conversation, in depth-first pre-order over
the whole forest, whose uuid is `u`, and NULL when no conversation at any depth has that
uuid; the path returned leads to a conversation with uuid `u`, and every path of the
pre-order list leads to the conversation listed with it. -/
theorem find_conversation_first_in_preorder (r : Receptor) (u : UUIDt)
    (hwf : wf_conversations r.conversations.kids = true) :
    _r_find_conversation r u = .ok ((spec_find_conversation r.conversations u).map Prod.fst) ∧
    (∀ p c, spec_find_conversation r.conversations u = some (p, c) →
      _t_get r.conversations p = some c ∧
        __cid_getUUID (_t_child (some c) ConversationIdentIdx) = .ok u) ∧
    (_r_find_conversation r u = .ok none ↔
      ∀ pc ∈ spec_conversations_preorder r.conversations.kids 1,
        __cid_getUUID (_t_child (some pc.2) ConversationIdentIdx) ≠ .ok u) ∧
    (∀ pc ∈ spec_conversations_preorder r.conversations.kids 1,
      _t_get r.conversations pc.1 = some pc.2) := by
  refine ⟨find_conversation_spec r u hwf, fun p c h => spec_find_conversation_some _ u p c h,
    ?_, fun pc h => preorder_list_get r.conversations.kids 1 [] r.conversations pc.1 pc.2 rfl rfl h⟩
  rw [find_conversation_spec r u hwf]
  unfold spec_find_conversation
  cases hf : (spec_conversations_preorder r.conversations.kids 1).find?
      (fun pc => conversation_has_uuid u pc.2) with
  | none =>
    simp only [Option.map_none', true_iff]
    intro pc hpc
    have := List.find?_eq_none.mp hf pc hpc
    simpa [conversation_has_uuid] using this
  | some pc =>
    have hm := List.mem_of_find?_eq_some hf
    have hp := List.find?_some hf
    simp only [conversation_has_uuid, decide_eq_true_eq] at hp
    constructor
    · intro h
      simp at h
    · intro h
      exact absurd hp (h pc hm)

theorem find_conversation_first_in_preorder_witness :
    _r_find_conversation demo_conversing ⟨9, 2⟩ = .ok (some [1, 3, 1]) ∧
      _r_find_conversation demo_conversing ⟨9, 3⟩ = .ok (some [2]) ∧
      _r_find_conversation demo_conversing ⟨9, 4⟩ = .ok none :=
  ⟨(find_conversation_first_in_preorder demo_conversing ⟨9, 2⟩ (by decide)).1,
   (find_conversation_first_in_preorder demo_conversing ⟨9, 3⟩ (by decide)).1,
   (find_conversation_first_in_preorder demo_conversing ⟨9, 4⟩ (by decide)).1⟩

theorem wf_conversations_append (l1 l2 : List T) :
    wf_conversations (l1 ++ l2) = (wf_conversations l1 && wf_conversations l2) := by
  induction l1 with
  | nil => simp [wf_conversations]
  | cons a l ih => simp [wf_conversations, ih, Bool.and_assoc]

theorem wf_conversations_set (cs : List T) (k : Nat) (c : T)
    (h : wf_conversations cs = true) (hc : wf_conversation c = true) :
    wf_conversations (cs.set k c) = true := by
  induction cs generalizing k with
  | nil => simpa using h
  | cons a l ih =>
    simp only [wf_conversations, Bool.and_eq_true] at h
    cases k with
    | zero => simp [wf_conversations, hc, h.2]
    | succ k => simp [wf_conversations, h.1, ih k h.2]

theorem wf_conversations_get (cs : List T) (k : Nat) (c : T)
    (h : wf_conversations cs = true) (hk : cs[k]? = some c) : wf_conversation c = true := by
  induction cs generalizing k with
  | nil => simp at hk
  | cons a l ih =>
    simp only [wf_conversations, Bool.and_eq_true] at h
    cases k with
    | zero =>
      simp at hk
      subst hk
      exact h.1
    | succ k => exact ih k h.2 (by simpa using hk)

theorem preorder_mem_split (cs : List T) (i : Nat) (p : List Nat) (x : T)
    (h : (p, x) ∈ spec_conversations_preorder cs i) :
    ∃ k q c0, p = (i + k) :: q ∧ cs[k]? = some c0 ∧ (q, x) ∈ spec_conversation_preorder c0 := by
  induction cs generalizing i with
  | nil => simp [spec_conversations_preorder] at h
  | cons a l ih =>
    rw [spec_conversations_preorder, List.mem_append] at h
    rcases h with h | h
    · obtain ⟨⟨q, c1⟩, hq, heq⟩ := List.mem_map.mp h
      simp only [Prod.mk.injEq] at heq
      obtain ⟨rfl, rfl⟩ := heq
      exact ⟨0, q, a, rfl, by simp, hq⟩
    · obtain ⟨k, q, c0, hp, hk, hq⟩ := ih (i + 1) h
      exact ⟨k + 1, q, c0, by rw [hp]; congr 1; omega, by simpa using hk, hq⟩

theorem preorder_mem_join (cs : List T) (i k : Nat) (q : List Nat) (x c0 : T)
    (hk : cs[k]? = some c0) (hq : (q, x) ∈ spec_conversation_preorder c0) :
    ((i + k) :: q, x) ∈ spec_conversations_preorder cs i := by
  induction cs generalizing i k with
  | nil => simp at hk
  | cons a l ih =>
    rw [spec_conversations_preorder, List.mem_append]
    cases k with
    | zero =>
      simp at hk
      subst hk
      exact Or.inl (List.mem_map.mpr ⟨(q, x), hq, rfl⟩)
    | succ k =>
      right
      have := ih (i + 1) k (by simpa using hk)
      rwa [show i + 1 + k = i + (k + 1) by omega] at this

theorem preorder_node_split (c0 : T) (q : List Nat) (x : T)
    (h : (q, x) ∈ spec_conversation_preorder c0) :
    (q = [] ∧ x = c0) ∨
      ∃ s q1, c0.kids[2]? = some s ∧ q = ConversationConversationsIdx :: q1 ∧
        (q1, x) ∈ spec_conversations_preorder s.kids 1 := by
  rw [spec_conversation_preorder_eq, List.mem_cons] at h
  rcases h with h | h
  · simp only [Prod.mk.injEq] at h
    exact Or.inl h
  · right
    rw [spec_sub_conversations_preorder_eq] at h
    cases hs : c0.kids[2]? with
    | none => rw [hs] at h; simp at h
    | some s =>
      rw [hs] at h
      obtain ⟨⟨q1, c1⟩, hq, heq⟩ := List.mem_map.mp h
      simp only [Prod.mk.injEq] at heq
      obtain ⟨rfl, rfl⟩ := heq
      exact ⟨s, q1, rfl, rfl, hq⟩

theorem wf_conversation_subs (c0 : T) (h : wf_conversation c0 = true) :
    ∃ s, c0.kids[2]? = some s ∧ wf_conversations s.kids = true := by
  rw [wf_conversation_eq, Bool.and_eq_true, wf_sub_conversations_eq] at h
  cases hs : c0.kids[2]? with
  | none => rw [hs] at h; simp at h
  | some s =>
    rw [hs] at h
    exact ⟨s, rfl, h.2⟩

theorem conversation_set_subs (c0 s s1 : T) (pc : List Nat × T)
    (hwf : wf_conversation c0 = true) (hs : c0.kids[2]? = some s)
    (hwf1 : wf_conversations s1.kids = true)
    (hpc : pc ∈ spec_conversations_preorder s1.kids 1) :
    wf_conversation (c0.setChild ConversationConversationsIdx s1) = true ∧
      (ConversationConversationsIdx :: pc.1, pc.2) ∈
        spec_conversation_preorder (c0.setChild ConversationConversationsIdx s1) := by
  have hlt : 2 < c0.kids.length := by
    by_contra hc
    rw [List.getElem?_eq_none (by omega)] at hs
    exact Option.noConfusion hs
  have hk : (c0.setChild ConversationConversationsIdx s1).kids[2]? = some s1 := by
    simp only [T.kids_setChild]
    exact List.getElem?_set_self hlt
  have hid : _t_child (some (c0.setChild ConversationConversationsIdx s1)) ConversationIdentIdx =
      _t_child (some c0) ConversationIdentIdx :=
    child_setChild_other c0 _ _ s1 (by decide) (by decide)
  constructor
  · rw [wf_conversation_eq, Bool.and_eq_true] at hwf ⊢
    rw [hid, wf_sub_conversations_eq, hk]
    exact ⟨hwf.1, hwf1⟩
  · rw [spec_conversation_preorder_eq, spec_sub_conversations_preorder_eq, hk]
    exact List.mem_cons_of_mem _ (List.mem_map.mpr ⟨pc, hpc, rfl⟩)

theorem updateAt_cons (f : T → T) (i : Nat) (p : List Nat) (t c : T)
    (h : _t_child (some t) i = some c) :
    T.updateAt f (i :: p) t = t.setChild i (T.updateAt f p c) := by
  rw [T.updateAt, h]

theorem get_updateAt (f : T → T) :
    ∀ (p : List Nat) (t x : T), _t_get t p = some x →
      _t_get (T.updateAt f p t) p = some (f x)
  | [], t, x, h => by
    have hx : t = x := by simpa [_t_get] using h
    subst hx
    rfl
  | i :: p, t, x, h => by
    cases hc : _t_child (some t) i with
    | none =>
      rw [get_cons, hc] at h
      have hnone : ∀ (q : List Nat), q.foldl _t_child none = none := by
        intro q
        induction q with
        | nil => rfl
        | cons a q ih => simpa [List.foldl, _t_child] using ih
      rw [hnone] at h
      exact Option.noConfusion h
    | some c =>
      rw [get_of_child t c i p hc] at h
      rw [updateAt_cons f i p t c hc,
        get_of_child _ _ i p (child_setChild_same t i (T.updateAt f p c) c hc)]
      exact get_updateAt f p c x h

theorem add_conversation_below (c : T) (u2 : UUIDt) (hc : wf_conversation c = true)
    (hu : conversation_has_uuid u2 c = true) :
    ∀ (n : Nat) (p : List Nat) (t parent : T), p.length ≤ n →
      wf_conversations t.kids = true → (p, parent) ∈ spec_conversations_preorder t.kids 1 →
      wf_conversations (T.updateAt (fun s => _t_add s c)
          (p ++ [ConversationConversationsIdx]) t).kids = true ∧
        ∃ pc ∈ spec_conversations_preorder (T.updateAt (fun s => _t_add s c)
          (p ++ [ConversationConversationsIdx]) t).kids 1, conversation_has_uuid u2 pc.2 = true := by
  intro n
  induction n with
  | zero =>
    intro p t parent hlen _ hmem
    obtain ⟨k, q, c0, hp, -, -⟩ := preorder_mem_split _ _ _ _ hmem
    rw [hp] at hlen
    simp at hlen
  | succ n ih =>
    intro p t parent hlen hwf hmem
    obtain ⟨k, q, c0, hp, hk, hq⟩ := preorder_mem_split _ _ _ _ hmem
    subst hp
    have hchild : _t_child (some t) (1 + k) = some c0 := by
      simp [_t_child, hk]
    have hwf0 := wf_conversations_get _ _ _ hwf hk
    obtain ⟨s, hs, hwfs⟩ := wf_conversation_subs c0 hwf0
    have hchild3 : _t_child (some c0) ConversationConversationsIdx = some s := by
      rw [child_three, hs]
    have hlt : k < t.kids.length := by
      by_contra hcon
      rw [List.getElem?_eq_none (by omega)] at hk
      exact Option.noConfusion hk
    have key : ∀ s1 pc, wf_conversations s1.kids = true →
        pc ∈ spec_conversations_preorder s1.kids 1 → conversation_has_uuid u2 pc.2 = true →
        wf_conversations (t.setChild (1 + k)
            (c0.setChild ConversationConversationsIdx s1)).kids = true ∧
          ∃ pc ∈ spec_conversations_preorder (t.setChild (1 + k)
            (c0.setChild ConversationConversationsIdx s1)).kids 1,
            conversation_has_uuid u2 pc.2 = true := by
      intro s1 pc hwf1 hpc hpu
      obtain ⟨g1, g2⟩ := conversation_set_subs c0 s s1 pc hwf0 hs hwf1 hpc
      have hkids : (t.setChild (1 + k) (c0.setChild ConversationConversationsIdx s1)).kids =
          t.kids.set k (c0.setChild ConversationConversationsIdx s1) := by
        simp [T.kids_setChild]
      rw [hkids]
      refine ⟨wf_conversations_set _ _ _ hwf g1, _, preorder_mem_join _ 1 k _ _ _
        (List.getElem?_set_self hlt) g2, hpu⟩
    rcases preorder_node_split c0 q parent hq with ⟨rfl, -⟩ | ⟨s2, q1, hs2, rfl, hq1⟩
    · have hupd : T.updateAt (fun s => _t_add s c)
          ((1 + k) :: [] ++ [ConversationConversationsIdx]) t =
          t.setChild (1 + k) (c0.setChild ConversationConversationsIdx (_t_add s c)) := by
        rw [List.cons_append, List.nil_append, updateAt_cons _ _ _ t c0 hchild,
          updateAt_cons _ _ _ c0 s hchild3]
        rfl
      rw [hupd]
      have hkids : (_t_add s c).kids = s.kids ++ [c] := by simp [_t_add]
      refine key (_t_add s c) ([1 + s.kids.length], c) ?_ ?_ hu
      · rw [hkids, wf_conversations_append, hwfs]
        simp [wf_conversations, hc]
      · rw [hkids]
        refine preorder_mem_join _ 1 s.kids.length [] c c ?_ ?_
        · rw [List.getElem?_append_right (le_refl _)]
          simp
        · rw [spec_conversation_preorder_eq]
          exact List.mem_cons_self _ _
    · have hss : s2 = s := by
        rw [hs] at hs2
        exact (Option.some.inj hs2).symm
      subst hss
      have hupd : T.updateAt (fun s => _t_add s c)
          ((1 + k) :: ConversationConversationsIdx :: q1 ++ [ConversationConversationsIdx]) t =
          t.setChild (1 + k) (c0.setChild ConversationConversationsIdx
            (T.updateAt (fun s => _t_add s c) (q1 ++ [ConversationConversationsIdx]) s2)) := by
        rw [List.cons_append, List.cons_append, updateAt_cons _ _ _ t c0 hchild,
          updateAt_cons _ _ _ c0 s2 hchild3]
      rw [hupd]
      obtain ⟨h1, pc, h2, h3⟩ := ih q1 s2 parent (by simp at hlen; omega) hwfs hq1
      exact key _ pc h1 h2 h3

theorem preorder_wf :
    ∀ (n : Nat) (p : List Nat) (t x : T), p.length ≤ n →
      wf_conversations t.kids = true → (p, x) ∈ spec_conversations_preorder t.kids 1 →
      wf_conversation x = true := by
  intro n
  induction n with
  | zero =>
    intro p t x hlen _ hmem
    obtain ⟨k, q, c0, hp, -, -⟩ := preorder_mem_split _ _ _ _ hmem
    rw [hp] at hlen
    simp at hlen
  | succ n ih =>
    intro p t x hlen hwf hmem
    obtain ⟨k, q, c0, hp, hk, hq⟩ := preorder_mem_split _ _ _ _ hmem
    subst hp
    have hwf0 := wf_conversations_get _ _ _ hwf hk
    obtain ⟨s, hs, hwfs⟩ := wf_conversation_subs c0 hwf0
    rcases preorder_node_split c0 q x hq with ⟨-, rfl⟩ | ⟨s2, q1, hs2, rfl, hq1⟩
    · exact hwf0
    · have hss : s2 = s := by
        rw [hs] at hs2
        exact (Option.some.inj hs2).symm
      subst hss
      exact ih q1 s2 x (by simp at hlen; omega) hwfs hq1

theorem get_append_one (t : T) (p : List Nat) (i : Nat) :
    _t_get t (p ++ [i]) = _t_child (_t_get t p) i := by
  simp [_t_get, List.foldl_append]

theorem wf_new_conversation (u : UUIDt) (e : T) (w : List T) :
    wf_conversation (T.node CONVERSATION .none
      ([__cid_new u, e, T.node CONVERSATIONS .none []] ++ w)) = true ∧
    conversation_has_uuid u (T.node CONVERSATION .none
      ([__cid_new u, e, T.node CONVERSATIONS .none []] ++ w)) = true := by
  constructor
  · simp [wf_conversation, wf_sub_conversations, wf_conversations, _t_child, __cid_getUUID,
      __cid_new, _t_add, _t_newr, surface_uuid]
  · simp [conversation_has_uuid, _t_child, __cid_getUUID, __cid_new, _t_add, _t_newr,
      surface_uuid]

theorem add_conversation_value (r : Receptor) (parent_u : Option UUIDt) (u : UUIDt)
    (until_ wakeup : Option T) (r1 : Receptor) (c : T)
    (h : _r_add_conversation r parent_u u until_ wakeup = .ok (r1, c)) :
    c = T.node CONVERSATION .none
      ([__cid_new u, until_.getD __r_build_default_until, T.node CONVERSATIONS .none []] ++
        wakeup.toList) := by
  unfold _r_add_conversation at h
  have hc : (match wakeup with
      | some w => _t_add (_t_add (_t_add (_t_add (_t_newr CONVERSATION) (__cid_new u))
          (match until_ with
           | some t => t
           | none => __r_build_default_until)) (_t_newr CONVERSATIONS)) w
      | none => _t_add (_t_add (_t_add (_t_newr CONVERSATION) (__cid_new u))
          (match until_ with
           | some t => t
           | none => __r_build_default_until)) (_t_newr CONVERSATIONS)) =
      T.node CONVERSATION .none
        ([__cid_new u, until_.getD __r_build_default_until, T.node CONVERSATIONS .none []] ++
          wakeup.toList) := by
    cases wakeup <;> cases until_ <;> simp [_t_add, _t_newr]
  simp only [hc] at h
  repeat' split at h
  all_goals first
    | exact Except.noConfusion h
    | (simp only [Except.ok.injEq, Prod.mk.injEq] at h; exact h.2.symm)

theorem add_conversation_under (r : Receptor) (u1 u2 : UUIDt) (until_ wakeup : Option T)
    (path : List Nat) (s : T)
    (hfind : _r_find_conversation r u1 = .ok (some path))
    (hs : _t_get r.conversations (path ++ [ConversationConversationsIdx]) = some s) :
    _r_add_conversation r (some u1) u2 until_ wakeup =
      .ok (Receptor.mk r.flux r.pending_signals r.pending_responses
        (T.updateAt (fun p => _t_add p (T.node CONVERSATION .none
          ([__cid_new u2, until_.getD __r_build_default_until, T.node CONVERSATIONS .none []] ++
            wakeup.toList))) (path ++ [ConversationConversationsIdx]) r.conversations)
        r.q r.state,
        T.node CONVERSATION .none
          ([__cid_new u2, until_.getD __r_build_default_until, T.node CONVERSATIONS .none []] ++
            wakeup.toList)) := by
  unfold _r_add_conversation
  simp only [hfind, hs]
  cases wakeup <;> cases until_ <;> simp [_t_add, _t_newr]

theorem add_conversation_at_root (r : Receptor) (u2 : UUIDt) (until_ wakeup : Option T) :
    _r_add_conversation r none u2 until_ wakeup =
      .ok (Receptor.mk r.flux r.pending_signals r.pending_responses
        (_t_add r.conversations (T.node CONVERSATION .none
          ([__cid_new u2, until_.getD __r_build_default_until, T.node CONVERSATIONS .none []] ++
            wakeup.toList))) r.q r.state,
        T.node CONVERSATION .none
          ([__cid_new u2, until_.getD __r_build_default_until, T.node CONVERSATIONS .none []] ++
            wakeup.toList)) := by
  unfold _r_add_conversation
  cases wakeup <;> cases until_ <;> simp [_t_add, _t_newr]

/-- C25. In a registry of well-formed conversations in which `_r_find_conversation` finds the
uuid `u1`: `_r_add_conversation(r, u1, u2, until, wakeup)` returns the new conversation (its
identifier with uuid `u2`, `until` or the default UNLIMITED end-conditions, an empty
CONVERSATIONS node and the wakeup if given), which is then the last child of the
sub-conversations of the conversation found for `u1`, every other part of the receptor being
as before; `_r_find_conversation` for `u2` from the root then returns a conversation with
uuid `u2`. Without a parent uuid the new conversation becomes the last child of the root of
the registry. -/
theorem add_conversation_nested_then_found (r : Receptor) (u1 u2 : UUIDt)
    (until_ wakeup : Option T) (path : List Nat)
    (hwf : wf_conversations r.conversations.kids = true)
    (hfind : _r_find_conversation r u1 = .ok (some path)) :
    (∃ r1 parent subs q found,
      _r_add_conversation r (some u1) u2 until_ wakeup = .ok (r1, T.node CONVERSATION .none
        ([__cid_new u2, until_.getD __r_build_default_until, T.node CONVERSATIONS .none []] ++
          wakeup.toList)) ∧
      _t_get r.conversations path = some parent ∧
      __cid_getUUID (_t_child (some parent) ConversationIdentIdx) = .ok u1 ∧
      _t_child (some parent) ConversationConversationsIdx = some subs ∧
      _t_get r1.conversations (path ++ [ConversationConversationsIdx]) =
        some (subs.setKids (subs.kids ++ [T.node CONVERSATION .none
          ([__cid_new u2, until_.getD __r_build_default_until, T.node CONVERSATIONS .none []] ++
            wakeup.toList)])) ∧
      _r_find_conversation r1 u2 = .ok (some q) ∧
      _t_get r1.conversations q = some found ∧
      __cid_getUUID (_t_child (some found) ConversationIdentIdx) = .ok u2 ∧
      r1.flux = r.flux ∧ r1.pending_signals = r.pending_signals ∧
      r1.pending_responses = r.pending_responses ∧ r1.q = r.q ∧ r1.state = r.state) ∧
    _r_add_conversation r none u2 until_ wakeup =
      .ok (Receptor.mk r.flux r.pending_signals r.pending_responses
        (r.conversations.setKids (r.conversations.kids ++ [T.node CONVERSATION .none
          ([__cid_new u2, until_.getD __r_build_default_until, T.node CONVERSATIONS .none []] ++
            wakeup.toList)])) r.q r.state,
        T.node CONVERSATION .none
          ([__cid_new u2, until_.getD __r_build_default_until, T.node CONVERSATIONS .none []] ++
            wakeup.toList)) := by
  refine ⟨?_, add_conversation_at_root r u2 until_ wakeup⟩
  obtain ⟨parent, hspec, hget, huuid⟩ := find_conversation_some r u1 path hwf hfind
  have hmem : (path, parent) ∈ spec_conversations_preorder r.conversations.kids 1 :=
    List.mem_of_find?_eq_some hspec
  have hwfp := preorder_wf path.length path r.conversations parent (le_refl _) hwf hmem
  obtain ⟨s, hs, -⟩ := wf_conversation_subs parent hwfp
  have hchild : _t_child (some parent) ConversationConversationsIdx = some s := by
    rw [child_three, hs]
  have hgets : _t_get r.conversations (path ++ [ConversationConversationsIdx]) = some s := by
    rw [get_append_one, hget, hchild]
  obtain ⟨hwfc, huc⟩ := wf_new_conversation u2 (until_.getD __r_build_default_until)
    wakeup.toList
  obtain ⟨hwf1, pc, hpc, hpu⟩ := add_conversation_below _ u2 hwfc huc path.length path
    r.conversations parent (le_refl _) hwf hmem
  have hadd := add_conversation_under r u1 u2 until_ wakeup path s hfind hgets
  cases hsf : spec_find_conversation (T.updateAt (fun p => _t_add p (T.node CONVERSATION .none
      ([__cid_new u2, until_.getD __r_build_default_until, T.node CONVERSATIONS .none []] ++
        wakeup.toList))) (path ++ [ConversationConversationsIdx]) r.conversations) u2 with
  | none =>
    unfold spec_find_conversation at hsf
    have := List.find?_eq_none.mp hsf pc hpc
    exact absurd hpu this
  | some qf =>
    obtain ⟨q, found⟩ := qf
    obtain ⟨g1, g2⟩ := spec_find_conversation_some _ u2 q found hsf
    refine ⟨_, parent, s, q, found, hadd, hget, huuid, hchild, ?_, ?_, g1, g2, rfl, rfl, rfl, rfl,
      rfl⟩
    · exact get_updateAt _ _ _ _ hgets
    · have := find_conversation_spec (Receptor.mk r.flux r.pending_signals r.pending_responses
        (T.updateAt (fun p => _t_add p (T.node CONVERSATION .none
          ([__cid_new u2, until_.getD __r_build_default_until, T.node CONVERSATIONS .none []] ++
            wakeup.toList))) (path ++ [ConversationConversationsIdx]) r.conversations)
        r.q r.state) u2 hwf1
      rw [this, hsf]
      rfl

theorem add_conversation_nested_then_found_witness :
    ∃ r1 q found,
      _r_add_conversation demo_conversing (some ⟨9, 2⟩) ⟨9, 5⟩ none (some demo_wakeup) =
        .ok (r1, T.node CONVERSATION .none
          ([__cid_new ⟨9, 5⟩, (none : Option T).getD __r_build_default_until,
            T.node CONVERSATIONS .none []] ++ (some demo_wakeup).toList)) ∧
      _r_find_conversation r1 ⟨9, 5⟩ = .ok (some q) ∧
      _t_get r1.conversations q = some found ∧
      __cid_getUUID (_t_child (some found) ConversationIdentIdx) = .ok ⟨9, 5⟩ :=
  let ⟨r1, _, _, q, found, h1, _, _, _, _, h6, h7, h8, _⟩ :=
    (add_conversation_nested_then_found demo_conversing ⟨9, 2⟩ ⟨9, 5⟩ none (some demo_wakeup)
      [1, 3, 1] (by decide) (by decide)).1
  ⟨r1, q, found, h1, h6, h7, h8⟩

theorem add_conversation_run_agrees (r : Receptor) (parent_u : Option UUIDt) (u : UUIDt)
    (until_ wakeup : Option T) :
    _r_add_conversation r parent_u u until_ wakeup =
      (match _r_add_conversation_run r parent_u u until_ wakeup with
       | (r1, .ok c) => .ok (r1, c)
       | (_, .error e) => .error e) := by
  unfold _r_add_conversation _r_add_conversation_run
  cases parent_u with
  | none => rfl
  | some pu =>
    simp only
    cases _r_find_conversation r pu with
    | error e => rfl
    | ok found =>
      cases found with
      | none => rfl
      | some path =>
        simp only
        cases _t_get r.conversations (path ++ [ConversationConversationsIdx]) <;> rfl

theorem find_conversation_absent (r : Receptor) (u : UUIDt)
    (hwf : wf_conversations r.conversations.kids = true)
    (hnone : ∀ pc ∈ spec_conversations_preorder r.conversations.kids 1,
      __cid_getUUID (_t_child (some pc.2) ConversationIdentIdx) ≠ .ok u) :
    _r_find_conversation r u = .ok none := by
  rw [find_conversation_spec r u hwf]
  have : spec_find_conversation r.conversations u = none := by
    unfold spec_find_conversation
    rw [List.find?_eq_none]
    intro pc hpc
    simpa [conversation_has_uuid] using hnone pc hpc
  rw [this]
  rfl

/-- C26. When a parent uuid is given that no conversation of the registry has, at any depth
(the registry being well formed), `_r_add_conversation` raises "parent conversation not
found" and leaves the receptor, its conversation registry included, as it was. -/
theorem add_conversation_unknown_parent (r : Receptor) (pu u : UUIDt) (until_ wakeup : Option T)
    (hwf : wf_conversations r.conversations.kids = true)
    (hnone : ∀ pc ∈ spec_conversations_preorder r.conversations.kids 1,
      __cid_getUUID (_t_child (some pc.2) ConversationIdentIdx) ≠ .ok pu) :
    _r_add_conversation_run r (some pu) u until_ wakeup =
        (r, .error .parent_conversation_not_found) ∧
      _r_add_conversation r (some pu) u until_ wakeup = .error .parent_conversation_not_found := by
  have hfind := find_conversation_absent r pu hwf hnone
  constructor
  · unfold _r_add_conversation_run
    simp only [hfind]
  · unfold _r_add_conversation
    simp only [hfind]

theorem add_conversation_unknown_parent_witness :
    _r_add_conversation_run demo_conversing (some ⟨9, 4⟩) ⟨9, 5⟩ none none =
        (demo_conversing, .error .parent_conversation_not_found) ∧
      _r_add_conversation demo_conversing (some ⟨9, 4⟩) ⟨9, 5⟩ none none =
        .error .parent_conversation_not_found :=
  add_conversation_unknown_parent demo_conversing ⟨9, 4⟩ ⟨9, 5⟩ none none (by decide)
    (by decide)

/-- C30. When no conversation of the registry has the uuid, at any depth (the registry being
well formed), `__r_cleanup_conversation` raises "can't find conversation" and leaves the
receptor (flux, pending responses and conversation registry included) as it was. -/
theorem cleanup_conversation_unknown_uuid (r : Receptor) (u : UUIDt)
    (hwf : wf_conversations r.conversations.kids = true)
    (hnone : ∀ pc ∈ spec_conversations_preorder r.conversations.kids 1,
      __cid_getUUID (_t_child (some pc.2) ConversationIdentIdx) ≠ .ok u) :
    __r_cleanup_conversation r u = (r, .error .cant_find_conversation) := by
  have hfind := find_conversation_absent r u hwf hnone
  unfold __r_cleanup_conversation
  simp only [hfind]

theorem cleanup_conversation_unknown_uuid_witness :
    __r_cleanup_conversation demo_conversing ⟨9, 4⟩ =
      (demo_conversing, .error .cant_find_conversation) :=
  cleanup_conversation_unknown_uuid demo_conversing ⟨9, 4⟩ (by decide) (by decide)

/-- C21, refuted as stated. END_CONDITIONS whose first child has a symbol that is none of
COUNT, TIMEOUT_AT and UNLIMITED and whose second child is COUNT with value 1: the loop of
`evaluateEndCondition` starts at the last child, the COUNT ends it, and the call returns
allow = true and cleanup = true without raising. -/
theorem evaluateEndCondition_unknown_before_count :
    evaluateEndCondition (demo_env true).now
        (some (T.node END_CONDITIONS .none [_t_newr (user 99), _t_newi COUNT 1])) =
      .ok ⟨T.node END_CONDITIONS .none [_t_newr (user 99), _t_newi COUNT 0], true, true⟩ := by
  decide

theorem evaluateEndCondition_loop_unknown (now : Tm) (pre post : List T) (c : T)
    (hc1 : c.symbol ≠ COUNT) (hc2 : c.symbol ≠ TIMEOUT_AT) (hc3 : c.symbol ≠ UNLIMITED)
    (hpost : ∀ d ∈ post, d.symbol ≠ COUNT ∧
      (d.symbol = TIMEOUT_AT → ∃ b, timeout_at_test now d = .ok b)) :
    ∀ (m : Nat) (cleanup allow : Bool), m ≤ post.length →
      evaluateEndCondition_loop now (pre.length + 1 + m) (pre ++ c :: post) cleanup allow =
        .error .unknown_end_condition := by
  intro m
  induction m with
  | zero =>
    intro cleanup allow _
    have hk : (pre ++ c :: post)[pre.length]? = some c := by
      rw [List.getElem?_append_right (le_refl _)]
      simp
    rw [Nat.add_zero, evaluateEndCondition_loop]
    simp [hk, hc1, hc2, hc3]
  | succ m ih =>
    intro cleanup allow hm
    have hlt : m < post.length := hm
    have hk : (pre ++ c :: post)[pre.length + 1 + m]? = some post[m] := by
      rw [List.getElem?_append_right (by omega)]
      have : pre.length + 1 + m - pre.length = m + 1 := by omega
      rw [this]
      simp [List.getElem?_eq_getElem hlt]
    obtain ⟨hd1, hd2⟩ := hpost post[m] (List.getElem_mem hlt)
    rw [show pre.length + 1 + (m + 1) = (pre.length + 1 + m) + 1 by omega,
      evaluateEndCondition_loop]
    simp only [hk, hd1, if_false]
    by_cases ht : post[m].symbol = TIMEOUT_AT
    · obtain ⟨b, hb⟩ := hd2 ht
      simp only [ht, if_true, hb]
      exact ih _ _ (by omega)
    · simp only [ht, if_false]
      by_cases hu : post[m].symbol = UNLIMITED
      · simp only [hu, if_true]
        exact ih _ _ (by omega)
      · simp [hu]

/-- C21, amended. On an END_CONDITIONS tree with a child whose symbol is none of COUNT,
TIMEOUT_AT and UNLIMITED, `evaluateEndCondition` raises "unknown end condition" whenever no
child that stands after that one is a COUNT (the TIMEOUT_AT children after it having the
six numbers that are read); a COUNT standing after it ends the evaluation before the
unknown child is reached. -/
theorem evaluateEndCondition_unknown_fails (now : Tm) (ec c : T) (pre post : List T)
    (hkids : ec.kids = pre ++ c :: post)
    (hc1 : c.symbol ≠ COUNT) (hc2 : c.symbol ≠ TIMEOUT_AT) (hc3 : c.symbol ≠ UNLIMITED)
    (hpost : ∀ d ∈ post, d.symbol ≠ COUNT ∧
      (d.symbol = TIMEOUT_AT → ∃ b, timeout_at_test now d = .ok b)) :
    evaluateEndCondition now (some ec) = .error .unknown_end_condition := by
  have hlen : _t_children ec = pre.length + 1 + post.length := by
    simp [_t_children, hkids]
    omega
  simp only [evaluateEndCondition]
  rw [hlen, hkids, evaluateEndCondition_loop_unknown now pre post c hc1 hc2 hc3 hpost
    post.length false false (le_refl _)]

theorem evaluateEndCondition_unknown_fails_witness :
    evaluateEndCondition (demo_env true).now
        (some (T.node END_CONDITIONS .none
          [_t_newi COUNT 1, _t_newr (user 99), _t_newr UNLIMITED])) =
      .error .unknown_end_condition :=
  evaluateEndCondition_unknown_fails (demo_env true).now _ (_t_newr (user 99)) [_t_newi COUNT 1]
    [_t_newr UNLIMITED] (by rfl) (by decide) (by decide) (by decide)
    (by
      intro d hd
      rw [List.mem_singleton.mp hd]
      exact ⟨by decide, fun h => absurd h (by decide)⟩)

/-! ### Delivery, conversations and responses -/

theorem open_conversation_frame (r r1 : Receptor) (o : Optionals)
    (h : open_conversation r o = .ok r1) :
    r1.flux = r.flux ∧ r1.pending_signals = r.pending_signals ∧
      r1.pending_responses = r.pending_responses ∧ r1.q = r.q ∧ r1.state = r.state := by
  unfold open_conversation at h
  repeat' split at h
  all_goals first
    | exact Except.noConfusion h
    | (simp only [Except.ok.injEq] at h
       subst h
       exact ⟨rfl, rfl, rfl, rfl, rfl⟩)
    | (rename_i hadd
       rw [add_conversation_at_root] at hadd
       simp only [Except.ok.injEq, Prod.mk.injEq] at hadd h
       subst h
       obtain ⟨rfl, -⟩ := hadd
       exact ⟨rfl, rfl, rfl, rfl, rfl⟩)

theorem cleaner_loop_filter (test : T → Except Err Bool) (sc : T → Bool) :
    ∀ (l : List T), (∀ e ∈ l, test e = .ok (sc e)) →
      cleaner_loop test l = (l.filter (fun e => !sc e), none) := by
  intro l
  induction l with
  | nil => intro _; rfl
  | cons a l ih =>
    intro h
    have ha := h a (List.mem_cons_self a l)
    have hl := ih (fun e he => h e (List.mem_cons_of_mem a he))
    rw [cleaner_loop, ha]
    cases hs : sc a <;> simp [hs, hl]

theorem cleaner_expectation_test_eq (u : UUIDt) (e : T)
    (h : ∀ cid, __t_find e CONVERSATION_IDENT ExpectationOptionalsIdx = some cid →
      ∃ cu, __cid_getUUID (some cid) = .ok cu) :
    cleaner_expectation_test u e = .ok (expectation_scoped_to u e) := by
  unfold cleaner_expectation_test expectation_scoped_to
  cases hf : __t_find e CONVERSATION_IDENT ExpectationOptionalsIdx with
  | none => rfl
  | some cid =>
    obtain ⟨cu, hcu⟩ := h cid hf
    simp only [hcu, Except.ok.injEq]
    congr 1
    by_cases hc : u = cu
    · simp [hc]
    · have : ¬ cu = u := fun h => hc h.symm
      simp [hc, this]

theorem cleaner_pending_test_eq (u : UUIDt) (l : T)
    (h : ∀ cid, _t_child (some l) PendingResponseConversationIdentIdx = some cid →
      ∃ cu, __cid_getUUID (some cid) = .ok cu) :
    cleaner_pending_test u l = .ok (pending_scoped_to u l) := by
  unfold cleaner_pending_test pending_scoped_to
  cases hf : _t_child (some l) PendingResponseConversationIdentIdx with
  | none => rfl
  | some cid =>
    obtain ⟨cu, hcu⟩ := h cid hf
    simp only [hcu, Except.ok.injEq]
    congr 1
    by_cases hc : u = cu
    · simp [hc]
    · have : ¬ cu = u := fun h => hc h.symm
      simp [hc, this]

theorem cleaner_aspects_map (u : UUIDt) :
    ∀ (as : List T), (∀ a ∈ as, ∃ ex, _t_child (some a) aspectExpectationsIdx = some ex ∧
        ∀ e ∈ ex.kids, ∀ cid, __t_find e CONVERSATION_IDENT ExpectationOptionalsIdx = some cid →
          ∃ cu, __cid_getUUID (some cid) = .ok cu) →
      cleaner_aspects u as = (as.map (spec_aspect_without u), none) := by
  intro as
  induction as with
  | nil => intro _; rfl
  | cons a l ih =>
    intro h
    obtain ⟨ex, hex, hes⟩ := h a (List.mem_cons_self a l)
    have hl := ih (fun b hb => h b (List.mem_cons_of_mem a hb))
    have hloop := cleaner_loop_filter (cleaner_expectation_test u) (expectation_scoped_to u)
      ex.kids (fun e he => cleaner_expectation_test_eq u e (hes e he))
    rw [cleaner_aspects]
    simp only [hex, hloop, hl, List.map_cons, spec_aspect_without]

theorem cleaner_spec (r : Receptor) (cid : Option T) (u : UUIDt)
    (hu : __cid_getUUID cid = .ok u)
    (hflux : ∀ a ∈ r.flux.kids, ∃ ex, _t_child (some a) aspectExpectationsIdx = some ex ∧
      ∀ e ∈ ex.kids, ∀ cid, __t_find e CONVERSATION_IDENT ExpectationOptionalsIdx = some cid →
        ∃ cu, __cid_getUUID (some cid) = .ok cu)
    (hpend : ∀ l ∈ r.pending_responses.kids, ∀ cid,
      _t_child (some l) PendingResponseConversationIdentIdx = some cid →
        ∃ cu, __cid_getUUID (some cid) = .ok cu) :
    _cleaner cid r =
      (Receptor.mk (r.flux.setKids (r.flux.kids.map (spec_aspect_without u))) r.pending_signals
        (r.pending_responses.setKids
          (r.pending_responses.kids.filter (fun l => !pending_scoped_to u l)))
        r.conversations r.q r.state, none) := by
  have h1 := cleaner_aspects_map u r.flux.kids hflux
  have h2 := cleaner_loop_filter (cleaner_pending_test u) (pending_scoped_to u)
    r.pending_responses.kids (fun l hl => cleaner_pending_test_eq u l (hpend l hl))
  unfold _cleaner
  simp only [hu, h1, h2]

theorem walk_conversation_eq (c : T) (fn param : WalkArg) (r : Receptor) :
    __r_walk_conversation c fn param r =
      (match walk_call fn param (_t_child (some c) ConversationIdentIdx) r with
       | (r1, some err) => (r1, some err)
       | (r1, none) => __r_walk_conversation_sub c.kids fn param r1) := by
  cases c <;> rw [__r_walk_conversation] <;> rfl

theorem walk_conversation_sub_eq (kids : List T) (fn param : WalkArg) (r : Receptor) :
    __r_walk_conversation_sub kids fn param r =
      (match kids[2]? with
       | some s => __r_walk_conversation_loop s.kids fn param r
       | none => (r, some .null_deref)) := by
  match kids with
  | [] => simp [__r_walk_conversation_sub]
  | [_] => simp [__r_walk_conversation_sub]
  | [_, _] => simp [__r_walk_conversation_sub]
  | _ :: _ :: .node _ _ subs :: _ => simp [__r_walk_conversation_sub]
  | _ :: _ :: .tnode _ _ subs :: _ => simp [__r_walk_conversation_sub]

theorem get_aspect_loop_map (aspect : Aspect) (f : T → T) (hf : ∀ a, (f a).symbol = a.symbol) :
    ∀ (kids : List T) (j : Nat),
      __r_get_aspect_loop aspect (kids.map f) j = __r_get_aspect_loop aspect kids j := by
  intro kids
  induction kids with
  | nil => intro j; rfl
  | cons a l ih =>
    intro j
    simp only [List.map_cons, __r_get_aspect_loop, hf, ih]

theorem spec_aspect_without_symbol (u : UUIDt) (a : T) :
    (spec_aspect_without u a).symbol = a.symbol := by
  unfold spec_aspect_without
  cases _t_child (some a) aspectExpectationsIdx <;> simp

theorem spec_aspect_without_expectations (u : UUIDt) (a : T) :
    (_t_child (some (spec_aspect_without u a)) aspectExpectationsIdx).map T.kids =
      (_t_child (some a) aspectExpectationsIdx).map
        (fun ex => ex.kids.filter (fun e => !expectation_scoped_to u e)) := by
  unfold spec_aspect_without
  cases h : _t_child (some a) aspectExpectationsIdx with
  | none => simp [h]
  | some ex =>
    simp only [child_setChild_same a _ _ ex h, Option.map_some', T.kids_setKids]

theorem flux_expectations_without (u : UUIDt) (flux : T) (aspect : Aspect) :
    flux_expectations (flux.setKids (flux.kids.map (spec_aspect_without u))) aspect =
      (flux_expectations flux aspect).map
        (fun es => es.filter (fun e => !expectation_scoped_to u e)) := by
  unfold flux_expectations
  rw [T.kids_setKids, get_aspect_loop_map aspect _ (spec_aspect_without_symbol u)]
  cases __r_get_aspect_loop aspect flux.kids 1 with
  | none => rfl
  | some i =>
    simp only
    have h1 : _t_get (flux.setKids (flux.kids.map (spec_aspect_without u)))
        [i, aspectExpectationsIdx] =
        _t_child (_t_child (some (flux.setKids (flux.kids.map (spec_aspect_without u)))) i)
          aspectExpectationsIdx := rfl
    have h2 : _t_get flux [i, aspectExpectationsIdx] =
        _t_child (_t_child (some flux) i) aspectExpectationsIdx := rfl
    rw [h1, h2]
    by_cases hi : i = 0
    · simp [_t_child, hi]
    · have hc : _t_child (some (flux.setKids (flux.kids.map (spec_aspect_without u)))) i =
          (_t_child (some flux) i).map (spec_aspect_without u) := by
        simp [_t_child, hi, List.getElem?_map]
      rw [hc]
      cases ha : _t_child (some flux) i with
      | none => simp [_t_child]
      | some a =>
        simp only [Option.map_some']
        rw [spec_aspect_without_expectations, Option.map_map]
        rfl

theorem spec_aspect_without_signals (u : UUIDt) (a : T) :
    _t_child (some (spec_aspect_without u a)) aspectSignalsIdx =
      _t_child (some a) aspectSignalsIdx := by
  unfold spec_aspect_without
  cases h : _t_child (some a) aspectExpectationsIdx with
  | none => rfl
  | some ex => exact child_setChild_other a _ _ _ (by decide) (by decide)

theorem flux_signals_without (u : UUIDt) (flux : T) (aspect : Aspect) :
    flux_signals (flux.setKids (flux.kids.map (spec_aspect_without u))) aspect =
      flux_signals flux aspect := by
  unfold flux_signals
  rw [T.kids_setKids, get_aspect_loop_map aspect _ (spec_aspect_without_symbol u)]
  cases __r_get_aspect_loop aspect flux.kids 1 with
  | none => rfl
  | some i =>
    simp only
    have h1 : _t_get (flux.setKids (flux.kids.map (spec_aspect_without u)))
        [i, aspectSignalsIdx] =
        _t_child (_t_child (some (flux.setKids (flux.kids.map (spec_aspect_without u)))) i)
          aspectSignalsIdx := rfl
    have h2 : _t_get flux [i, aspectSignalsIdx] =
        _t_child (_t_child (some flux) i) aspectSignalsIdx := rfl
    rw [h1, h2]
    by_cases hi : i = 0
    · simp [_t_child, hi]
    · have hc : _t_child (some (flux.setKids (flux.kids.map (spec_aspect_without u)))) i =
          (_t_child (some flux) i).map (spec_aspect_without u) := by
        simp [_t_child, hi, List.getElem?_map]
      rw [hc]
      cases ha : _t_child (some flux) i with
      | none => simp [_t_child]
      | some a =>
        simp only [Option.map_some']
        rw [spec_aspect_without_signals]

theorem child_erase_wakeup (c : T) (j : Nat) (hj : j ≤ 3) :
    _t_child (some (c.setKids (c.kids.eraseIdx (ConversationWakeupIdx - 1)))) j =
      _t_child (some c) j := by
  unfold _t_child
  by_cases h0 : j = 0
  · simp [h0]
  · simp only [h0, if_false, T.kids_setKids]
    rw [List.getElem?_eraseIdx]
    have hlt : j - 1 < 3 := by omega
    simp only [ConversationWakeupIdx, Nat.add_one_sub_one, hlt, if_true]

theorem cleanup_conversation_leaf (r : Receptor) (u : UUIDt) (path : List Nat) (c subs : T)
    (hfind : _r_find_conversation r u = .ok (some path))
    (hget : _t_get r.conversations path = some c)
    (hu : __cid_getUUID (_t_child (some c) ConversationIdentIdx) = .ok u)
    (hsubs : _t_child (some c) ConversationConversationsIdx = some subs)
    (hempty : subs.kids = [])
    (hflux : ∀ a ∈ r.flux.kids, ∃ ex, _t_child (some a) aspectExpectationsIdx = some ex ∧
      ∀ e ∈ ex.kids, ∀ cid, __t_find e CONVERSATION_IDENT ExpectationOptionalsIdx = some cid →
        ∃ cu, __cid_getUUID (some cid) = .ok cu)
    (hpend : ∀ l ∈ r.pending_responses.kids, ∀ cid,
      _t_child (some l) PendingResponseConversationIdentIdx = some cid →
        ∃ cu, __cid_getUUID (some cid) = .ok cu) :
    __r_cleanup_conversation r u =
      (Receptor.mk (r.flux.setKids (r.flux.kids.map (spec_aspect_without u))) r.pending_signals
        (r.pending_responses.setKids
          (r.pending_responses.kids.filter (fun l => !pending_scoped_to u l)))
        (T.detachAt path (T.updateAt
          (fun _ => c.setKids (c.kids.eraseIdx (ConversationWakeupIdx - 1))) path
          r.conversations)) r.q r.state,
       .ok (_t_child (some c) ConversationWakeupIdx)) := by
  have hid := child_erase_wakeup c ConversationIdentIdx (by decide)
  have hsb := child_erase_wakeup c ConversationConversationsIdx (by decide)
  have hk : (c.setKids (c.kids.eraseIdx (ConversationWakeupIdx - 1))).kids[2]? = some subs := by
    rw [← child_three, hsb, hsubs]
  have hclean := cleaner_spec (Receptor.mk r.flux r.pending_signals r.pending_responses
    (T.updateAt (fun _ => c.setKids (c.kids.eraseIdx (ConversationWakeupIdx - 1))) path
      r.conversations) r.q r.state) (_t_child (some c) ConversationIdentIdx) u hu hflux hpend
  have hwalk : __r_walk_conversation (c.setKids (c.kids.eraseIdx (ConversationWakeupIdx - 1)))
      .cleaner .receptor (Receptor.mk r.flux r.pending_signals r.pending_responses
        (T.updateAt (fun _ => c.setKids (c.kids.eraseIdx (ConversationWakeupIdx - 1))) path
          r.conversations) r.q r.state) =
      (Receptor.mk (r.flux.setKids (r.flux.kids.map (spec_aspect_without u))) r.pending_signals
        (r.pending_responses.setKids
          (r.pending_responses.kids.filter (fun l => !pending_scoped_to u l)))
        (T.updateAt (fun _ => c.setKids (c.kids.eraseIdx (ConversationWakeupIdx - 1))) path
          r.conversations) r.q r.state, none) := by
    rw [walk_conversation_eq, hid]
    simp only [walk_call, hclean]
    rw [walk_conversation_sub_eq, hk]
    simp only [hempty, __r_walk_conversation_loop]
  unfold __r_cleanup_conversation
  simp only [hfind, hget, hwalk]

theorem wf_conversation_ident_spec (x : Option T) (h : wf_conversation_ident x = true) :
    ∀ cid, x = some cid → ∃ cu, __cid_getUUID (some cid) = .ok cu := by
  intro cid hx
  subst hx
  unfold wf_conversation_ident at h
  cases hu : __cid_getUUID (some cid) with
  | error e => simp [hu] at h
  | ok cu => exact ⟨cu, rfl⟩

theorem wf_flux_scopes_spec (flux : T) (h : wf_flux_scopes flux = true) :
    ∀ a ∈ flux.kids, ∃ ex, _t_child (some a) aspectExpectationsIdx = some ex ∧
      ∀ e ∈ ex.kids, ∀ cid, __t_find e CONVERSATION_IDENT ExpectationOptionalsIdx = some cid →
        ∃ cu, __cid_getUUID (some cid) = .ok cu := by
  intro a ha
  unfold wf_flux_scopes at h
  have h1 := List.all_eq_true.mp h a ha
  cases hex : _t_child (some a) aspectExpectationsIdx with
  | none => simp [hex] at h1
  | some ex =>
    refine ⟨ex, rfl, ?_⟩
    intro e he
    simp only [hex] at h1
    exact wf_conversation_ident_spec _ (List.all_eq_true.mp h1 e he)

theorem wf_pending_scopes_spec (pr : T) (h : wf_pending_scopes pr = true) :
    ∀ l ∈ pr.kids, ∀ cid, _t_child (some l) PendingResponseConversationIdentIdx = some cid →
      ∃ cu, __cid_getUUID (some cid) = .ok cu := by
  intro l hl
  exact wf_conversation_ident_spec _ (List.all_eq_true.mp h l hl)

/-- C27. A conversation with uuid `u` found in a well-formed registry and having no
sub-conversations, in a receptor whose aspects have their EXPECTATIONS node and whose
conversation ids carry a uuid: `__r_cleanup_conversation` returns, and afterwards the
expectations of every aspect are the former ones that are not scoped to `u`, in their
order, and the pending responses are the former entries that are not scoped to `u`, in
their order; pending signals, process queue and state are unchanged. -/
theorem cleanup_conversation_removes_scoped (r : Receptor) (u : UUIDt) (path : List Nat)
    (subs : T)
    (hwf : wf_conversations r.conversations.kids = true)
    (hfind : _r_find_conversation r u = .ok (some path))
    (hsubs : _t_get r.conversations (path ++ [ConversationConversationsIdx]) = some subs)
    (hempty : subs.kids = [])
    (hflux : wf_flux_scopes r.flux = true)
    (hpend : wf_pending_scopes r.pending_responses = true) :
    ∃ r1 w, __r_cleanup_conversation r u = (r1, .ok w) ∧
      (∀ aspect, flux_expectations r1.flux aspect =
        (flux_expectations r.flux aspect).map
          (fun es => es.filter (fun e => !expectation_scoped_to u e))) ∧
      (∀ aspect, flux_signals r1.flux aspect = flux_signals r.flux aspect) ∧
      r1.flux = r.flux.setKids (r.flux.kids.map (spec_aspect_without u)) ∧
      r1.pending_responses = r.pending_responses.setKids
        (r.pending_responses.kids.filter (fun l => !pending_scoped_to u l)) ∧
      r1.pending_signals = r.pending_signals ∧ r1.q = r.q ∧ r1.state = r.state := by
  obtain ⟨c, -, hget, hu⟩ := find_conversation_some r u path hwf hfind
  have hs : _t_child (some c) ConversationConversationsIdx = some subs := by
    rw [get_append_one, hget] at hsubs
    exact hsubs
  refine ⟨_, _, cleanup_conversation_leaf r u path c subs hfind hget hu hs hempty
      (wf_flux_scopes_spec r.flux hflux) (wf_pending_scopes_spec r.pending_responses hpend),
    fun aspect => flux_expectations_without u r.flux aspect, ?_, rfl, rfl, rfl, rfl, rfl⟩
  intro aspect
  exact flux_signals_without u r.flux aspect

theorem cleanup_conversation_removes_scoped_witness :
    ∃ r1 w, __r_cleanup_conversation demo_conversing ⟨9, 3⟩ = (r1, .ok w) ∧
      flux_expectations r1.flux DEFAULT_ASPECT =
        (flux_expectations demo_conversing.flux DEFAULT_ASPECT).map
          (fun es => es.filter (fun e => !expectation_scoped_to ⟨9, 3⟩ e)) ∧
      r1.pending_responses = demo_conversing.pending_responses.setKids
        (demo_conversing.pending_responses.kids.filter (fun l => !pending_scoped_to ⟨9, 3⟩ l)) :=
  let ⟨r1, w, h1, h2, _, _, h5, _⟩ :=
    cleanup_conversation_removes_scoped demo_conversing ⟨9, 3⟩ [2] (T.node CONVERSATIONS .none [])
      (by decide) (by decide) (by rfl) (by rfl) (by decide) (by decide)
  ⟨r1, w, h1, h2 DEFAULT_ASPECT, h5⟩

/-- The sample cleanup of the conversation (9, 3) evaluated: the expectation and the pending
response scoped to it are gone, the others stay in their order, and no wakeup reference is
returned. -/
theorem cleanup_sample_run :
    (__r_cleanup_conversation demo_conversing ⟨9, 3⟩).2 = .ok none ∧
      flux_expectations (__r_cleanup_conversation demo_conversing ⟨9, 3⟩).1.flux DEFAULT_ASPECT =
        some [demo_conversation_expectation 61 (demo_cid 1),
          demo_conversation_expectation 62 (demo_cid 2), demo_expectation 60 none] ∧
      (__r_cleanup_conversation demo_conversing ⟨9, 3⟩).1.pending_responses.kids =
        [demo_pending_entry] ∧
      _r_find_conversation (__r_cleanup_conversation demo_conversing ⟨9, 3⟩).1 ⟨9, 3⟩ =
        .ok none := by
  decide

theorem walk_conversation_swapped (c : T) (r : Receptor) :
    __r_walk_conversation c .receptor .cleaner r = (r, some .not_a_function) := by
  rw [walk_conversation_eq]
  rfl

theorem cleanup_conversation_nested (r : Receptor) (u : UUIDt) (path : List Nat)
    (c subs s0 : T) (rest : List T)
    (hfind : _r_find_conversation r u = .ok (some path))
    (hget : _t_get r.conversations path = some c)
    (hu : __cid_getUUID (_t_child (some c) ConversationIdentIdx) = .ok u)
    (hsubs : _t_child (some c) ConversationConversationsIdx = some subs)
    (hkids : subs.kids = s0 :: rest)
    (hflux : wf_flux_scopes r.flux = true)
    (hpend : wf_pending_scopes r.pending_responses = true) :
    __r_cleanup_conversation r u =
      (Receptor.mk (r.flux.setKids (r.flux.kids.map (spec_aspect_without u))) r.pending_signals
        (r.pending_responses.setKids
          (r.pending_responses.kids.filter (fun l => !pending_scoped_to u l)))
        (T.updateAt (fun _ => c.setKids (c.kids.eraseIdx (ConversationWakeupIdx - 1))) path
          r.conversations) r.q r.state,
       .error .not_a_function) := by
  have hid := child_erase_wakeup c ConversationIdentIdx (by decide)
  have hsb := child_erase_wakeup c ConversationConversationsIdx (by decide)
  have hk : (c.setKids (c.kids.eraseIdx (ConversationWakeupIdx - 1))).kids[2]? = some subs := by
    rw [← child_three, hsb, hsubs]
  have hclean := cleaner_spec (Receptor.mk r.flux r.pending_signals r.pending_responses
    (T.updateAt (fun _ => c.setKids (c.kids.eraseIdx (ConversationWakeupIdx - 1))) path
      r.conversations) r.q r.state) (_t_child (some c) ConversationIdentIdx) u hu
    (wf_flux_scopes_spec r.flux hflux) (wf_pending_scopes_spec r.pending_responses hpend)
  have hwalk : __r_walk_conversation (c.setKids (c.kids.eraseIdx (ConversationWakeupIdx - 1)))
      .cleaner .receptor (Receptor.mk r.flux r.pending_signals r.pending_responses
        (T.updateAt (fun _ => c.setKids (c.kids.eraseIdx (ConversationWakeupIdx - 1))) path
          r.conversations) r.q r.state) =
      (Receptor.mk (r.flux.setKids (r.flux.kids.map (spec_aspect_without u))) r.pending_signals
        (r.pending_responses.setKids
          (r.pending_responses.kids.filter (fun l => !pending_scoped_to u l)))
        (T.updateAt (fun _ => c.setKids (c.kids.eraseIdx (ConversationWakeupIdx - 1))) path
          r.conversations) r.q r.state, some .not_a_function) := by
    rw [walk_conversation_eq, hid]
    simp only [walk_call, hclean]
    rw [walk_conversation_sub_eq, hk]
    simp only [hkids, __r_walk_conversation_loop, walk_conversation_swapped]
  unfold __r_cleanup_conversation
  simp only [hfind, hget, hwalk]

/-- C28. The receptor `demo_conversing`: the conversation (9, 1) has the sub-conversation
(9, 2), and the default aspect holds an expectation scoped to each. In
`__r_cleanup_conversation` for (9, 1), `_cleaner` removes the expectation scoped to (9, 1);
the walk then reaches the sub-conversation through `__r_walk_conversation(c,param,fn)`,
where the receptor stands in the place of the function, and the call ends there: the
expectation scoped to (9, 2) is still on the aspect. -/
theorem cleanup_nested_conversation_stops :
    (__r_cleanup_conversation demo_conversing ⟨9, 1⟩).2 = .error .not_a_function ∧
      flux_expectations (__r_cleanup_conversation demo_conversing ⟨9, 1⟩).1.flux DEFAULT_ASPECT =
        some [demo_conversation_expectation 62 (demo_cid 2), demo_expectation 60 none,
          demo_conversation_expectation 63 (demo_cid 3)] ∧
      expectation_scoped_to ⟨9, 2⟩ (demo_conversation_expectation 62 (demo_cid 2)) = true := by
  decide

/-- C29. The receptor `demo_conversing`: the conversation (9, 1) was opened with the wakeup
reference `demo_wakeup` and has the sub-conversation (9, 2). `__r_cleanup_conversation` for
(9, 1) ends in the walk of the sub-conversation without returning the wakeup reference, and
the conversation (9, 1) is still found in the registry. -/
theorem cleanup_nested_conversation_returns_nothing :
    _t_get demo_conversing.conversations [1, ConversationWakeupIdx] = some demo_wakeup ∧
      (__r_cleanup_conversation demo_conversing ⟨9, 1⟩).2 = .error .not_a_function ∧
      _r_find_conversation (__r_cleanup_conversation demo_conversing ⟨9, 1⟩).1 ⟨9, 1⟩ =
        .ok (some [1]) := by
  decide

/-! ### New receptors, aspects and subscriptions -/

/-- C34. For every receptor symbol and every context numbering, `_r_new` returns a receptor
whose tree is a RECEPTOR_INSTANCE ending with the RECEPTOR_STATE
`(RECEPTOR_STATE (FLUX (DEFAULT_ASPECT (EXPECTATIONS) (SIGNALS))) (PENDING_SIGNALS)
(PENDING_RESPONSES) (CONVERSATIONS) (RECEPTOR_ELAPSED_TIME:0))`; its fields `flux`,
`pending_signals`, `pending_responses` and `conversations` are the first four children of
that state, its process queue is empty and its lifecycle state is Alive. -/
theorem new_receptor_state (ctx : Contexts) (r : SemanticID) :
    ∃ inst, _r_new ctx r = .ok inst ∧
      _t_child (some inst.root) ReceptorInstanceStateIdx = some _r_make_state ∧
      inst.root.kids.length = 4 ∧ inst.root.symbol = RECEPTOR_INSTANCE ∧
      _t_child (some inst.root) ReceptorInstanceInstOfIdx = some (T.node INSTANCE_OF (.sem r) []) ∧
      _r_make_state = T.node RECEPTOR_STATE .none
        [T.node FLUX .none
          [T.node DEFAULT_ASPECT .none [T.node EXPECTATIONS .none [], T.node SIGNALS .none []]],
         T.node PENDING_SIGNALS .none [], T.node PENDING_RESPONSES .none [],
         T.node CONVERSATIONS .none [], T.node RECEPTOR_ELAPSED_TIME (.int 0) []] ∧
      some inst.receptor.flux = _t_child (some _r_make_state) ReceptorFluxIdx ∧
      some inst.receptor.pending_signals =
        _t_child (some _r_make_state) ReceptorPendingSignalsIdx ∧
      some inst.receptor.pending_responses =
        _t_child (some _r_make_state) ReceptorPendingResponsesIdx ∧
      some inst.receptor.conversations =
        _t_child (some _r_make_state) ReceptorConversationsIdx ∧
      inst.receptor.q = [] ∧ inst.receptor.state = .Alive ∧
      inst.receptor = _r_new_state := by
  have key : ∀ c p : Int,
      __r_init (_t_add (_t_add (_t_add (_t_add (_t_newr RECEPTOR_INSTANCE)
        (_t_news INSTANCE_OF r)) (_t_newi CONTEXT_NUM c)) (_t_newi PARENT_CONTEXT_NUM p))
        _r_make_state) =
      .ok ⟨T.node RECEPTOR_INSTANCE .none [T.node INSTANCE_OF (.sem r) [],
        T.node CONTEXT_NUM (.int c) [], T.node PARENT_CONTEXT_NUM (.int p) [], _r_make_state],
        p, c, _r_new_state⟩ := fun c p => rfl
  have fin : ∀ c p : Int, _r_new ctx r = .ok ⟨T.node RECEPTOR_INSTANCE .none
        [T.node INSTANCE_OF (.sem r) [], T.node CONTEXT_NUM (.int c) [],
         T.node PARENT_CONTEXT_NUM (.int p) [], _r_make_state], p, c, _r_new_state⟩ →
      ∃ inst, _r_new ctx r = .ok inst ∧
      _t_child (some inst.root) ReceptorInstanceStateIdx = some _r_make_state ∧
      inst.root.kids.length = 4 ∧ inst.root.symbol = RECEPTOR_INSTANCE ∧
      _t_child (some inst.root) ReceptorInstanceInstOfIdx = some (T.node INSTANCE_OF (.sem r) []) ∧
      _r_make_state = T.node RECEPTOR_STATE .none
        [T.node FLUX .none
          [T.node DEFAULT_ASPECT .none [T.node EXPECTATIONS .none [], T.node SIGNALS .none []]],
         T.node PENDING_SIGNALS .none [], T.node PENDING_RESPONSES .none [],
         T.node CONVERSATIONS .none [], T.node RECEPTOR_ELAPSED_TIME (.int 0) []] ∧
      some inst.receptor.flux = _t_child (some _r_make_state) ReceptorFluxIdx ∧
      some inst.receptor.pending_signals =
        _t_child (some _r_make_state) ReceptorPendingSignalsIdx ∧
      some inst.receptor.pending_responses =
        _t_child (some _r_make_state) ReceptorPendingResponsesIdx ∧
      some inst.receptor.conversations =
        _t_child (some _r_make_state) ReceptorConversationsIdx ∧
      inst.receptor.q = [] ∧ inst.receptor.state = .Alive ∧
      inst.receptor = _r_new_state :=
    fun c p h => ⟨_, h, rfl, rfl, rfl, rfl, rfl, rfl, rfl, rfl, rfl, rfl, rfl, rfl⟩
  by_cases hr : r = SYS_RECEPTOR
  · refine fin 0 (-1) ?_
    unfold _r_new
    simp only []
    rw [if_pos hr]
    exact key 0 (-1)
  · refine fin (ctx.receptor_context r) (ctx.context r) ?_
    unfold _r_new
    simp only []
    rw [if_neg hr]
    exact key _ _

theorem get_aspect_loop_append_new (aspect : Aspect) (new : T) (hn : aspect = new.symbol) :
    ∀ (kids : List T) (j : Nat), __r_get_aspect_loop aspect kids j = none →
      __r_get_aspect_loop aspect (kids ++ [new]) j = some (j + kids.length) := by
  intro kids
  induction kids with
  | nil =>
    intro j _
    simp [__r_get_aspect_loop, hn]
  | cons a l ih =>
    intro j h
    unfold __r_get_aspect_loop at h
    by_cases ha : aspect = a.symbol
    · simp [ha] at h
    · simp only [ha, if_false] at h
      rw [List.cons_append, __r_get_aspect_loop, if_neg ha, ih (j + 1) h, List.length_cons]
      congr 1
      omega

theorem get_aspect_loop_none_iff (aspect : Aspect) :
    ∀ (kids : List T) (j : Nat),
      __r_get_aspect_loop aspect kids j = none ↔ ∀ a ∈ kids, a.symbol ≠ aspect := by
  intro kids
  induction kids with
  | nil =>
    intro j
    simp [__r_get_aspect_loop]
  | cons a l ih =>
    intro j
    unfold __r_get_aspect_loop
    by_cases ha : aspect = a.symbol
    · simp [ha]
    · rw [if_neg ha, ih (j + 1)]
      constructor
      · intro h b hb
        rcases List.mem_cons.mp hb with hb | hb
        · subst hb
          exact fun hc => ha hc.symm
        · exact h b hb
      · intro h b hb
        exact h b (List.mem_cons_of_mem _ hb)

theorem get_aspect_loop_first (aspect : Aspect) :
    ∀ (kids : List T) (j i : Nat), __r_get_aspect_loop aspect kids j = some i →
      ∀ (k : Nat) (b : T), k < i - j → kids[k]? = some b → b.symbol ≠ aspect := by
  intro kids
  induction kids with
  | nil =>
    intro j i h
    simp [__r_get_aspect_loop] at h
  | cons a l ih =>
    intro j i h k b hk hb
    unfold __r_get_aspect_loop at h
    by_cases ha : aspect = a.symbol
    · rw [if_pos ha] at h
      cases h
      omega
    · rw [if_neg ha] at h
      cases k with
      | zero =>
        simp at hb
        subst hb
        exact fun hc => ha hc.symm
      | succ k =>
        simp at hb
        exact ih (j + 1) i h k b (by omega) hb

/-- C32. When some child of the flux carries the aspect, `__r_get_aspect` returns the flux as
it was and the first child carrying the aspect; when no child carries it, it returns the flux
with one new entry `(aspect (EXPECTATIONS) (SIGNALS))` added after the existing children, and
that entry. In both cases the entry returned carries the aspect; called again on the flux it
has returned, it returns the same flux and the same entry; every child of the flux keeps its
place, and the flux grows by at most one child. -/
theorem get_aspect_existing_or_new (flux : T) (aspect : Aspect) :
    ((∃ a ∈ flux.kids, a.symbol = aspect) →
      ∃ (i : Nat) (a : T), __r_get_aspect flux aspect = (flux, i) ∧
        1 ≤ i ∧ flux.kids[i - 1]? = some a ∧ _t_child (some flux) i = some a ∧
        a.symbol = aspect ∧
        ∀ (j : Nat) (b : T), j < i - 1 → flux.kids[j]? = some b → b.symbol ≠ aspect) ∧
    ((∀ a ∈ flux.kids, a.symbol ≠ aspect) →
      __r_get_aspect flux aspect =
        (flux.setKids (flux.kids ++
          [T.node aspect .none [T.node EXPECTATIONS .none [], T.node SIGNALS .none []]]),
         flux.kids.length + 1) ∧
      _t_child (some (__r_get_aspect flux aspect).1) (__r_get_aspect flux aspect).2 =
        some (T.node aspect .none [T.node EXPECTATIONS .none [], T.node SIGNALS .none []])) ∧
    (∃ a, _t_child (some (__r_get_aspect flux aspect).1) (__r_get_aspect flux aspect).2 =
        some a ∧ a.symbol = aspect) ∧
    __r_get_aspect (__r_get_aspect flux aspect).1 aspect = __r_get_aspect flux aspect ∧
    (∀ (j : Nat) (a : T), flux.kids[j]? = some a →
      (__r_get_aspect flux aspect).1.kids[j]? = some a) ∧
    (__r_get_aspect flux aspect).1.kids.length ≤ flux.kids.length + 1 := by
  cases h : __r_get_aspect_loop aspect flux.kids 1 with
  | some i =>
    have hg : __r_get_aspect flux aspect = (flux, i) := by simp [__r_get_aspect, h]
    obtain ⟨hle, a, ha, hs⟩ := get_aspect_loop_found aspect _ 1 i h
    have hc : _t_child (some flux) i = some a := by
      have : i ≠ 0 := by omega
      simp [_t_child, this, ha]
    refine ⟨fun _ => ⟨i, a, hg, hle, ha, hc, hs.symm,
        get_aspect_loop_first aspect _ 1 i h⟩, fun hn => ?_, ?_, ?_, ?_, ?_⟩
    · rw [(get_aspect_loop_none_iff aspect flux.kids 1).mpr hn] at h
      exact Option.noConfusion h
    · rw [hg]
      exact ⟨a, hc, hs.symm⟩
    · rw [hg]
      exact hg
    · intro j a' hj
      rw [hg]
      exact hj
    · rw [hg]
      exact Nat.le_succ _
  | none =>
    have hg : __r_get_aspect flux aspect =
        (flux.setKids (flux.kids ++
          [T.node aspect .none [T.node EXPECTATIONS .none [], T.node SIGNALS .none []]]),
         flux.kids.length + 1) := by
      simp [__r_get_aspect, h, __r_add_aspect, _t_add, _t_newr, _t_children]
    have hnew := get_aspect_loop_append_new aspect
      (T.node aspect .none [T.node EXPECTATIONS .none [], T.node SIGNALS .none []]) rfl
      flux.kids 1 h
    have hch : _t_child (some (__r_get_aspect flux aspect).1) (__r_get_aspect flux aspect).2 =
        some (T.node aspect .none [T.node EXPECTATIONS .none [], T.node SIGNALS .none []]) := by
      rw [hg]
      simp [_t_child, List.getElem?_append_right]
    refine ⟨fun hex => ?_, fun _ => ⟨hg, hch⟩, ⟨_, hch, rfl⟩, ?_, ?_, ?_⟩
    · obtain ⟨a, ha, hs⟩ := hex
      exact absurd hs ((get_aspect_loop_none_iff aspect flux.kids 1).mp h a ha)
    · rw [hg]
      simp only [__r_get_aspect, T.kids_setKids, hnew]
      congr 1
      omega
    · intro j a hj
      rw [hg]
      have hlt : j < flux.kids.length := by
        by_contra hc
        rw [List.getElem?_eq_none (by omega)] at hj
        exact Option.noConfusion hj
      simp only [T.kids_setKids]
      rw [List.getElem?_append_left hlt]
      exact hj
    · rw [hg]
      simp

/-- C35. The children of the expectation built by `__r_build_expectation` are, in order, the
CARRIER with the carrier, the pattern, the action, the parameters (an empty PARAMS when none
are given), the end-conditions (`(END_CONDITIONS (UNLIMITED))` when none are given), then the
semantic map if one is given, then the conversation id if one is given. With a semantic map
that is a SEMANTIC_MAP and a conversation id that is a CONVERSATION_IDENT, the search from
`ExpectationOptionalsIdx` for CONVERSATION_IDENT returns the conversation id passed in (NULL
when none was), and the search for SEMANTIC_MAP returns the map passed in (NULL when none
was). -/
theorem build_expectation_shape (carrier : Symbol) (pattern action : T)
    (with_ until_ using_ cid : Option T)
    (husing : ∀ m, using_ = some m → m.symbol = SEMANTIC_MAP)
    (hcid : ∀ c, cid = some c → c.symbol = CONVERSATION_IDENT) :
    __r_build_expectation carrier pattern action with_ until_ using_ cid =
        T.node EXPECTATION .none
          ([T.node CARRIER (.sem carrier) [], pattern, action,
            with_.getD (T.node PARAMS .none []),
            until_.getD (T.node END_CONDITIONS .none [T.node UNLIMITED .none []])] ++
           using_.toList ++ cid.toList) ∧
      __t_find (__r_build_expectation carrier pattern action with_ until_ using_ cid)
        CONVERSATION_IDENT ExpectationOptionalsIdx = cid ∧
      __t_find (__r_build_expectation carrier pattern action with_ until_ using_ cid)
        SEMANTIC_MAP ExpectationOptionalsIdx = using_ := by
  have hshape : __r_build_expectation carrier pattern action with_ until_ using_ cid =
      T.node EXPECTATION .none
        ([T.node CARRIER (.sem carrier) [], pattern, action,
          with_.getD (T.node PARAMS .none []),
          until_.getD (T.node END_CONDITIONS .none [T.node UNLIMITED .none []])] ++
         using_.toList ++ cid.toList) := by
    cases with_ <;> cases until_ <;> cases using_ <;> cases cid <;>
      simp [__r_build_expectation, __r_build_default_until, _t_add, _t_newr, _t_news]
  refine ⟨hshape, ?_, ?_⟩
  · rw [hshape]
    cases using_ with
    | none =>
      cases cid with
      | none => simp [__t_find, find_symbol]
      | some c => simp [__t_find, find_symbol, hcid c rfl]
    | some m =>
      have hm := husing m rfl
      cases cid with
      | none => simp [__t_find, find_symbol, hm]
      | some c => simp [__t_find, find_symbol, hm, hcid c rfl]
  · rw [hshape]
    cases using_ with
    | none =>
      cases cid with
      | none => simp [__t_find, find_symbol]
      | some c => simp [__t_find, find_symbol, hcid c rfl]
    | some m =>
      have hm := husing m rfl
      cases cid <;> simp [__t_find, find_symbol, hm]

theorem build_expectation_shape_witness :
    __r_build_expectation demo_PING (demo_pattern demo_LINE) (_t_news ACTION (user 60)) none none
        none (some (demo_cid 1)) =
        T.node EXPECTATION .none
          ([T.node CARRIER (.sem demo_PING) [], demo_pattern demo_LINE, _t_news ACTION (user 60),
            (none : Option T).getD (T.node PARAMS .none []),
            (none : Option T).getD (T.node END_CONDITIONS .none [T.node UNLIMITED .none []])] ++
           (none : Option T).toList ++ (some (demo_cid 1)).toList) ∧
      __t_find (__r_build_expectation demo_PING (demo_pattern demo_LINE)
          (_t_news ACTION (user 60)) none none none (some (demo_cid 1)))
        CONVERSATION_IDENT ExpectationOptionalsIdx = some (demo_cid 1) ∧
      __t_find (__r_build_expectation demo_PING (demo_pattern demo_LINE)
          (_t_news ACTION (user 60)) none none none (some (demo_cid 1)))
        SEMANTIC_MAP ExpectationOptionalsIdx = none :=
  build_expectation_shape demo_PING (demo_pattern demo_LINE) (_t_news ACTION (user 60)) none none
    none (some (demo_cid 1)) (fun m h => Option.noConfusion h)
    (fun c h => by rw [← Option.some.inj h]; rfl)

/-- C36. For a signal whose envelope holds a SIGNAL_UUID, `_r_send` returns the copy of that
SIGNAL_UUID and leaves the signal as the last child of the pending signals, those that were
pending before keeping their places; flux, pending responses, conversation registry,
process queue and state are unchanged. -/
theorem send_queues_signal (r : Receptor) (signal u : T)
    (hu : _t_get signal [SignalEnvelopeIdx, EnvelopeSignalUUIDIdx] = some u) :
    ∃ r1, _r_send r signal = .ok (r1, u) ∧
      r1.pending_signals = r.pending_signals.setKids (r.pending_signals.kids ++ [signal]) ∧
      r1.pending_signals.kids = r.pending_signals.kids ++ [signal] ∧
      r1.flux = r.flux ∧ r1.pending_responses = r.pending_responses ∧
      r1.conversations = r.conversations ∧ r1.q = r.q ∧ r1.state = r.state := by
  have hu1 : _t_child (_t_child (some signal) SignalEnvelopeIdx) EnvelopeSignalUUIDIdx = some u := hu
  refine ⟨Receptor.mk r.flux (_t_add r.pending_signals signal) r.pending_responses
    r.conversations r.q r.state, ?_, rfl, ?_, rfl, rfl, rfl, rfl, rfl⟩
  · simp only [_r_send, __r_send, hu1, _t_clone]
  · simp [_t_add]

theorem send_queues_signal_witness :
    ∃ r1, _r_send _r_new_state (demo_signal 7) = .ok (r1, T.node SIGNAL_UUID (.uuid ⟨1, 7⟩) []) ∧
      r1.pending_signals = _r_new_state.pending_signals.setKids
        (_r_new_state.pending_signals.kids ++ [demo_signal 7]) ∧
      r1.pending_signals.kids = _r_new_state.pending_signals.kids ++ [demo_signal 7] ∧
      r1.flux = _r_new_state.flux ∧ r1.pending_responses = _r_new_state.pending_responses ∧
      r1.conversations = _r_new_state.conversations ∧ r1.q = _r_new_state.q ∧
      r1.state = _r_new_state.state :=
  send_queues_signal _r_new_state (demo_signal 7) (T.node SIGNAL_UUID (.uuid ⟨1, 7⟩) []) (by rfl)

/-! ### More on the end-condition evaluator -/

/-- C37. END_CONDITIONS holding COUNT with value 5 followed by a TIMEOUT_AT deadline of
2020-01-01 00:00:00, evaluated at 2021-01-01 00:00:00 UTC: the loop of
`evaluateEndCondition` visits the TIMEOUT_AT first, which sets cleanup, and the COUNT branch
does not take that back, so the call returns allow = true and cleanup = true where the
COUNT alone gives allow = true and cleanup = false. -/
theorem evaluateEndCondition_count_before_timeout :
    evaluateEndCondition ⟨0, 0, 0, 1, 0, 121⟩
        (some (end_conditions_count_timeout_at 5 2020 1 1 0 0 0)) =
      .ok ⟨end_conditions_count_timeout_at 4 2020 1 1 0 0 0, true, true⟩ ∧
    evaluateEndCondition ⟨0, 0, 0, 1, 0, 121⟩ (some (end_conditions_count 5)) =
      .ok ⟨end_conditions_count 4, false, true⟩ := by
  decide

theorem calendar_before_allows (now : Tm) (y m d h mi s : Int)
    (hy : -2147481748 ≤ y ∧ y ≤ 2147483647) (hm : -2147483647 ≤ m ∧ m ≤ 2147483647)
    (hb : calendar_before now y m d h mi s = true) :
    (decide (wrap32 (y - 1900) > now.tm_year) || decide (wrap32 (m - 1) > now.tm_mon) ||
      decide (d > now.tm_mday) || decide (h > now.tm_hour) ||
      decide (mi > now.tm_min) || decide (s > now.tm_sec)) = true := by
  rw [wrap32_of_int _ (by omega) (by omega), wrap32_of_int _ (by omega) (by omega)]
  simp only [calendar_before, Bool.or_eq_true, Bool.and_eq_true, decide_eq_true_eq] at hb ⊢
  omega

/-- C38. END_CONDITIONS whose only child is a TIMEOUT_AT with the deadline second `s` of
minute `mi` of hour `h` of day `d` of month `m` of year `y` (year and month being such that
`y - 1900` and `m - 1` are `int` values), evaluated at a time `now` that is strictly
earlier than the deadline as a calendar time: `evaluateEndCondition` returns allow = true
and cleanup = false and leaves the tree as it was. -/
theorem evaluateEndCondition_timeout_at_future (now : Tm) (ec c : T) (y m d h mi s : Int)
    (hkids : ec.kids = [c]) (hc : c.symbol = TIMEOUT_AT)
    (hyear : surface_int (_t_child (_t_child (some c) 1) 1) = .ok y)
    (hmonth : surface_int (_t_child (_t_child (some c) 1) 2) = .ok m)
    (hday : surface_int (_t_child (_t_child (some c) 1) 3) = .ok d)
    (hhour : surface_int (_t_child (_t_child (some c) 2) 1) = .ok h)
    (hmin : surface_int (_t_child (_t_child (some c) 2) 2) = .ok mi)
    (hsec : surface_int (_t_child (_t_child (some c) 2) 3) = .ok s)
    (hy : -2147481748 ≤ y ∧ y ≤ 2147483647) (hm : -2147483647 ≤ m ∧ m ≤ 2147483647)
    (hb : calendar_before now y m d h mi s = true) :
    evaluateEndCondition now (some ec) = .ok ⟨ec, false, true⟩ := by
  have ht : timeout_at_test now c = .ok true := by
    unfold timeout_at_test
    simp only [hyear, hmonth, hday, hhour, hmin, hsec]
    rw [calendar_before_allows now y m d h mi s hy hm hb]
  have hset := T.setKids_kids ec
  rw [hkids] at hset
  have hne : c.symbol ≠ COUNT := by rw [hc]; decide
  simp [evaluateEndCondition, _t_children, hkids, evaluateEndCondition_loop, hc, ht, hset]

theorem evaluateEndCondition_timeout_at_future_witness :
    evaluateEndCondition (demo_env true).now (some (end_conditions_timeout_at 2021 1 1 0 0 1)) =
      .ok ⟨end_conditions_timeout_at 2021 1 1 0 0 1, false, true⟩ :=
  evaluateEndCondition_timeout_at_future (demo_env true).now _ (demo_timeout_at 2021 1 1 0 0 1)
    2021 1 1 0 0 1 (by rfl) (by rfl) (by rfl) (by rfl) (by rfl) (by rfl) (by rfl) (by rfl)
    (by decide) (by decide) (by decide)

theorem setChild_of_child (t c : T) (i : Nat) (h : _t_child (some t) i = some c) :
    t.setChild i c = t := by
  unfold _t_child at h
  by_cases hi : i = 0
  · simp [hi] at h
  · simp only [hi, if_false] at h
    have hlt : i - 1 < t.kids.length := by
      by_contra hc
      rw [List.getElem?_eq_none (by omega)] at h
      exact Option.noConfusion h
    rw [List.getElem?_eq_getElem hlt] at h
    have hset : t.kids.set (i - 1) c = t.kids := by
      rw [← Option.some.inj h]
      apply List.ext_getElem? 
      intro n
      by_cases hn : i - 1 = n
      · subst hn
        rw [List.getElem?_set_self hlt, List.getElem?_eq_getElem hlt]
      · rw [List.getElem?_set_ne hn]
    rw [T.setChild, hset, T.setKids_kids]

theorem evaluateEndCondition_empty (now : Tm) (ec : T) (hkids : ec.kids = []) :
    evaluateEndCondition now (some ec) = .ok ⟨ec, false, false⟩ := by
  have hset := T.setKids_kids ec
  rw [hkids] at hset
  simp [evaluateEndCondition, _t_children, hkids, evaluateEndCondition_loop, hset]

/-- C39. For an expectation whose END_CONDITIONS node has no children,
`evaluateEndCondition` returns allow = false and cleanup = false, and every call of
`__r_test_expectation` that returns leaves the expectation, the signal and the process
queue as they were, whatever the signal: nothing is dispatched and the expectation is not
removed. For a signal that passes the carrier and the conversation tests the call does
return. -/
theorem test_expectation_empty_end_conditions (env : Env) (q : List QItem) (e ec signal : T)
    (hec : _t_child (some e) ExpectationEndCondsIdx = some ec) (hkids : ec.kids = []) :
    evaluateEndCondition env.now (some ec) = .ok ⟨ec, false, false⟩ ∧
    (∀ out, __r_test_expectation env q (some e) signal = .ok out →
      out = ⟨some e, signal, q⟩) ∧
    (∀ head body contents pat, signal_head signal = some head → signal_body signal = some body →
      surface_tree (some body) = .ok contents →
      carrier_test (some e) signal = .ok true → conversation_test e head = .ok true →
      _t_child (_t_child (some e) ExpectationPatternIdx) 1 = some pat →
      __r_test_expectation env q (some e) signal = .ok ⟨some e, signal, q⟩) := by
  have hev := evaluateEndCondition_empty env.now ec hkids
  have hsame := setChild_of_child e ec ExpectationEndCondsIdx hec
  refine ⟨hev, ?_, ?_⟩
  · intro out h
    unfold __r_test_expectation at h
    cases hb : signal_body signal with
    | none => rw [hb] at h; exact Except.noConfusion h
    | some body =>
      rw [hb] at h
      simp only at h
      cases hc : carrier_test (some e) signal with
      | error err => rw [hc] at h; simp at h
      | ok b1 =>
        cases hh : signal_head signal with
        | none => rw [hc, hh] at h; simp at h
        | some head =>
          rw [hc, hh] at h
          cases b1 with
          | false =>
            simp only [Except.ok.injEq] at h
            exact h.symm
          | true =>
            simp only at h
            cases hcv : conversation_test e head with
            | error err => rw [hcv] at h; simp at h
            | ok b2 =>
              rw [hcv] at h
              cases b2 with
              | false =>
                simp only [Except.ok.injEq] at h
                exact h.symm
              | true =>
                simp only [hec, hev, hsame] at h
                repeat' split at h
                all_goals first
                  | exact Except.noConfusion h
                  | (simp only [Except.ok.injEq] at h; exact h.symm)
                  | simp_all
  · intro head body contents pat hh hb hcn hc hcv hp
    unfold __r_test_expectation
    simp only [hb, hc, hh, hcv, hp, hcn, hec, hev, hsame]
    split
    · rename_i h1
      exact absurd h1 (by decide)
    · rfl

theorem test_expectation_empty_end_conditions_witness :
    __r_test_expectation (demo_env true) []
        (some (demo_expectation 60 (some (_t_newr END_CONDITIONS)))) (demo_signal 7) =
      .ok ⟨some (demo_expectation 60 (some (_t_newr END_CONDITIONS))), demo_signal 7, []⟩ :=
  (test_expectation_empty_end_conditions (demo_env true) []
    (demo_expectation 60 (some (_t_newr END_CONDITIONS))) (_t_newr END_CONDITIONS) (demo_signal 7)
    (by rfl) (by rfl)).2.2 _ _ _ _ (by rfl) (by rfl) (by rfl) (by decide) (by decide) (by rfl)

/-! ### The aspects of the flux -/

theorem get_aspect_loop_set_symbol (b : Aspect) (a1 : T) :
    ∀ (kids : List T) (j k : Nat) (a : T), kids[k]? = some a → a1.symbol = a.symbol →
      __r_get_aspect_loop b (kids.set k a1) j = __r_get_aspect_loop b kids j := by
  intro kids
  induction kids with
  | nil => intro j k a h; simp at h
  | cons c rest ih =>
    intro j k a h hs
    cases k with
    | zero =>
      simp at h
      subst h
      simp [__r_get_aspect_loop, hs]
    | succ k =>
      simp only [List.set_cons_succ, __r_get_aspect_loop]
      rw [ih (j + 1) k a (by simpa using h) hs]

theorem get_aspect_loop_append_other (b : Aspect) (new : T) (hn : b ≠ new.symbol) :
    ∀ (kids : List T) (j : Nat),
      __r_get_aspect_loop b (kids ++ [new]) j = __r_get_aspect_loop b kids j := by
  intro kids
  induction kids with
  | nil => intro j; simp [__r_get_aspect_loop, hn]
  | cons c rest ih =>
    intro j
    rw [List.cons_append, __r_get_aspect_loop, __r_get_aspect_loop, ih (j + 1)]

theorem get_aspect_loop_lt (aspect : Aspect) (kids : List T) (i : Nat)
    (h : __r_get_aspect_loop aspect kids 1 = some i) :
    1 ≤ i ∧ i - 1 < kids.length ∧ ∃ a, kids[i - 1]? = some a ∧ a.symbol = aspect := by
  obtain ⟨hle, a, ha, hs⟩ := get_aspect_loop_found aspect kids 1 i h
  refine ⟨hle, ?_, a, ha, hs.symm⟩
  by_contra hc
  rw [List.getElem?_eq_none (by omega)] at ha
  exact Option.noConfusion ha

theorem child_of_getElem (t : T) (i : Nat) (hi : 1 ≤ i) :
    _t_child (some t) i = t.kids[i - 1]? := by
  have : i ≠ 0 := by omega
  simp [_t_child, this]

/-- The entry that `__r_get_aspect` returns: it has the symbol `aspect`, a second call finds
it at the same place, and for every other aspect the flux returned has the same first
entry, at the same place, as the flux before. -/
theorem get_aspect_entry (flux : T) (aspect : Aspect) (a : T)
    (ha : _t_child (some (__r_get_aspect flux aspect).1) (__r_get_aspect flux aspect).2 = some a) :
    a.symbol = aspect ∧ 1 ≤ (__r_get_aspect flux aspect).2 ∧
      __r_get_aspect_loop aspect (__r_get_aspect flux aspect).1.kids 1 =
        some (__r_get_aspect flux aspect).2 ∧
      (∀ b, b ≠ aspect →
        __r_get_aspect_loop b (__r_get_aspect flux aspect).1.kids 1 =
          __r_get_aspect_loop b flux.kids 1 ∧
        ∀ k, __r_get_aspect_loop b flux.kids 1 = some k →
          _t_child (some (__r_get_aspect flux aspect).1) k = _t_child (some flux) k) ∧
      (match __r_get_aspect_loop aspect flux.kids 1 with
       | some _ => (__r_get_aspect flux aspect).1 = flux
       | none => a = T.node aspect .none [T.node EXPECTATIONS .none [], T.node SIGNALS .none []]) := by
  cases h : __r_get_aspect_loop aspect flux.kids 1 with
  | some i =>
    have hg : __r_get_aspect flux aspect = (flux, i) := by simp [__r_get_aspect, h]
    rw [hg] at ha ⊢
    obtain ⟨hle, -, a0, ha0, hs⟩ := get_aspect_loop_lt aspect _ i h
    rw [child_of_getElem flux i hle, ha0] at ha
    cases ha
    exact ⟨hs, hle, h, fun b _ => ⟨rfl, fun k _ => rfl⟩, rfl⟩
  | none =>
    have hg : __r_get_aspect flux aspect =
        (flux.setKids (flux.kids ++
          [T.node aspect .none [T.node EXPECTATIONS .none [], T.node SIGNALS .none []]]),
         flux.kids.length + 1) := by
      simp [__r_get_aspect, h, __r_add_aspect, _t_add, _t_newr, _t_children]
    rw [hg] at ha ⊢
    have hnew := get_aspect_loop_append_new aspect
      (T.node aspect .none [T.node EXPECTATIONS .none [], T.node SIGNALS .none []]) rfl
      flux.kids 1 h
    have hav : a = T.node aspect .none [T.node EXPECTATIONS .none [], T.node SIGNALS .none []] := by
      simp [_t_child, List.getElem?_append_right] at ha
      exact ha.symm
    refine ⟨by rw [hav]; rfl, by simp, ?_, ?_, hav⟩
    · simp only [T.kids_setKids, hnew]
      congr 1
      omega
    · intro b hb
      simp only [T.kids_setKids]
      refine ⟨get_aspect_loop_append_other b _ (by simpa using hb) flux.kids 1, ?_⟩
      intro k hk
      obtain ⟨hle, hlt, -⟩ := get_aspect_loop_lt b _ k hk
      rw [child_of_getElem _ k hle, child_of_getElem _ k hle, T.kids_setKids,
        List.getElem?_append_left hlt]

theorem flux_expectations_part (flux : T) (aspect : Aspect) :
    flux_expectations flux aspect = flux_part aspectExpectationsIdx flux aspect := rfl

theorem flux_signals_part (flux : T) (aspect : Aspect) :
    flux_signals flux aspect = flux_part aspectSignalsIdx flux aspect := rfl

theorem get_two (t : T) (i j : Nat) : _t_get t [i, j] = _t_child (_t_child (some t) i) j := rfl

theorem flux_part_written (idx : Nat) (flux : T) (aspect : Aspect) (a a2 : T)
    (ha : _t_child (some (__r_get_aspect flux aspect).1) (__r_get_aspect flux aspect).2 = some a)
    (hs : a2.symbol = a.symbol) :
    flux_part idx ((__r_get_aspect flux aspect).1.setChild (__r_get_aspect flux aspect).2 a2)
        aspect = (_t_child (some a2) idx).map T.kids ∧
    (∀ b, b ≠ aspect →
      flux_part idx ((__r_get_aspect flux aspect).1.setChild (__r_get_aspect flux aspect).2 a2)
        b = flux_part idx flux b) := by
  obtain ⟨hsym, hle, hloop, hother, -⟩ := get_aspect_entry flux aspect a ha
  have hk : (__r_get_aspect flux aspect).1.kids[(__r_get_aspect flux aspect).2 - 1]? = some a := by
    rw [← child_of_getElem _ _ hle]
    exact ha
  constructor
  · unfold flux_part
    rw [T.kids_setChild, get_aspect_loop_set_symbol aspect a2 _ 1 _ a hk hs, hloop]
    simp only [get_two, child_setChild_same _ _ a2 a ha]
  · intro b hb
    obtain ⟨h1, h2⟩ := hother b hb
    unfold flux_part
    rw [T.kids_setChild, get_aspect_loop_set_symbol b a2 _ 1 _ a hk hs, h1]
    cases hl : __r_get_aspect_loop b flux.kids 1 with
    | none => rfl
    | some k =>
      simp only [get_two]
      obtain ⟨hlek, -, c, hc, hcs⟩ := get_aspect_loop_lt b _ k hl
      have hne : (__r_get_aspect flux aspect).2 ≠ k := by
        intro heq
        have h3 := h2 k hl
        rw [← heq, ha, heq, child_of_getElem flux k hlek, hc] at h3
        have : a = c := Option.some.inj h3
        rw [this, hcs] at hsym
        exact hb hsym
      rw [child_setChild_other _ _ k a2 hle hne, h2 k hl]

theorem flux_part_before (idx : Nat) (flux : T) (aspect : Aspect) (a x : T)
    (ha : _t_child (some (__r_get_aspect flux aspect).1) (__r_get_aspect flux aspect).2 = some a)
    (hx : _t_child (some a) idx = some x) (hidx : idx = 1 ∨ idx = 2) :
    (flux_part idx flux aspect).getD [] = x.kids := by
  obtain ⟨-, -, hloop, -, hcase⟩ := get_aspect_entry flux aspect a ha
  unfold flux_part
  cases h : __r_get_aspect_loop aspect flux.kids 1 with
  | some i =>
    rw [h] at hcase
    simp only at hcase
    rw [hcase] at ha hloop
    rw [h] at hloop
    cases hloop
    simp only [get_two, ha, hx, Option.map_some', Option.getD_some]
  | none =>
    rw [h] at hcase
    simp only at hcase
    subst hcase
    rcases hidx with rfl | rfl
    · simp [_t_child] at hx
      rw [← hx]
      rfl
    · simp [_t_child] at hx
      rw [← hx]
      rfl

theorem get_aspect_expectations (flux : T) (aspect : Aspect)
    (hwf : __r_get_aspect_loop aspect flux.kids 1 = none ∨
      ∃ es, flux_expectations flux aspect = some es) :
    ∃ a es, _t_child (some (__r_get_aspect flux aspect).1) (__r_get_aspect flux aspect).2 =
        some a ∧ _t_child (some a) aspectExpectationsIdx = some es := by
  rcases hwf with h | ⟨es, h⟩
  · have hg : __r_get_aspect flux aspect =
        (flux.setKids (flux.kids ++
          [T.node aspect .none [T.node EXPECTATIONS .none [], T.node SIGNALS .none []]]),
         flux.kids.length + 1) := by
      simp [__r_get_aspect, h, __r_add_aspect, _t_add, _t_newr, _t_children]
    rw [hg]
    refine ⟨T.node aspect .none [T.node EXPECTATIONS .none [], T.node SIGNALS .none []],
      T.node EXPECTATIONS .none [], ?_, rfl⟩
    simp [_t_child, List.getElem?_append_right]
  · obtain ⟨i, a, ex, hi, ha, hex, -⟩ := flux_expectations_some flux aspect es h
    have hg : __r_get_aspect flux aspect = (flux, i) := by simp [__r_get_aspect, hi]
    rw [hg]
    exact ⟨a, ex, ha, hex⟩

theorem add_expectation_step (r : Receptor) (aspect : Aspect) (e : T)
    (hwf : __r_get_aspect_loop aspect r.flux.kids 1 = none ∨
      ∃ es, flux_expectations r.flux aspect = some es) :
    ∃ r1, __r_add_expectation r aspect e = .ok r1 ∧
      flux_expectations r1.flux aspect =
        some ((flux_expectations r.flux aspect).getD [] ++ [e]) ∧
      (flux_signals r1.flux aspect).getD [] = (flux_signals r.flux aspect).getD [] ∧
      (∀ b, b ≠ aspect → flux_expectations r1.flux b = flux_expectations r.flux b ∧
        flux_signals r1.flux b = flux_signals r.flux b) ∧
      (__r_get_aspect_loop aspect r.flux.kids 1 = none →
        r1.flux = r.flux.setKids (r.flux.kids ++
          [T.node aspect .none [T.node EXPECTATIONS .none [e], T.node SIGNALS .none []]])) ∧
      ((__r_get_aspect_loop aspect r.flux.kids 1).isSome = true →
        r1.flux.kids.length = r.flux.kids.length) ∧
      r1.pending_signals = r.pending_signals ∧ r1.pending_responses = r.pending_responses ∧
      r1.conversations = r.conversations ∧ r1.q = r.q ∧ r1.state = r.state := by
  obtain ⟨a, es, ha, hes⟩ := get_aspect_expectations r.flux aspect hwf
  have hget : _t_get (__r_get_aspect r.flux aspect).1
      [(__r_get_aspect r.flux aspect).2, aspectExpectationsIdx] = some es := by
    rw [get_two, ha, hes]
  have hupd : T.updateAt (fun x => _t_add x e)
      [(__r_get_aspect r.flux aspect).2, aspectExpectationsIdx] (__r_get_aspect r.flux aspect).1 =
      (__r_get_aspect r.flux aspect).1.setChild (__r_get_aspect r.flux aspect).2
        (a.setChild aspectExpectationsIdx (_t_add es e)) := by
    rw [updateAt_cons _ _ _ _ a ha, updateAt_cons _ _ _ _ es hes]
    rfl
  have hsym : (a.setChild aspectExpectationsIdx (_t_add es e)).symbol = a.symbol := by simp
  have hw1 := flux_part_written aspectExpectationsIdx r.flux aspect a _ ha hsym
  have hw2 := flux_part_written aspectSignalsIdx r.flux aspect a _ ha hsym
  have hb1 := flux_part_before aspectExpectationsIdx r.flux aspect a es ha hes (Or.inl rfl)
  refine ⟨Receptor.mk ((__r_get_aspect r.flux aspect).1.setChild (__r_get_aspect r.flux aspect).2
      (a.setChild aspectExpectationsIdx (_t_add es e))) r.pending_signals r.pending_responses
      r.conversations r.q r.state, ?_, ?_, ?_, ?_, ?_, ?_, rfl, rfl, rfl, rfl, rfl⟩
  · unfold __r_add_expectation
    simp only [hget, hupd]
  · rw [flux_expectations_part, flux_expectations_part, hw1.1, hb1,
      child_setChild_same a _ _ es hes]
    simp [_t_add]
  · rw [flux_signals_part, flux_signals_part, hw2.1,
      child_setChild_other a _ _ _ (by decide) (by decide)]
    cases has : _t_child (some a) aspectSignalsIdx with
    | some as =>
      rw [flux_part_before aspectSignalsIdx r.flux aspect a as ha has (Or.inr rfl)]
      rfl
    | none =>
      obtain ⟨-, -, hloop, -, hcase⟩ := get_aspect_entry r.flux aspect a ha
      cases hl : __r_get_aspect_loop aspect r.flux.kids 1 with
      | none =>
        rw [hl] at hcase
        simp only at hcase
        rw [hcase] at has
        simp [_t_child] at has
      | some i =>
        rw [hl] at hcase
        simp only at hcase
        rw [hcase] at ha hloop
        rw [hl] at hloop
        cases hloop
        simp [flux_part, hl, get_two, ha, has]
  · intro b hb
    exact ⟨hw1.2 b hb, hw2.2 b hb⟩
  · intro hnone
    obtain ⟨-, -, -, -, hcase⟩ := get_aspect_entry r.flux aspect a ha
    rw [hnone] at hcase
    simp only at hcase
    have hg : __r_get_aspect r.flux aspect =
        (r.flux.setKids (r.flux.kids ++
          [T.node aspect .none [T.node EXPECTATIONS .none [], T.node SIGNALS .none []]]),
         r.flux.kids.length + 1) := by
      simp [__r_get_aspect, hnone, __r_add_aspect, _t_add, _t_newr, _t_children]
    rw [hcase] at hes
    simp [_t_child] at hes
    subst hes
    simp only [hg, hcase, T.setChild, T.kids_setKids, T.setKids_setKids]
    congr 1
    simp [_t_add, T.setKids]
  · intro hsome
    cases hl : __r_get_aspect_loop aspect r.flux.kids 1 with
    | none => rw [hl] at hsome; simp at hsome
    | some i =>
      have hg : __r_get_aspect r.flux aspect = (r.flux, i) := by simp [__r_get_aspect, hl]
      simp [hg]

theorem add_expectations_in_order (aspect : Aspect) :
    ∀ (es : List T) (r : Receptor),
      (__r_get_aspect_loop aspect r.flux.kids 1 = none ∨
        ∃ es0, flux_expectations r.flux aspect = some es0) →
      ∃ r1, add_expectations aspect r es = .ok r1 ∧
        (flux_expectations r1.flux aspect).getD [] =
          (flux_expectations r.flux aspect).getD [] ++ es ∧
        (∀ b, b ≠ aspect → flux_expectations r1.flux b = flux_expectations r.flux b ∧
          flux_signals r1.flux b = flux_signals r.flux b) := by
  intro es
  induction es with
  | nil =>
    intro r _
    exact ⟨r, rfl, by simp, fun b _ => ⟨rfl, rfl⟩⟩
  | cons e rest ih =>
    intro r hwf
    obtain ⟨r1, h1, h2, -, h4, -⟩ := add_expectation_step r aspect e hwf
    obtain ⟨r2, g1, g2, g3⟩ := ih r1 (Or.inr ⟨_, h2⟩)
    refine ⟨r2, by simp [add_expectations, h1, g1], ?_, ?_⟩
    · rw [g2, h2]
      simp
    · intro b hb
      exact ⟨(g3 b hb).1.trans (h4 b hb).1, (g3 b hb).2.trans (h4 b hb).2⟩

/-- C31. For a receptor in which the named aspect is new or has its EXPECTATIONS node:
`__r_add_expectation` returns, and the expectations of the aspect are then the former ones
followed by the new one (the new one alone for a new aspect, whose entry becomes the last
child of the flux); its signal log, the expectations and the log of every other aspect,
and the rest of the receptor are unchanged. `_r_add_expectation` is the same call on the
expectation built by `__r_build_expectation`, and after a sequence of subscriptions the
expectations of the aspect are the former ones followed by the subscribed ones in the order
of subscription. -/
theorem add_expectation_appends (r : Receptor) (aspect : Aspect) (e : T)
    (hwf : __r_get_aspect_loop aspect r.flux.kids 1 = none ∨
      ∃ es, flux_expectations r.flux aspect = some es) :
    (∃ r1, __r_add_expectation r aspect e = .ok r1 ∧
      flux_expectations r1.flux aspect =
        some ((flux_expectations r.flux aspect).getD [] ++ [e]) ∧
      (flux_signals r1.flux aspect).getD [] = (flux_signals r.flux aspect).getD [] ∧
      (∀ b, b ≠ aspect → flux_expectations r1.flux b = flux_expectations r.flux b ∧
        flux_signals r1.flux b = flux_signals r.flux b) ∧
      (__r_get_aspect_loop aspect r.flux.kids 1 = none →
        r1.flux = r.flux.setKids (r.flux.kids ++
          [T.node aspect .none [T.node EXPECTATIONS .none [e], T.node SIGNALS .none []]])) ∧
      ((__r_get_aspect_loop aspect r.flux.kids 1).isSome = true →
        r1.flux.kids.length = r.flux.kids.length) ∧
      r1.pending_signals = r.pending_signals ∧ r1.pending_responses = r.pending_responses ∧
      r1.conversations = r.conversations ∧ r1.q = r.q ∧ r1.state = r.state) ∧
    (∀ carrier pattern action with_ until_ using_ cid,
      _r_add_expectation r aspect carrier pattern action with_ until_ using_ cid =
        __r_add_expectation r aspect
          (__r_build_expectation carrier pattern action with_ until_ using_ cid)) ∧
    (∀ es, ∃ r1, add_expectations aspect r es = .ok r1 ∧
      (flux_expectations r1.flux aspect).getD [] =
        (flux_expectations r.flux aspect).getD [] ++ es ∧
      (∀ b, b ≠ aspect → flux_expectations r1.flux b = flux_expectations r.flux b ∧
        flux_signals r1.flux b = flux_signals r.flux b)) :=
  ⟨add_expectation_step r aspect e hwf, fun _ _ _ _ _ _ _ => rfl,
    fun es => add_expectations_in_order aspect es r hwf⟩

theorem add_expectation_appends_witness :
    ∃ r1, add_expectations (user 80) _r_new_state
        [demo_expectation 60 none, demo_expectation 61 none, demo_expectation 62 none] = .ok r1 ∧
      (flux_expectations r1.flux (user 80)).getD [] =
        (flux_expectations _r_new_state.flux (user 80)).getD [] ++
          [demo_expectation 60 none, demo_expectation 61 none, demo_expectation 62 none] ∧
      (∀ b, b ≠ user 80 → flux_expectations r1.flux b = flux_expectations _r_new_state.flux b ∧
        flux_signals r1.flux b = flux_signals _r_new_state.flux b) :=
  (add_expectation_appends _r_new_state (user 80) (demo_expectation 60 none)
    (Or.inl (by rfl))).2.2
    [demo_expectation 60 none, demo_expectation 61 none, demo_expectation 62 none]

/-! ### What a delivery changes -/

theorem run_trees_append (l1 l2 : List QItem) :
    run_trees (l1 ++ l2) = run_trees l1 ++ run_trees l2 := by
  induction l1 with
  | nil => rfl
  | cons a l ih => cases a <;> simp [run_trees, ih]

theorem setKids_append_nil (s : T) : s.setKids (s.kids ++ []) = s := by
  rw [List.append_nil, T.setKids_kids]

theorem test_expectation_run_trees (env : Env) (q : List QItem) (e : Option T) (s : T)
    (out : TestOutcome) (h : __r_test_expectation env q e s = .ok out) :
    ∃ items, out.q = q ++ items ∧ out.signal = s.setKids (s.kids ++ run_trees items) ∧
      items.length ≤ 1 := by
  have hnil : ∀ x, out = ⟨x, s, q⟩ →
      ∃ items, out.q = q ++ items ∧ out.signal = s.setKids (s.kids ++ run_trees items) ∧
        items.length ≤ 1 := by
    intro x hx
    subst hx
    exact ⟨[], by simp, by simp [run_trees, setKids_append_nil], by simp⟩
  unfold __r_test_expectation at h
  cases hb : signal_body s with
  | none => rw [hb] at h; exact Except.noConfusion h
  | some body =>
    rw [hb] at h
    simp only at h
    cases e with
    | none =>
      cases hc : carrier_test none s <;> rw [hc] at h <;> simp at h
    | some ex =>
      cases hc : carrier_test (some ex) s with
      | error err => rw [hc] at h; simp at h
      | ok b1 =>
        cases hh : signal_head s with
        | none => rw [hc, hh] at h; simp at h
        | some head =>
          rw [hc, hh] at h
          cases b1 with
          | false =>
            simp only [Except.ok.injEq] at h
            exact hnil _ h.symm
          | true =>
            simp only at h
            cases hcv : conversation_test ex head with
            | error err => rw [hcv] at h; simp at h
            | ok b2 =>
              rw [hcv] at h
              cases b2 with
              | false =>
                simp only [Except.ok.injEq] at h
                exact hnil _ h.symm
              | true =>
                simp only at h
                cases hp : _t_child (_t_child (some ex) ExpectationPatternIdx) 1 with
                | none => rw [hp] at h; simp at h
                | some pat =>
                  cases hct : surface_tree (some body) with
                  | error err => rw [hp, hct] at h; simp at h
                  | ok contents =>
                    rw [hp, hct] at h
                    simp only at h
                    cases hev : evaluateEndCondition env.now
                        (_t_child (some ex) ExpectationEndCondsIdx) with
                    | error err => rw [hev] at h; simp at h
                    | ok ec =>
                      obtain ⟨ect, cl, al⟩ := ec
                      rw [hev] at h
                      simp only at h
                      cases al with
                      | false =>
                        simp only [Except.ok.injEq] at h
                        exact hnil _ h.symm
                      | true =>
                        cases hm : env.matchr (_t_add (_t_news SEMTREX_GROUP NULL_SYMBOL)
                            (_t_clone pat)) contents with
                        | none =>
                          rw [hm] at h
                          simp only [Except.ok.injEq] at h
                          exact hnil _ h.symm
                        | some m =>
                          rw [hm] at h
                          simp only at h
                          repeat' split at h
                          all_goals first
                            | exact Except.noConfusion h
                            | (simp only [Except.ok.injEq] at h
                               subst h
                               refine ⟨[_], rfl, ?_, by simp⟩
                               simp [run_trees, _t_add])

theorem test_expectations_run_trees (env : Env) :
    ∀ (n i : Nat) (es : List T) (s : T) (q : List QItem) (es1 : List T) (s1 : T)
      (q1 : List QItem), test_expectations env n i es s q = .ok (es1, s1, q1) →
      ∃ items, q1 = q ++ items ∧ s1 = s.setKids (s.kids ++ run_trees items) := by
  intro n
  induction n with
  | zero =>
    intro i es s q es1 s1 q1 h
    simp only [test_expectations, Except.ok.injEq, Prod.mk.injEq] at h
    obtain ⟨-, rfl, rfl⟩ := h
    exact ⟨[], by simp, by simp [run_trees, setKids_append_nil]⟩
  | succ n ih =>
    intro i es s q es1 s1 q1 h
    rw [test_expectations] at h
    split at h
    · simp only [Except.ok.injEq, Prod.mk.injEq] at h
      obtain ⟨-, rfl, rfl⟩ := h
      exact ⟨[], by simp, by simp [run_trees, setKids_append_nil]⟩
    · cases ht : __r_test_expectation env q (es[i - 1]?) s with
      | error err => rw [ht] at h; exact Except.noConfusion h
      | ok out =>
        rw [ht] at h
        simp only at h
        obtain ⟨items1, hq1, hs1, -⟩ := test_expectation_run_trees env q _ s out ht
        obtain ⟨items2, hq2, hs2⟩ := ih _ _ _ _ _ _ _ h
        refine ⟨items1 ++ items2, by rw [hq2, hq1, List.append_assoc], ?_⟩
        rw [hs2, hs1, run_trees_append]
        simp

theorem deliver_plain_inv (env : Env) (r r2 : Receptor) (signal : T) (e : Error)
    (h : _r_deliver env r signal = .ok (r2, e))
    (hresp : (head_optionals (signal_head signal)).response_to = none) :
    ∃ r1 aspect a as es es1 s1 q1,
      open_conversation r (head_optionals (signal_head signal)) = .ok r1 ∧
      surface_sem (_t_child (signal_head signal) HeadAspectIdx) = .ok aspect ∧
      _t_child (some (__r_get_aspect r1.flux aspect).1) (__r_get_aspect r1.flux aspect).2 =
        some a ∧
      _t_child (some a) aspectSignalsIdx = some as ∧
      _t_child (some a) aspectExpectationsIdx = some es ∧
      test_expectations env (_t_children es) 1 es.kids signal r1.q = .ok (es1, s1, q1) ∧
      r2 = Receptor.mk ((__r_get_aspect r1.flux aspect).1.setChild (__r_get_aspect r1.flux aspect).2
        ((a.setChild aspectSignalsIdx (_t_add as s1)).setChild aspectExpectationsIdx
          (es.setKids es1))) r1.pending_signals r1.pending_responses r1.conversations q1
        r1.state := by
  unfold _r_deliver at h
  simp only [hresp] at h
  cases hopen : open_conversation r (head_optionals (signal_head signal)) with
  | error err => rw [hopen] at h; exact Except.noConfusion h
  | ok r1 =>
    rw [hopen] at h
    simp only at h
    cases hasp : surface_sem (_t_child (signal_head signal) HeadAspectIdx) with
    | error err => rw [hasp] at h; exact Except.noConfusion h
    | ok aspect =>
      rw [hasp] at h
      simp only at h
      cases ha : _t_child (some (__r_get_aspect r1.flux aspect).1)
          (__r_get_aspect r1.flux aspect).2 with
      | none => rw [ha] at h; exact Except.noConfusion h
      | some a =>
        rw [ha] at h
        simp only at h
        cases has : _t_child (some a) aspectSignalsIdx with
        | none => rw [has] at h; simp at h
        | some as =>
          cases hes : _t_child (some a) aspectExpectationsIdx with
          | none => rw [has, hes] at h; simp at h
          | some es =>
            rw [has, hes] at h
            simp only at h
            cases hloop : test_expectations env (_t_children es) 1 es.kids signal r1.q with
            | error err => rw [hloop] at h; exact Except.noConfusion h
            | ok res =>
              obtain ⟨es1, s1, q1⟩ := res
              rw [hloop] at h
              simp only [Except.ok.injEq, Prod.mk.injEq] at h
              exact ⟨r1, aspect, a, as, es, es1, s1, q1, rfl, rfl, ha, has, hes, hloop,
                h.1.symm⟩

theorem deliver_plain_effect (env : Env) (r r2 : Receptor) (signal : T) (e : Error)
    (hd : _r_deliver env r signal = .ok (r2, e))
    (hresp : (head_optionals (signal_head signal)).response_to = none) :
    ∃ aspect items,
      surface_sem (_t_child (signal_head signal) HeadAspectIdx) = .ok aspect ∧
      r2.q = r.q ++ items ∧
      flux_signals r2.flux aspect =
        some ((flux_signals r.flux aspect).getD [] ++
          [signal.setKids (signal.kids ++ run_trees items)]) ∧
      (∀ b, b ≠ aspect → flux_expectations r2.flux b = flux_expectations r.flux b ∧
        flux_signals r2.flux b = flux_signals r.flux b) ∧
      r2.pending_responses = r.pending_responses ∧ r2.pending_signals = r.pending_signals ∧
      r2.state = r.state := by
  obtain ⟨r1, aspect, a, as, es, es1, s1, q1, hopen, hasp, ha, has, hes, hloop, hr2⟩ :=
    deliver_plain_inv env r r2 signal e hd hresp
  obtain ⟨f1, f2, f3, f4, f5⟩ := open_conversation_frame r r1 _ hopen
  obtain ⟨items, hq, hs⟩ := test_expectations_run_trees env _ _ _ _ _ _ _ _ hloop
  have hsym : ((a.setChild aspectSignalsIdx (_t_add as s1)).setChild aspectExpectationsIdx
      (es.setKids es1)).symbol = a.symbol := by simp
  have hw1 := flux_part_written aspectExpectationsIdx r1.flux aspect a _ ha hsym
  have hw2 := flux_part_written aspectSignalsIdx r1.flux aspect a _ ha hsym
  have hb2 := flux_part_before aspectSignalsIdx r1.flux aspect a as ha has (Or.inr rfl)
  refine ⟨aspect, items, hasp, ?_, ?_, ?_, ?_, ?_, ?_⟩
  · rw [hr2, ← f4]
    exact hq
  · rw [hr2, flux_signals_part, flux_signals_part, hw2.1, ← f1, hb2,
      child_setChild_other _ _ _ _ (by decide) (by decide),
      child_setChild_same a _ _ as has, hs]
    simp [_t_add]
  · intro b hb
    rw [hr2, ← f1]
    exact ⟨hw1.2 b hb, hw2.2 b hb⟩
  · rw [hr2, ← f3]
  · rw [hr2, ← f2]
  · rw [hr2, ← f5]

/-- C33, refuted as stated. A receptor whose default aspect holds one Unlimited expectation
with a process action, and a matching signal: after `_r_deliver` the signal recorded in the
log of the aspect is the signal with the run tree of the dispatch added as a further child,
not the signal that was passed in. -/
theorem deliver_logs_signal_with_run_tree :
    flux_signals (demo_deliver (demo_receptor [demo_expectation 60 none]) (demo_signal 7)).flux
        DEFAULT_ASPECT = some [_t_add (demo_signal 7) (demo_run_tree 60 7)] ∧
      (_t_add (demo_signal 7) (demo_run_tree 60 7)).kids.length =
        (demo_signal 7).kids.length + 1 ∧
      _t_add (demo_signal 7) (demo_run_tree 60 7) ≠ demo_signal 7 ∧
      _r_deliver (demo_env true) (demo_receptor [demo_expectation 60 none]) (demo_signal 7) =
        .ok (demo_deliver (demo_receptor [demo_expectation 60 none]) (demo_signal 7),
          .noDeliveryErr) := by
  decide

/-- C33, amended. For every signal without IN_RESPONSE_TO_UUID that `_r_deliver` delivers,
the signal recorded last in the log of its aspect, after all expectations have been tested,
is the signal passed in followed by the run trees that the delivery has handed to the
process queue, in order, one for each dispatch of a process action: symbol, surface,
envelope and message are those passed in, and the recorded signal is identical to the one
passed in exactly in so far as no run tree was enqueued. -/
theorem deliver_logs_signal_and_run_trees (env : Env) (r r2 : Receptor) (signal : T)
    (e : Error)
    (hd : _r_deliver env r signal = .ok (r2, e))
    (hresp : (head_optionals (signal_head signal)).response_to = none) :
    ∃ aspect items,
      surface_sem (_t_child (signal_head signal) HeadAspectIdx) = .ok aspect ∧
      r2.q = r.q ++ items ∧
      flux_signals r2.flux aspect =
        some ((flux_signals r.flux aspect).getD [] ++
          [signal.setKids (signal.kids ++ run_trees items)]) ∧
      (run_trees items = [] →
        flux_signals r2.flux aspect = some ((flux_signals r.flux aspect).getD [] ++ [signal])) := by
  obtain ⟨aspect, items, h1, h2, h3, -⟩ := deliver_plain_effect env r r2 signal e hd hresp
  refine ⟨aspect, items, h1, h2, h3, ?_⟩
  intro hnone
  rw [h3, hnone, setKids_append_nil]

theorem deliver_logs_signal_and_run_trees_witness :
    ∃ aspect items,
      surface_sem (_t_child (signal_head (demo_signal 7)) HeadAspectIdx) = .ok aspect ∧
      (demo_deliver (demo_receptor [demo_expectation 60 none]) (demo_signal 7)).q =
        (demo_receptor [demo_expectation 60 none]).q ++ items ∧
      flux_signals (demo_deliver (demo_receptor [demo_expectation 60 none]) (demo_signal 7)).flux
          aspect =
        some ((flux_signals (demo_receptor [demo_expectation 60 none]).flux aspect).getD [] ++
          [(demo_signal 7).setKids ((demo_signal 7).kids ++ run_trees items)]) ∧
      (run_trees items = [] →
        flux_signals (demo_deliver (demo_receptor [demo_expectation 60 none])
            (demo_signal 7)).flux aspect =
          some ((flux_signals (demo_receptor [demo_expectation 60 none]).flux aspect).getD [] ++
            [demo_signal 7])) :=
  deliver_logs_signal_and_run_trees (demo_env true) (demo_receptor [demo_expectation 60 none])
    (demo_deliver (demo_receptor [demo_expectation 60 none]) (demo_signal 7)) (demo_signal 7)
    .noDeliveryErr (by decide) (by rfl)

/-- C40. For every signal without IN_RESPONSE_TO_UUID that `_r_deliver` delivers on the
aspect named in its head: the expectations and the signal log of every other aspect, the
pending responses, the pending signals and the lifecycle state are as before the
delivery. -/
theorem deliver_other_aspects_unchanged (env : Env) (r r2 : Receptor) (signal : T) (e : Error)
    (hd : _r_deliver env r signal = .ok (r2, e))
    (hresp : (head_optionals (signal_head signal)).response_to = none) :
    ∃ aspect, surface_sem (_t_child (signal_head signal) HeadAspectIdx) = .ok aspect ∧
      (∀ b, b ≠ aspect → flux_expectations r2.flux b = flux_expectations r.flux b ∧
        flux_signals r2.flux b = flux_signals r.flux b) ∧
      r2.pending_responses = r.pending_responses ∧ r2.pending_signals = r.pending_signals ∧
      r2.state = r.state := by
  obtain ⟨aspect, items, h1, -, -, h4, h5, h6, h7⟩ :=
    deliver_plain_effect env r r2 signal e hd hresp
  exact ⟨aspect, h1, h4, h5, h6, h7⟩

theorem deliver_other_aspects_unchanged_witness :
    ∃ aspect, surface_sem (_t_child (signal_head (demo_signal 7)) HeadAspectIdx) = .ok aspect ∧
      (∀ b, b ≠ aspect →
        flux_expectations (demo_deliver demo_conversing (demo_signal 7)).flux b =
          flux_expectations demo_conversing.flux b ∧
        flux_signals (demo_deliver demo_conversing (demo_signal 7)).flux b =
          flux_signals demo_conversing.flux b) ∧
      (demo_deliver demo_conversing (demo_signal 7)).pending_responses =
        demo_conversing.pending_responses ∧
      (demo_deliver demo_conversing (demo_signal 7)).pending_signals =
        demo_conversing.pending_signals ∧
      (demo_deliver demo_conversing (demo_signal 7)).state = demo_conversing.state :=
  deliver_other_aspects_unchanged (demo_env true) demo_conversing
    (demo_deliver demo_conversing (demo_signal 7)) (demo_signal 7) .noDeliveryErr (by decide)
    (by rfl)

/-- C4. A Count(2) expectation subscribed after a Count(1) expectation on the same aspect,
both with a process action, and three signals that each pass its carrier and conversation
tests and match its pattern (tested on its own against the first signal it is dispatched).
When the child count of the expectation list is read again on every pass, the first delivery
dispatches the Count(1) expectation, removes it and ends without testing the Count(2)
expectation; the second and the third signal are then dispatched to the Count(2) expectation,
which is removed only by the third. Not the first two signals but the last two are
dispatched, and the third signal does produce a dispatch. When the child count is read once,
the first delivery reads a child that is no longer there. -/
theorem count_expectation_misses_first_signal :
    flux_expectations (demo_receptor [demo_expectation 59 (some (end_conditions_count 1)),
        demo_expectation 60 (some (end_conditions_count 2))]).flux DEFAULT_ASPECT =
      some [demo_expectation 59 (some (end_conditions_count 1)),
        demo_expectation 60 (some (end_conditions_count 2))] ∧
    (∃ out, __r_test_expectation (demo_env true) []
        (some (demo_expectation 60 (some (end_conditions_count 2)))) (demo_signal 7) = .ok out ∧
      out.q = [QItem.addrt2q (demo_run_tree 60 7) none]) ∧
    (deliver_all (demo_env true)
        (demo_receptor [demo_expectation 59 (some (end_conditions_count 1)),
          demo_expectation 60 (some (end_conditions_count 2))])
        [demo_signal 7]).toOption.map
        (fun r1 => (r1.q, flux_expectations r1.flux DEFAULT_ASPECT)) =
      some ([QItem.addrt2q (demo_run_tree 59 7) none],
        some [demo_expectation 60 (some (end_conditions_count 2))]) ∧
    (deliver_all (demo_env true)
        (demo_receptor [demo_expectation 59 (some (end_conditions_count 1)),
          demo_expectation 60 (some (end_conditions_count 2))])
        [demo_signal 7, demo_signal 8]).toOption.map
        (fun r1 => (r1.q, flux_expectations r1.flux DEFAULT_ASPECT)) =
      some ([QItem.addrt2q (demo_run_tree 59 7) none, QItem.addrt2q (demo_run_tree 60 8) none],
        some [demo_expectation 60 (some (end_conditions_count 1))]) ∧
    (deliver_all (demo_env true)
        (demo_receptor [demo_expectation 59 (some (end_conditions_count 1)),
          demo_expectation 60 (some (end_conditions_count 2))])
        [demo_signal 7, demo_signal 8, demo_signal 9]).toOption.map
        (fun r1 => (r1.q, flux_expectations r1.flux DEFAULT_ASPECT)) =
      some ([QItem.addrt2q (demo_run_tree 59 7) none, QItem.addrt2q (demo_run_tree 60 8) none,
        QItem.addrt2q (demo_run_tree 60 9) none], some []) ∧
    _r_deliver (demo_env false)
        (demo_receptor [demo_expectation 59 (some (end_conditions_count 1)),
          demo_expectation 60 (some (end_conditions_count 2))])
        (demo_signal 7) = .error .null_deref :=
  ⟨by decide, ⟨_, by rfl, by decide⟩, by decide, by decide, by decide, by decide⟩

/-- C16. An Unlimited expectation (built without end-conditions) subscribed after a Count(1)
expectation on the same aspect, both with a process action, and two signals that each pass
its carrier and conversation tests and match its pattern (tested on its own against the first
signal it is dispatched). When the child count of the expectation list is read again on every
pass, the first delivery dispatches the Count(1) expectation, removes it and ends without
testing the Unlimited expectation: there is no dispatch of the Unlimited expectation for the
first signal, only for the second. When the child count is read once, the first delivery
reads a child that is no longer there and the sequence is not delivered. -/
theorem unlimited_expectation_misses_signal :
    flux_expectations (demo_receptor [demo_expectation 59 (some (end_conditions_count 1)),
        demo_expectation 62 none]).flux DEFAULT_ASPECT =
      some [demo_expectation 59 (some (end_conditions_count 1)), demo_expectation 62 none] ∧
    (∃ out, __r_test_expectation (demo_env true) []
        (some (demo_expectation 62 none)) (demo_signal 7) = .ok out ∧
      out.q = [QItem.addrt2q (demo_run_tree 62 7) none]) ∧
    (deliver_all (demo_env true)
        (demo_receptor [demo_expectation 59 (some (end_conditions_count 1)),
          demo_expectation 62 none])
        [demo_signal 7]).toOption.map
        (fun r1 => (r1.q, flux_expectations r1.flux DEFAULT_ASPECT)) =
      some ([QItem.addrt2q (demo_run_tree 59 7) none], some [demo_expectation 62 none]) ∧
    (deliver_all (demo_env true)
        (demo_receptor [demo_expectation 59 (some (end_conditions_count 1)),
          demo_expectation 62 none])
        [demo_signal 7, demo_signal 8]).toOption.map
        (fun r1 => (r1.q, flux_expectations r1.flux DEFAULT_ASPECT)) =
      some ([QItem.addrt2q (demo_run_tree 59 7) none, QItem.addrt2q (demo_run_tree 62 8) none],
        some [demo_expectation 62 none]) ∧
    deliver_all (demo_env false)
        (demo_receptor [demo_expectation 59 (some (end_conditions_count 1)),
          demo_expectation 62 none])
        [demo_signal 7, demo_signal 8] = .error .null_deref :=
  ⟨by decide, ⟨_, by rfl, by decide⟩, by decide, by decide, by decide⟩

/-- A flux with two aspects, the second a user aspect: asking for the first returns the flux
as it was with index 1, asking for the second returns it with index 2, and asking for a third
adds one entry at index 3. -/
theorem get_aspect_sample_run :
    __r_get_aspect (__r_add_aspect _r_new_state.flux (.user 80)) DEFAULT_ASPECT =
      (__r_add_aspect _r_new_state.flux (.user 80), 1) ∧
    __r_get_aspect (__r_add_aspect _r_new_state.flux (.user 80)) (.user 80) =
      (__r_add_aspect _r_new_state.flux (.user 80), 2) ∧
    __r_get_aspect (__r_add_aspect _r_new_state.flux (.user 80)) (.user 81) =
      (__r_add_aspect (__r_add_aspect _r_new_state.flux (.user 80)) (.user 81), 3) := by
  decide

end Ceptr
